import Mathlib

/-!
# Profile update and custom-field validation (`src/user/profile.js`)

A shallow embedding of the profile module of the forum: the custom-field
validator (`validateField`, `checkReputation`, `checkLength`, `checkType`),
the built-in validators run by `validateData`, and `User.updateProfile`
over an explicit store.

JavaScript values are embedded as `JSVal`.  Numbers are the integers plus
`NaN` (reputation, thresholds, lengths and ids are integral in this module).
Objects are association lists of own properties; a missing key reads as
`undefined`.  Library and platform functions whose code is not part of the
module (`validator.isURL`, `utils.isNumber`, `JSON.parse`, `slugify`, the
plugin hooks, ...) are fields of `Env`: every theorem holds for all of them.
-/

namespace NodeBB

/-! ## JavaScript values -/

/-- A JavaScript number of this module: an integer or `NaN`. -/
inductive JSNum
  | int (n : Int)
  | nan
  deriving DecidableEq, Repr

/-- A JavaScript value as it can arrive in a request body, come out of
`JSON.parse` or be read from an object: `func name arity` is a built-in
function, such as the ones every object inherits. -/
inductive JSVal
  | undefined
  | null
  | bool (b : Bool)
  | num (x : JSNum)
  | str (s : String)
  | arr (xs : List JSVal)
  | obj (kvs : List (String × JSVal))
  | func (name : String) (arity : Nat)
  deriving Repr

/-- An object: its own properties, first binding of a key wins. -/
abbrev JSObject := List (String × JSVal)

/-- The own property `k` of an object, `undefined` when the object has no such
own property: the read of a field of a stored hash, and the read `o[k]` of an
object for the keys the module names itself (`uid`, `email`, `username`, ...),
none of which is a property of `Object.prototype`. -/
def JSObject.get : JSObject → String → JSVal
  | [], _ => .undefined
  | (k', v) :: rest, k => if k' = k then v else JSObject.get rest k

/-- The assignment `o[k] = v`. -/
def JSObject.set : JSObject → String → JSVal → JSObject
  | [], k, v => [(k, v)]
  | (k', v') :: rest, k, v =>
    if k' = k then (k, v) :: rest else (k', v') :: JSObject.set rest k v

/-- The functions every object inherits from `Object.prototype`, as a read
gives them. -/
def objectPrototypeFunctions : JSObject :=
  [("constructor", .func "Object" 1),
   ("__defineGetter__", .func "__defineGetter__" 2),
   ("__defineSetter__", .func "__defineSetter__" 2),
   ("hasOwnProperty", .func "hasOwnProperty" 1),
   ("__lookupGetter__", .func "__lookupGetter__" 1),
   ("__lookupSetter__", .func "__lookupSetter__" 1),
   ("isPrototypeOf", .func "isPrototypeOf" 1),
   ("propertyIsEnumerable", .func "propertyIsEnumerable" 1),
   ("toString", .func "toString" 0),
   ("valueOf", .func "valueOf" 0),
   ("toLocaleString", .func "toLocaleString" 0)]

/-- The properties of `Object.prototype` as a plain object reads them: its
functions, and under `__proto__` the prototype itself. -/
def objectPrototype : JSObject :=
  objectPrototypeFunctions ++ [("__proto__", .obj objectPrototypeFunctions)]

/-- Whether the object has the own property `k`. -/
def JSObject.hasOwn (o : JSObject) (k : String) : Bool :=
  o.any (fun p => p.1 == k)

/-- The property read `o[k]` of a plain object for any key: the own property
when the object has one, else the property inherited from `Object.prototype`,
else `undefined`. -/
def JSObject.read (o : JSObject) (k : String) : JSVal :=
  if o.hasOwn k then o.get k else objectPrototype.get k

/-- The test `v === undefined`. -/
def JSVal.isUndefined : JSVal → Bool
  | .undefined => true
  | _ => false

/-- JavaScript truthiness (`ToBoolean`). -/
def JSVal.truthy : JSVal → Bool
  | .undefined => false
  | .null => false
  | .bool b => b
  | .num (.int n) => n != 0
  | .num .nan => false
  | .str s => s != ""
  | .arr _ => true
  | .obj _ => true
  | .func _ _ => true

mutual
/-- The conversion `String(v)`. -/
def JSVal.toStr : JSVal → String
  | .undefined => "undefined"
  | .null => "null"
  | .bool b => if b then "true" else "false"
  | .num (.int n) => toString n
  | .num .nan => "NaN"
  | .str s => s
  | .arr xs => JSVal.joinStr xs
  | .obj _ => "[object Object]"
  | .func name _ => "function " ++ name ++ "() { [native code] }"
/-- The method `Array.prototype.join` with the default separator. -/
def JSVal.joinStr : List JSVal → String
  | [] => ""
  | [x] => JSVal.elemStr x
  | x :: y :: rest => JSVal.elemStr x ++ "," ++ JSVal.joinStr (y :: rest)
/-- The text of one array element inside `join`: `undefined` and `null`
give the empty string. -/
def JSVal.elemStr : JSVal → String
  | .undefined => ""
  | .null => ""
  | .bool b => if b then "true" else "false"
  | .num (.int n) => toString n
  | .num .nan => "NaN"
  | .str s => s
  | .arr xs => JSVal.joinStr xs
  | .obj _ => "[object Object]"
  | .func name _ => "function " ++ name ++ "() { [native code] }"
end

/-- The comparison `a < b` on numbers: false as soon as one side is `NaN`. -/
def JSNum.lt : JSNum → JSNum → Bool
  | .int a, .int b => decide (a < b)
  | _, _ => false

/-- The comparison `a === b` on numbers: `NaN` equals nothing. -/
def JSNum.strictEq : JSNum → JSNum → Bool
  | .int a, .int b => decide (a = b)
  | _, _ => false

/-! ## JavaScript strings -/

/-- The property `s.length`: the number of UTF-16 code units, two for a
character outside the basic plane. -/
def jsLength (s : String) : Nat :=
  (s.data.map (fun c => if c.val < 0x10000 then 1 else 2)).sum

/-- White space and line terminators, as `String.prototype.trim` strips them. -/
def isJSWhitespace (c : Char) : Bool :=
  let n := c.toNat
  n == 0x09 || n == 0x0A || n == 0x0B || n == 0x0C || n == 0x0D || n == 0x20 ||
  n == 0xA0 || n == 0x1680 || (0x2000 ≤ n && n ≤ 0x200A) || n == 0x2028 ||
  n == 0x2029 || n == 0x202F || n == 0x205F || n == 0x3000 || n == 0xFEFF

/-- The method `s.trim()`. -/
def jsTrim (s : String) : String :=
  String.mk ((s.data.dropWhile isJSWhitespace).reverse.dropWhile isJSWhitespace).reverse

/-- The split of a character list at every line feed; the pieces keep their
order and an empty piece stands between two adjacent line feeds. -/
def splitLF : List Char → List (List Char)
  | [] => [[]]
  | c :: rest =>
    if c = '\n' then [] :: splitLF rest
    else
      match splitLF rest with
      | [] => [[c]]
      | piece :: pieces => (c :: piece) :: pieces

/-- The method `s.split('\n')`. -/
def jsSplitLines (s : String) : List String :=
  (splitLF s.data).map String.mk

/-- The expression `text.split('\n').filter(Boolean)`: the non-empty lines. -/
def optionList (text : String) : List String :=
  (jsSplitLines text).filter (fun l => l != "")

/-- The replacement `s.replace(/\r\n/g, '\n')`. -/
def replaceCRLF : List Char → List Char
  | [] => []
  | [c] => [c]
  | c :: d :: rest =>
    if c = '\r' ∧ d = '\n' then '\n' :: replaceCRLF rest
    else c :: replaceCRLF (d :: rest)

/-! ## Errors -/

/-- Modelled from the spec: the translator (`tx.compile`) is not among the
sources.  Spec, section 7: every surfaced error is "a stable code string with
embedded parameters".  A message is either a literal text or a compiled key:
the code together with its arguments, each already converted by `String`. -/
inductive Message
  | text (s : String)
  | compiled (code : String) (args : List String)
  deriving DecidableEq, Repr

/-- The call `tx.compile(code, ...args)`. -/
def tx.compile (code : String) (args : List String) : Message :=
  .compiled code args

/-- What a `throw` carries: an `Error` built by the module, or an exception
raised by the runtime or a library (`TypeError`, the `SyntaxError` of
`JSON.parse`). -/
inductive JSError
  | error (msg : Message)
  | typeError
  | syntaxError
  deriving DecidableEq, Repr

/-- Equality of results is decidable when errors and values are. -/
instance instDecidableEqExcept {ε α : Type} [DecidableEq ε] [DecidableEq α] :
    DecidableEq (Except ε α)
  | .ok a, .ok b => if h : a = b then isTrue (by rw [h]) else isFalse (by simpa using h)
  | .error a, .error b => if h : a = b then isTrue (by rw [h]) else isFalse (by simpa using h)
  | .ok _, .error _ => isFalse (by simp)
  | .error _, .ok _ => isFalse (by simp)

/-! ## Configuration, custom field definitions, collaborators -/

/-- The entries of `meta.config` the module reads. -/
structure Config where
  reputationDisabled : Bool
  minimumUsernameLength : Int
  maximumUsernameLength : Int
  maximumAboutMeLength : Int
  maximumSignatureLength : Int
  minRepAboutme : Int
  minRepSignature : Int
  allowMultipleBadges : Bool
  passwordDisableEdit : Bool

/-- A custom field definition, the object stored under
`user-custom-field:<key>`: `minRep` is `field['min:rep']` (an integer, or
unset) and `selectOptions` is `field['select-options']` (a text, or unset). -/
structure CustomField where
  key : String
  name : String
  type : String
  minRep : Option Int
  selectOptions : Option String
  deriving DecidableEq, Repr

/-! ## The store -/

/-- Modelled from the spec: the storage engine is not among the sources.
Spec, section 6: "get/set scalar fields on an entity by id; add/remove/
range-query members of an ordered set by score".  Hash objects by key, ordered
sets by key (entries in ascending order of score, then of member), and the
custom field definitions stored under `user-custom-field:<key>`. -/
structure DB where
  objects : List (String × JSObject)
  sortedSets : List (String × List (Int × String))
  fieldDefs : List (String × CustomField)

/-- The object stored under a key; no property when there is none. -/
def DB.getObject (db : DB) (key : String) : JSObject :=
  match db.objects.find? (fun p => p.1 == key) with
  | some p => p.2
  | none => []

/-- The replacement of the object stored under a key. -/
def putObject : List (String × JSObject) → String → JSObject → List (String × JSObject)
  | [], key, o => [(key, o)]
  | (k, o') :: rest, key, o =>
    if k = key then (key, o) :: rest else (k, o') :: putObject rest key o

/-- The write of one field of the object stored under a key. -/
def DB.setObjectField (db : DB) (key field : String) (value : JSVal) : DB :=
  { db with objects := putObject db.objects key ((db.getObject key).set field value) }

/-- The write of several fields of the object stored under a key. -/
def DB.setObject (db : DB) (key : String) (fields : JSObject) : DB :=
  let merged := fields.foldl (fun o p => o.set p.1 p.2) (db.getObject key)
  { db with objects := putObject db.objects key merged }

/-- The entries of the ordered set stored under a key. -/
def DB.getSortedSet (db : DB) (key : String) : List (Int × String) :=
  match db.sortedSets.find? (fun p => p.1 == key) with
  | some p => p.2
  | none => []

/-- The replacement of the ordered set stored under a key. -/
def putSortedSet : List (String × List (Int × String)) → String → List (Int × String) →
    List (String × List (Int × String))
  | [], key, es => [(key, es)]
  | (k, es') :: rest, key, es =>
    if k = key then (key, es) :: rest else (k, es') :: putSortedSet rest key es

/-- The insertion of an entry at its place in ascending order of score, then
of member. -/
def insertEntry (score : Int) (member : String) : List (Int × String) → List (Int × String)
  | [] => [(score, member)]
  | (s, m) :: rest =>
    if score < s ∨ (score = s ∧ member < m) then (score, member) :: (s, m) :: rest
    else (s, m) :: insertEntry score member rest

/-- The members of an ordered set in order: `getSortedSetRange(key, 0, -1)`. -/
def DB.getSortedSetRange (db : DB) (key : String) : List String :=
  (db.getSortedSet key).map (fun e => e.2)

/-- The membership test of an ordered set. -/
def DB.isSortedSetMember (db : DB) (key member : String) : Bool :=
  (db.getSortedSet key).any (fun e => e.2 == member)

/-- The removal of a member from an ordered set. -/
def DB.sortedSetRemove (db : DB) (key member : String) : DB :=
  let others := (db.getSortedSet key).filter (fun e => e.2 != member)
  { db with sortedSets := putSortedSet db.sortedSets key others }

/-- The addition of a member with a score: a member already present moves
to its new score. -/
def DB.sortedSetAdd (db : DB) (key : String) (score : Int) (member : String) : DB :=
  let others := (db.getSortedSet key).filter (fun e => e.2 != member)
  { db with sortedSets := putSortedSet db.sortedSets key (insertEntry score member others) }

/-- The definitions stored under the given keys, the missing ones dropped:
`(await db.getObjects(keys)).filter(Boolean)`. -/
def DB.getFieldDefs (db : DB) (keys : List String) : List CustomField :=
  keys.filterMap (fun k => (db.fieldDefs.find? (fun p => p.1 == k)).map (fun p => p.2))

/-- The collaborators of the module: configuration, library predicates,
platform conversions and plugin hooks. -/
structure Env where
  config : Config
  /-- The predicate `utils.isNumber`. -/
  isNumber : JSVal → Bool
  /-- The predicate `validator.isURL` on strings. -/
  isURL : String → Bool
  /-- The predicate `validator.isDate`. -/
  isDate : JSVal → Bool
  /-- The predicate `validator.isJSON` on strings. -/
  isJSON : String → Bool
  /-- The function `JSON.parse` on strings; `none` is a `SyntaxError`. -/
  jsonParse : String → Option JSVal
  /-- The function `JSON.stringify`. -/
  jsonStringify : JSVal → String
  /-- The predicate `utils.isEmailValid` on strings. -/
  isEmailValid : String → Bool
  /-- The predicate `utils.isUserNameValid` on strings. -/
  isUserNameValid : String → Bool
  /-- The function `slugify`. -/
  slugify : String → String
  /-- The predicate `groups.isPrivilegeGroup`. -/
  isPrivilegeGroup : JSVal → Bool
  /-- Whether `new Date(v).toString()` is `'Invalid Date'`. -/
  isInvalidDate : JSVal → Bool
  /-- The conversion `Number(s)` on strings. -/
  stringToNumber : String → JSNum
  /-- The function `parseInt(s, 10)` on strings. -/
  parseInt10 : String → JSNum
  /-- The method `s.toLowerCase()`. -/
  toLowerCase : String → String
  /-- The clock `Date.now()`. -/
  now : Int
  /-- The hook `filter:user.updateProfile`: the handlers' result on
  `(uid, data, fields)`, or the error one of them raised. -/
  filterUpdateProfile : JSVal → JSObject → List String → Except JSError (JSObject × List String)
  /-- The hook `filter:username.check`: the `error` property of its result. -/
  filterUsernameCheck : String → Except JSError (Option JSError)
  /-- The query `User.email.isValidationPending(uid, email)`. -/
  isValidationPending : DB → JSVal → String → Bool
  /-- The outcome of `User.email.sendValidationEmail`: `some stack` when the
  promise is rejected. -/
  sendValidationEmail : JSVal → String → Option String
  /-- The check `User.isPasswordValid(password)`, called for the error it
  throws on a password it rejects. -/
  isPasswordValid : JSVal → Except JSError Unit
  /-- The query `User.isAdministrator(uid)`. -/
  isAdministrator : DB → JSVal → Bool
  /-- The query `User.hasPassword(uid)`. -/
  hasPassword : DB → JSVal → Bool
  /-- The hook `filter:password.check` on `(password, uid)`: the error a
  handler raised, if any. -/
  filterPasswordCheck : JSVal → JSVal → Except JSError Unit
  /-- The query `User.isPasswordCorrect(uid, password, ip)`. -/
  isPasswordCorrect : DB → JSVal → JSVal → JSVal → Bool
  /-- The function `User.hashPassword`. -/
  hashPassword : JSVal → String
  /-- The value `utils.generateUUID()` of this call. -/
  generateUUID : String

/-! ## The field validator -/

/-- The expression `field['min:rep'] || 0`. -/
def CustomField.minRepOrZero (field : CustomField) : Int :=
  match field.minRep with
  | some n => if n ≠ 0 then n else 0
  | none => 0

/-- The function `throwError(code, field)` of the module (the name is taken in Lean). -/
def throwFieldError (code : String) (field : CustomField) : Except JSError Unit :=
  .error (.error (tx.compile code [field.name]))

/-- The function `checkReputation(field, reputation)`. -/
def checkReputation (env : Env) (field : CustomField) (reputation : JSNum) :
    Except JSError Unit :=
  let minRep := field.minRepOrZero
  if JSNum.lt reputation (.int minRep) && !env.config.reputationDisabled then
    .error (.error (tx.compile "error:not-enough-reputation-custom-field"
      [toString minRep, field.name]))
  else .ok ()

/-- The function `checkLength(field, value)`. -/
def checkLength (field : CustomField) (value : JSVal) : Except JSError Unit :=
  match value with
  | .str s =>
    if jsLength s > 255 then
      .error (.error (tx.compile "error:custom-user-field-value-too-long" [field.name]))
    else .ok ()
  | _ => .ok ()

/-- The call `validator.isURL(input)`: the library asserts that its input is
a string and raises a `TypeError` otherwise. -/
def validatorIsURL (env : Env) : JSVal → Except JSError Bool
  | .str s => .ok (env.isURL s)
  | _ => .error .typeError

/-- The test `opts.includes(val)` on a list of strings. -/
def includesVal (opts : List String) : JSVal → Bool
  | .str s => opts.contains s
  | _ => false

/-- The test `val !== ''`. -/
def JSVal.isEmptyStr : JSVal → Bool
  | .str s => s == ""
  | _ => false

/-- The function `checkType(field, value)`: the validator table indexed by
`field.type`.  A type outside the table has no validator, with the keys the
table inherits from `Object.prototype` apart: `__proto__` is not callable, and
`__defineGetter__` and `__defineSetter__` reject a missing function. -/
def checkType (env : Env) (field : CustomField) (val : JSVal) : Except JSError Unit :=
  match field.type with
  | "input-number" =>
    if !env.isNumber val then throwFieldError "error:custom-user-field-invalid-number" field
    else .ok ()
  | "input-text" =>
    if val.truthy then
      match validatorIsURL env val with
      | .error e => .error e
      | .ok true => throwFieldError "error:custom-user-field-invalid-text" field
      | .ok false => .ok ()
    else .ok ()
  | "input-date" =>
    if val.truthy && !env.isDate val then
      throwFieldError "error:custom-user-field-invalid-date" field
    else .ok ()
  | "input-link" =>
    if val.truthy && !env.isURL val.toStr then
      throwFieldError "error:custom-user-field-invalid-link" field
    else .ok ()
  | "select" =>
    match field.selectOptions with
    | none => .error .typeError
    | some text =>
      let opts := optionList text
      if !includesVal opts val && !val.isEmptyStr then
        throwFieldError "error:custom-user-field-select-value-invalid" field
      else .ok ()
  | "select-multi" =>
    match field.selectOptions with
    | none => .error .typeError
    | some text =>
      let opts := optionList text
      match env.jsonParse (if val.truthy then val.toStr else "[]") with
      | none => .error .syntaxError
      | some (.arr values) =>
        if !values.all (includesVal opts) then
          throwFieldError "error:custom-user-field-select-value-invalid" field
        else .ok ()
      | some _ => throwFieldError "error:custom-user-field-select-value-invalid" field
  | "__proto__" => .error .typeError
  | "__defineGetter__" => .error .typeError
  | "__defineSetter__" => .error .typeError
  | _ => .ok ()

/-- The function `validateField(field, value, reputation)`. -/
def validateField (env : Env) (field : CustomField) (value : JSVal) (reputation : JSNum) :
    Except JSError Unit :=
  if value.isUndefined then .ok ()
  else
    match checkReputation env field reputation with
    | .error e => .error e
    | .ok () =>
      match checkLength field value with
      | .error e => .error e
      | .ok () => checkType env field value

/-- The loop of `validateCustomFields`: `validateField` on each definition in
turn with `data[field.key]`, stopping at the first failure. -/
def validateFieldsLoop (env : Env) (data : JSObject) (reputation : JSNum) :
    List CustomField → Except JSError Unit
  | [] => .ok ()
  | field :: rest =>
    match validateField env field (data.read field.key) reputation with
    | .error e => .error e
    | .ok () => validateFieldsLoop env data reputation rest

/-! ## A sample environment for the worked examples -/

/-- A sample configuration: reputation enabled, usernames of 2 to 16 units. -/
def demoConfig : Config where
  reputationDisabled := false
  minimumUsernameLength := 2
  maximumUsernameLength := 16
  maximumAboutMeLength := 1000
  maximumSignatureLength := 255
  minRepAboutme := 0
  minRepSignature := 0
  allowMultipleBadges := false
  passwordDisableEdit := false

/-- A sample environment with no hook handler registered and small stand-ins
for the library predicates. -/
def demoEnv : Env where
  config := demoConfig
  isNumber := fun v =>
    match v with
    | .num (.int _) => true
    | .str s => s != "" && s.data.all Char.isDigit
    | _ => false
  isURL := fun s => "https://".data.isPrefixOf s.data
  isDate := fun v =>
    match v with
    | .str s => s.data.length == 10
    | _ => false
  isJSON := fun s => "[".data.isPrefixOf s.data
  jsonParse := fun s =>
    if s = "[]" then some (.arr [])
    else if s = "[\"C\"]" then some (.arr [.str "C"])
    else if s = "[\"C\", \"Ruby\"]" then some (.arr [.str "C", .str "Ruby"])
    else if s = "13" then some (.num (.int 13))
    else none
  jsonStringify := fun v => v.toStr
  isEmailValid := fun s => s.data.contains '@'
  isUserNameValid := fun s => s != ""
  slugify := fun s => s
  isPrivilegeGroup := fun _ => false
  isInvalidDate := fun v =>
    match v with
    | .str s => s.data.length != 10
    | _ => false
  stringToNumber := fun s =>
    match s.toInt? with
    | some n => .int n
    | none => .nan
  parseInt10 := fun s =>
    match s.toInt? with
    | some n => .int n
    | none => .nan
  toLowerCase := fun s => String.mk (s.data.map Char.toLower)
  now := 1700000000000
  filterUpdateProfile := fun _ data fields => .ok (data, fields)
  filterUsernameCheck := fun _ => .ok none
  isValidationPending := fun _ _ _ => false
  sendValidationEmail := fun _ _ => none
  isPasswordValid := fun v =>
    match v with
    | .str s =>
      if s = "" then .error (.error (.text "[[error:invalid-password]]"))
      else if s.length < 6 then .error (.error (.text "[[reset_password:password-too-short]]"))
      else .ok ()
    | _ => .error (.error (.text "[[error:invalid-password]]"))
  isAdministrator := fun _ _ => false
  hasPassword := fun store uid =>
    ((store.getObject ("user:" ++ uid.toStr)).get "password").truthy
  filterPasswordCheck := fun _ _ => .ok ()
  isPasswordCorrect := fun store uid password _ =>
    match (store.getObject ("user:" ++ uid.toStr)).get "password", password with
    | .str h, .str p => h == "hash(" ++ p ++ ")"
    | _, _ => false
  hashPassword := fun v => "hash(" ++ v.toStr ++ ")"
  generateUUID := "00000000-0000-4000-8000-000000000000"

/-- A strict variant of the sample environment: names of at least 20 units
and a veto hook that rejects every name. -/
def strictEnv : Env :=
  { demoEnv with
    config := { demoConfig with minimumUsernameLength := 20 }
    filterUsernameCheck := fun _ => .ok (some (.error (.text "[[error:vetoed]]"))) }

/-- The definition `Lucky Number` of the test suite: a number with threshold 7. -/
def luckyNumber : CustomField :=
  { key := "luckyNumber", name := "Lucky Number", type := "input-number",
    minRep := some 7, selectOptions := none }

/-- The definition `Soccer Team` of the test suite: a select with two options. -/
def soccerTeam : CustomField :=
  { key := "soccerTeam", name := "Soccer Team", type := "select",
    minRep := some 0, selectOptions := some "Barcelona\nLiverpool" }

/-- The definition `Languages` of the test suite: a multiple select. -/
def languages : CustomField :=
  { key := "languages", name := "Languages", type := "select-multi",
    minRep := some 0, selectOptions := some "C\nJS\nPython" }

/-- The definition `Bio` of the test suite: a text with threshold 0. -/
def bio : CustomField :=
  { key := "bio", name := "Bio", type := "input-text",
    minRep := some 0, selectOptions := none }

/-- The definition `Website` of the test suite: a link with threshold 0. -/
def website : CustomField :=
  { key := "website", name := "Website", type := "input-link",
    minRep := some 0, selectOptions := none }

/-- The text made of `n` copies of the letter `a`. -/
def repeatA (n : Nat) : String := String.mk (List.replicate n 'a')

/-! ## Effects: the store and the trace of outward actions -/

/-- An outward action of the module: a hook fired, a write issued to the
store, a validation email sent, a line logged, a federation update. -/
inductive Event
  | hook (name : String)
  | setUserField (uid : JSVal) (field : String) (value : JSVal)
  | setUserFields (uid : JSVal) (fields : JSObject)
  | sortedSetAdd (key : String) (score : Int) (member : String)
  | sortedSetRemove (key : String) (member : String)
  | validationEmail (uid : JSVal) (email : String)
  | logged (text : String)
  | activitypubProfile (uid : JSVal) (target : JSVal)
  | resetCleanByUid (uid : JSVal)
  | resetUpdateExpiry (uid : JSVal)
  | revokeAllSessions (uid : JSVal)
  | expireValidation (uid : JSVal)

/-- Whether an action is a write to the store. -/
def Event.isWrite : Event → Bool
  | .setUserField _ _ _ => true
  | .setUserFields _ _ => true
  | .sortedSetAdd _ _ _ => true
  | .sortedSetRemove _ _ => true
  | .resetCleanByUid _ => true
  | .resetUpdateExpiry _ => true
  | .revokeAllSessions _ => true
  | .expireValidation _ => true
  | _ => false

/-- Whether an action is the firing of a hook. -/
def Event.isHook : Event → Bool
  | .hook _ => true
  | _ => false

/-- The state an asynchronous function runs in: the store and the actions
performed so far, oldest first. -/
structure World where
  db : DB
  trace : List Event

/-- An asynchronous function of the module: from a state to a result (a value
or the exception thrown) and the state left behind. -/
def Eff (α : Type) : Type := World → Except JSError α × World

/-- The settled value. -/
def Eff.pure {α : Type} (a : α) : Eff α := fun w => (.ok a, w)

/-- Two functions started together under `Promise.all`, taken in the order
they were started: both run to their end, and a rejection of the first is the
result of the pair, whatever the second does. -/
def Eff.both {β : Type} (x : Eff Unit) (y : Eff β) : Eff β := fun w =>
  match x w with
  | (.ok _, w1) => y w1
  | (.error e, w1) => (.error e, (y w1).2)

/-- The sequencing `await x; f`: an exception in `x` skips `f`. -/
def Eff.bind {α β : Type} (x : Eff α) (f : α → Eff β) : Eff β := fun w =>
  match x w with
  | (.ok a, w') => f a w'
  | (.error e, w') => (.error e, w')

instance instMonadEff : Monad Eff where
  pure := Eff.pure
  bind := Eff.bind

/-- The statement `throw e`. -/
def Eff.throw {α : Type} (e : JSError) : Eff α := fun w => (.error e, w)

/-- A synchronous call inside an asynchronous function. -/
def Eff.ofExcept {α : Type} : Except JSError α → Eff α
  | .ok a => Eff.pure a
  | .error e => Eff.throw e

/-- The read of the store. -/
def Eff.getDB : Eff DB := fun w => (.ok w.db, w)

/-- The record of an action in the trace. -/
def Eff.emit (ev : Event) : Eff Unit := fun w =>
  (.ok (), { w with trace := w.trace ++ [ev] })

/-- A write: the store is replaced and the action recorded. -/
def Eff.write (ev : Event) (f : DB → DB) : Eff Unit := fun w =>
  (.ok (), { db := f w.db, trace := w.trace ++ [ev] })

/-- A function that only reads: its result is a function of the store, the
store is left as it was, and the trace grows by actions that are not writes. -/
def Eff.ReadOnly {α : Type} (x : Eff α) : Prop :=
  ∃ (r : DB → Except JSError α) (ev : DB → List Event),
    (∀ store e, e ∈ ev store → e.isWrite = false) ∧
    ∀ w : World, x w = (r w.db, { db := w.db, trace := w.trace ++ ev w.db })

/-- The run of `x` from the state `w` settles with the value `a` and leaves
the store `store`, whatever it adds to the trace. -/
def Eff.Runs {α : Type} (x : Eff α) (w : World) (a : α) (store : DB) : Prop :=
  ∃ trace, x w = (.ok a, { db := store, trace := trace })

/-- The conversion `Number(v)`. -/
def toNumber (env : Env) : JSVal → JSNum
  | .undefined => .nan
  | .null => .int 0
  | .bool b => .int (if b then 1 else 0)
  | .num x => x
  | .str s => env.stringToNumber s
  | v => env.stringToNumber v.toStr

/-- The comparison `v === s` against a string. -/
def JSVal.strictEqStr (v : JSVal) (s : String) : Bool :=
  match v with
  | .str t => t == s
  | _ => false

/-- The property read `v.length` on a truthy value. -/
def JSVal.lengthProp : JSVal → JSVal
  | .str s => .num (.int (jsLength s))
  | .arr xs => .num (.int xs.length)
  | .obj kvs => JSObject.get kvs "length"
  | .func _ arity => .num (.int arity)
  | _ => .undefined

/-- Modelled from the spec: the storage engine is not among the sources; the
call `db.getSortedSetRange(key, 0, -1)` is the range query of an ordered set,
all members in order. -/
def db.getSortedSetRange (key : String) : Eff (List String) := do
  let store ← Eff.getDB
  pure (store.getSortedSetRange key)

/-- Modelled from the spec: the storage engine is not among the sources; the
call `db.getObjectField(key, field)` gets one field of an entity, `null` when
the field is unset. -/
def db.getObjectField (key field : String) : Eff JSVal := do
  let store ← Eff.getDB
  let v := (store.getObject key).get field
  pure (if v.isUndefined then .null else v)

/-- Modelled from the spec: the storage engine is not among the sources; the
call `db.getObjectFields(key, fields)` gets the named fields of an entity,
`null` for a field that is unset. -/
def db.getObjectFields (key : String) (fields : List String) : Eff JSObject := do
  let store ← Eff.getDB
  pure (fields.map (fun f =>
    let v := (store.getObject key).get f
    (f, if v.isUndefined then .null else v)))

/-- Modelled from the spec: the storage engine is not among the sources; the
call `db.sortedSetRemove(key, value)` removes a member of an ordered set, and
removes nothing when the value is falsy. -/
def db.sortedSetRemove (key : String) (value : JSVal) : Eff Unit :=
  if !value.truthy then pure ()
  else Eff.write (.sortedSetRemove key value.toStr) (fun store => store.sortedSetRemove key value.toStr)

/-- Modelled from the spec: the storage engine is not among the sources; the
call `db.sortedSetAdd(key, score, value)` adds a member of an ordered set by
score, and rejects a score that is not a number. -/
def db.sortedSetAdd (env : Env) (key : String) (score : JSVal) (value : String) : Eff Unit :=
  match toNumber env score with
  | .nan => Eff.throw (.error (.text ("[[error:invalid-score, " ++ score.toStr ++ "]]")))
  | .int n => Eff.write (.sortedSetAdd key n value) (fun store => store.sortedSetAdd key n value)

/-- Modelled from the spec: `User.getUserFields` is not among the sources; it
reads the named fields of the entity `user:<uid>`. -/
def User.getUserFields (uid : JSVal) (fields : List String) : Eff JSObject :=
  db.getObjectFields ("user:" ++ uid.toStr) fields

/-- Modelled from the spec: `User.getUserField` is not among the sources; it
reads one field of the entity `user:<uid>`. -/
def User.getUserField (uid : JSVal) (field : String) : Eff JSVal :=
  db.getObjectField ("user:" ++ uid.toStr) field

/-- Modelled from the spec: `User.setUserField` is not among the sources; it
sets one field of the entity `user:<uid>`. -/
def User.setUserField (uid : JSVal) (field : String) (value : JSVal) : Eff Unit :=
  Eff.write (.setUserField uid field value)
    (fun store => store.setObjectField ("user:" ++ uid.toStr) field value)

/-- Modelled from the spec: `User.setUserFields` is not among the sources; it
sets the given fields of the entity `user:<uid>` in one write. -/
def User.setUserFields (uid : JSVal) (fields : JSObject) : Eff Unit :=
  Eff.write (.setUserFields uid fields)
    (fun store => store.setObject ("user:" ++ uid.toStr) fields)

/-- Modelled from the spec: `User.existsBySlug` is not among the sources; a
slug exists when it is a member of the lookup index `userslug:uid`. -/
def User.existsBySlug (userslug : String) : Eff Bool := do
  let store ← Eff.getDB
  pure (store.isSortedSetMember "userslug:uid" userslug)

/-! ## The validators of `validateData` -/

/-- The function `isEmailValid(data)`; the result is `data` as the function
leaves it. -/
def isEmailValid (env : Env) (data : JSObject) : Except JSError JSObject :=
  if !(data.get "email").truthy then .ok data
  else
    match data.get "email" with
    | .str s =>
      let email := jsTrim s
      if !env.isEmailValid email then .error (.error (.text "[[error:invalid-email]]"))
      else .ok (data.set "email" (.str email))
    | _ => .error .typeError

/-- The body of `isUsernameAvailable(data, uid)` below the trim, where
`username` is the trimmed `data.username`. -/
def usernameChecks (env : Env) (username : String) (uid : JSVal) : Eff Unit := do
  let userData ← (if uid.truthy then User.getUserFields uid ["username", "userslug"]
    else pure [])
  if uid.truthy && (userData.get "username").strictEqStr username then pure ()
  else if (jsLength username : Int) < env.config.minimumUsernameLength then
    Eff.throw (.error (.text "[[error:username-too-short]]"))
  else if (jsLength username : Int) > env.config.maximumUsernameLength then
    Eff.throw (.error (.text "[[error:username-too-long]]"))
  else if !env.isUserNameValid username || env.slugify username == "" then
    Eff.throw (.error (.text "[[error:invalid-username]]"))
  else if uid.truthy && (userData.get "userslug").strictEqStr (env.slugify username) then
    pure ()
  else do
    let taken ← User.existsBySlug (env.slugify username)
    if taken then Eff.throw (.error (.text "[[error:username-taken]]"))
    else do
      Eff.emit (.hook "filter:username.check")
      let veto ← Eff.ofExcept (env.filterUsernameCheck username)
      match veto with
      | some e => Eff.throw e
      | none => pure ()

/-- The function `isUsernameAvailable(data, uid)`: the guard, the trim of
`data.username`, then `usernameChecks`; the result is `data` as the function
leaves it. -/
def isUsernameAvailable (env : Env) (data : JSObject) (uid : JSVal) : Eff JSObject :=
  if !(data.get "username").truthy then pure data
  else
    match data.get "username" with
    | .str raw => do
      usernameChecks env (jsTrim raw) uid
      pure (data.set "username" (.str (jsTrim raw)))
    | _ => Eff.throw .typeError

/-- The function `User.checkUsername(username)`. -/
def User.checkUsername (env : Env) (username : JSVal) : Eff JSObject :=
  isUsernameAvailable env [("username", username)] .undefined

/-- The entry `meta.config[setting]` of a reputation threshold. -/
def Config.minRepSetting (config : Config) (setting : String) : Option Int :=
  if setting = "min:rep:aboutme" then some config.minRepAboutme
  else if setting = "min:rep:signature" then some config.minRepSignature
  else none

/-- The function `User.checkMinReputation(callerUid, uid, setting)`. -/
def User.checkMinReputation (env : Env) (callerUid uid : JSVal) (setting : String) : Eff Unit :=
  let isSelf := JSNum.strictEq (env.parseInt10 callerUid.toStr) (env.parseInt10 uid.toStr)
  if !isSelf || env.config.reputationDisabled then pure ()
  else do
    let stored ← User.getUserField uid "reputation"
    let reputation := toNumber env (if stored.truthy then stored else .num (.int 0))
    match env.config.minRepSetting setting with
    | none => pure ()
    | some threshold =>
      if JSNum.lt reputation (.int threshold) then
        Eff.throw (.error (.text ("[[error:not-enough-reputation-" ++
          String.mk (setting.data.map (fun c => if c = ':' then '-' else c)) ++ ", " ++
          toString threshold ++ "]]")))
      else pure ()

/-- The function `isAboutMeValid(callerUid, data)`. -/
def isAboutMeValid (env : Env) (callerUid : JSVal) (data : JSObject) : Eff Unit :=
  if !(data.get "aboutme").truthy then pure ()
  else if JSNum.lt (.int env.config.maximumAboutMeLength)
      (toNumber env (data.get "aboutme").lengthProp) then
    Eff.throw (.error (.text ("[[error:about-me-too-long, " ++
      toString env.config.maximumAboutMeLength ++ "]]")))
  else User.checkMinReputation env callerUid (data.get "uid") "min:rep:aboutme"

/-- The function `isSignatureValid(callerUid, data)`. -/
def isSignatureValid (env : Env) (callerUid : JSVal) (data : JSObject) : Eff Unit :=
  if !(data.get "signature").truthy then pure ()
  else
    match data.get "signature" with
    | .str s =>
      let signature := String.mk (replaceCRLF s.data)
      if (jsLength signature : Int) > env.config.maximumSignatureLength then
        Eff.throw (.error (.text ("[[error:signature-too-long, " ++
          toString env.config.maximumSignatureLength ++ "]]")))
      else User.checkMinReputation env callerUid (data.get "uid") "min:rep:signature"
    | _ => Eff.throw .typeError

/-- The function `isFullnameValid(data)`. -/
def isFullnameValid (env : Env) (data : JSObject) : Except JSError Unit :=
  if !(data.get "fullname").truthy then .ok ()
  else
    match validatorIsURL env (data.get "fullname") with
    | .error e => .error e
    | .ok true => .error (.error (.text "[[error:invalid-fullname]]"))
    | .ok false =>
      if JSNum.lt (.int 255) (toNumber env (data.get "fullname").lengthProp) then
        .error (.error (.text "[[error:invalid-fullname]]"))
      else .ok ()

/-- The function `isBirthdayValid(data)`. -/
def isBirthdayValid (env : Env) (data : JSObject) : Except JSError Unit :=
  if !(data.get "birthday").truthy then .ok ()
  else if env.isInvalidDate (data.get "birthday") then
    .error (.error (.text "[[error:invalid-birthday]]"))
  else .ok ()

/-- The inner function `checkTitle(title)` of `isGroupTitleValid`. -/
def checkTitle (env : Env) (title : JSVal) : Except JSError Unit :=
  if title.strictEqStr "registered-users" || env.isPrivilegeGroup title then
    .error (.error (.text "[[error:invalid-group-title]]"))
  else .ok ()

/-- The call `groupTitles.forEach(checkTitle)`. -/
def checkTitles (env : Env) : List JSVal → Except JSError Unit
  | [] => .ok ()
  | title :: rest =>
    match checkTitle env title with
    | .error e => .error e
    | .ok () => checkTitles env rest

/-- The function `isGroupTitleValid(data)`; the result is `data` as the
function leaves it. -/
def isGroupTitleValid (env : Env) (data : JSObject) : Except JSError JSObject :=
  if !(data.get "groupTitle").truthy then .ok data
  else
    match data.get "groupTitle" with
    | .str s =>
      if env.isJSON s then
        match env.jsonParse s with
        | none => .error .syntaxError
        | some (.arr groupTitles) =>
          match checkTitles env groupTitles with
          | .error e => .error e
          | .ok () =>
            if !env.config.allowMultipleBadges && groupTitles.length > 1 then
              .ok (data.set "groupTitle" (.str (env.jsonStringify (groupTitles.headD .undefined))))
            else .ok data
        | some _ => .error (.error (.text "[[error:invalid-group-title]]"))
      else
        match checkTitle env (.str s) with
        | .error e => .error e
        | .ok () => .ok data
    | _ => .error .typeError

/-- The function `validateCustomFields(data)`. -/
def validateCustomFields (env : Env) (data : JSObject) : Eff Unit := do
  let keys ← db.getSortedSetRange "user-custom-fields"
  let store ← Eff.getDB
  let fields := store.getFieldDefs (keys.map (fun k => "user-custom-field:" ++ k))
  let stored ← User.getUserField (data.get "uid") "reputation"
  let reputation := toNumber env (if stored.truthy then stored else .num (.int 0))
  Eff.ofExcept (validateFieldsLoop env data reputation fields)

/-- The function `validateData(callerUid, data)`; the result is `data` as the
validators leave it. -/
def validateData (env : Env) (callerUid : JSVal) (data : JSObject) : Eff JSObject := do
  let data ← Eff.ofExcept (isEmailValid env data)
  let data ← isUsernameAvailable env data (data.get "uid")
  isAboutMeValid env callerUid data
  isSignatureValid env callerUid data
  Eff.ofExcept (isFullnameValid env data)
  Eff.ofExcept (isBirthdayValid env data)
  let data ← Eff.ofExcept (isGroupTitleValid env data)
  validateCustomFields env data
  pure data

/-! ## The update routines and `User.updateProfile` -/

/-- The function `updateEmail(uid, newEmail)`.  Sending the validation email
is an outward action; a rejected send is caught and logged. -/
def updateEmail (env : Env) (uid : JSVal) (newEmail : String) : Eff Unit := do
  let stored ← db.getObjectField ("user:" ++ uid.toStr) "email"
  let oldEmail := if stored.truthy then stored else .str ""
  if oldEmail.strictEqStr newEmail then pure ()
  else do
    let store ← Eff.getDB
    if env.isValidationPending store uid newEmail then pure ()
    else if newEmail != "" then
      match env.sendValidationEmail uid newEmail with
      | none => Eff.emit (.validationEmail uid newEmail)
      | some stack =>
        Eff.emit (.logged ("[user.create] Validation email failed to send\n[emailer.send] " ++ stack))
    else pure ()

/-- The function `updateUidMapping(field, uid, value, oldValue)`. -/
def updateUidMapping (env : Env) (field : String) (uid : JSVal) (value : String)
    (oldValue : JSVal) : Eff Unit :=
  if oldValue.strictEqStr value then pure ()
  else do
    db.sortedSetRemove (field ++ ":uid") oldValue
    User.setUserField uid field (.str value)
    if value != "" then db.sortedSetAdd env (field ++ ":uid") uid value
    else pure ()

/-- The method call `v.toLowerCase()`: a `TypeError` on a value that is not a
string. -/
def jsToLowerCase (env : Env) : JSVal → Except JSError String
  | .str s => .ok (env.toLowerCase s)
  | _ => .error .typeError

/-- The function `updateUsername(uid, newUsername, callerUid)`; the three
parallel steps run in the order they are listed. -/
def updateUsername (env : Env) (uid : JSVal) (newUsername : String) (callerUid : JSVal) :
    Eff Unit :=
  if newUsername == "" then pure ()
  else do
    let userData ← db.getObjectFields ("user:" ++ uid.toStr) ["username", "userslug"]
    if (userData.get "username").strictEqStr newUsername then pure ()
    else do
      let newUserslug := env.slugify newUsername
      let now := env.now
      updateUidMapping env "username" uid newUsername (userData.get "username")
      updateUidMapping env "userslug" uid newUserslug (userData.get "userslug")
      db.sortedSetAdd env ("user:" ++ uid.toStr ++ ":usernames") (.num (.int now))
        (newUsername ++ ":" ++ toString now ++ ":" ++ callerUid.toStr)
      let oldLower ← Eff.ofExcept (jsToLowerCase env (userData.get "username"))
      db.sortedSetRemove "username:sorted" (.str (oldLower ++ ":" ++ uid.toStr))
      db.sortedSetAdd env "username:sorted" (.num (.int 0))
        (env.toLowerCase newUsername ++ ":" ++ uid.toStr)

/-- The function `updateFullname(uid, newFullname)`. -/
def updateFullname (env : Env) (uid : JSVal) (newFullname : String) : Eff Unit := do
  let fullname ← db.getObjectField ("user:" ++ uid.toStr) "fullname"
  updateUidMapping env "fullname" uid newFullname fullname
  if !fullname.strictEqStr newFullname then do
    if fullname.truthy then do
      let oldLower ← Eff.ofExcept (jsToLowerCase env fullname)
      db.sortedSetRemove "fullname:sorted" (.str (oldLower ++ ":" ++ uid.toStr))
    else pure ()
    if newFullname != "" then
      db.sortedSetAdd env "fullname:sorted" (.num (.int 0))
        (env.toLowerCase newFullname ++ ":" ++ uid.toStr)
    else pure ()
  else pure ()

/-- The call `Promise.all(fields.map(async (field) => ...))` of
`updateProfile`: the callbacks are started in the order of the field list and
every one runs to its end, also after another one has failed; the call fails
with the error of the first callback of the list that failed. The result is
`data` as the callbacks leave it and the collected `updateData`. -/
def updateFieldsLoop (env : Env) (uid updateUid : JSVal) :
    List String → JSObject → JSObject → Eff (JSObject × JSObject)
  | [], data, updateData => pure (data, updateData)
  | field :: rest, data, updateData =>
    match data.read field with
    | .str s =>
      let trimmed := jsTrim s
      let data := data.set field (.str trimmed)
      if field = "email" then
        Eff.both (updateEmail env updateUid trimmed)
          (updateFieldsLoop env uid updateUid rest data updateData)
      else if field = "username" then
        Eff.both (updateUsername env updateUid trimmed uid)
          (updateFieldsLoop env uid updateUid rest data updateData)
      else if field = "fullname" then
        Eff.both (updateFullname env updateUid trimmed)
          (updateFieldsLoop env uid updateUid rest data updateData)
      else
        updateFieldsLoop env uid updateUid rest data (updateData.set field (.str trimmed))
    | _ => updateFieldsLoop env uid updateUid rest data updateData

/-- The store that `updateUidMapping` leaves when the value changes, for a
uid whose number is `n`: the old value leaves the lookup index, the field is
set, and a non-empty value enters the lookup index. -/
def uidMappingStore (store : DB) (field : String) (uid : JSVal) (n : Int) (value : String)
    (oldValue : JSVal) : DB :=
  let s1 := if oldValue.truthy then store.sortedSetRemove (field ++ ":uid") oldValue.toStr
    else store
  let s2 := s1.setObjectField ("user:" ++ uid.toStr) field (.str value)
  if value != "" then s2.sortedSetAdd (field ++ ":uid") n value else s2

/-- The store that `updateFullname` leaves when the full name changes from the
stored value `stored` to `newFullname`. -/
def fullnameStore (env : Env) (store : DB) (uid : JSVal) (n : Int) (newFullname : String)
    (stored : JSVal) : DB :=
  let s1 := uidMappingStore store "fullname" uid n newFullname stored
  let s2 :=
    match stored with
    | .str old =>
      if old != "" then
        s1.sortedSetRemove "fullname:sorted" (env.toLowerCase old ++ ":" ++ uid.toStr)
      else s1
    | _ => s1
  if newFullname != "" then
    s2.sortedSetAdd "fullname:sorted" 0 (env.toLowerCase newFullname ++ ":" ++ uid.toStr)
  else s2

/-- The store that `updateUsername` leaves when the name changes from `old` to
the non-empty `newUsername`; `slug` is the stored slug as the routine reads
it. -/
def usernameStore (env : Env) (store : DB) (uid : JSVal) (n : Int) (newUsername old : String)
    (slug callerUid : JSVal) : DB :=
  let s1 := uidMappingStore store "username" uid n newUsername (.str old)
  let s2 :=
    if slug.strictEqStr (env.slugify newUsername) then s1
    else uidMappingStore s1 "userslug" uid n (env.slugify newUsername) slug
  let s3 := s2.sortedSetAdd ("user:" ++ uid.toStr ++ ":usernames") env.now
    (newUsername ++ ":" ++ toString env.now ++ ":" ++ callerUid.toStr)
  let s4 := s3.sortedSetRemove "username:sorted" (env.toLowerCase old ++ ":" ++ uid.toStr)
  s4.sortedSetAdd "username:sorted" 0 (env.toLowerCase newUsername ++ ":" ++ uid.toStr)

/-- The built-in updatable fields of `updateProfile`. -/
def builtinFields : List String :=
  ["username", "email", "fullname", "groupTitle", "birthday", "signature", "aboutme"]

/-- The field list of `updateProfile`: the built-in fields and the custom
field keys, and with an array `extraFields` the concatenation without
duplicates (`_.uniq`); `extraFields` is `none` when the argument is not an
array. -/
def profileFields (custom : List String) (extraFields : Option (List String)) : List String :=
  match extraFields with
  | some extra => ((builtinFields ++ custom) ++ extra).eraseDups
  | none => builtinFields ++ custom

/-- The function `User.updateProfile(uid, data, extraFields)`. -/
def User.updateProfile (env : Env) (uid : JSVal) (data : JSObject)
    (extraFields : Option (List String)) : Eff JSObject := do
  let custom ← db.getSortedSetRange "user-custom-fields"
  let fields := profileFields custom extraFields
  if !(data.get "uid").truthy then
    Eff.throw (.error (.text "[[error:invalid-update-uid]]"))
  else do
    let updateUid := data.get "uid"
    Eff.emit (.hook "filter:user.updateProfile")
    let result ← Eff.ofExcept (env.filterUpdateProfile uid data fields)
    let fields := result.2
    let data := result.1
    let data ← validateData env uid data
    let _oldData ← User.getUserFields updateUid fields
    let updated ← updateFieldsLoop env uid updateUid fields data []
    if updated.2.length > 0 then User.setUserFields updateUid updated.2
    else pure ()
    Eff.emit (.hook "action:user.updateProfile")
    Eff.emit (.activitypubProfile uid updateUid)
    User.getUserFields updateUid
      ["email", "username", "userslug", "picture", "icon:text", "icon:bgColor"]

/-- A sample store: two users and the definitions of the test suite. -/
def demoDB : DB where
  objects :=
    [("user:1", [("username", .str "lowRepUser"), ("userslug", .str "lowrepuser"),
        ("reputation", .num (.int 0))]),
     ("user:2", [("username", .str "highRepUser"), ("userslug", .str "highrepuser"),
        ("reputation", .num (.int 10))])]
  sortedSets :=
    [("user-custom-fields", [(0, "luckyNumber"), (1, "soccerTeam")]),
     ("userslug:uid", [(1, "lowrepuser"), (2, "highrepuser")]),
     ("username:uid", [(1, "lowRepUser"), (2, "highRepUser")])]
  fieldDefs :=
    [("user-custom-field:luckyNumber", luckyNumber),
     ("user-custom-field:soccerTeam", soccerTeam)]

/-- A definition keyed by a name every object inherits. -/
def constructorField : CustomField :=
  { key := "constructor", name := "Constructor", type := "input-number", minRep := some 0,
    selectOptions := none }

/-- The sample store with the definition keyed `constructor` as its only
custom field. -/
def constructorDB : DB :=
  { demoDB with
    sortedSets := [("user-custom-fields", [(0, "constructor")])]
    fieldDefs := [("user-custom-field:constructor", constructorField)] }

/-- A sample state: the sample store and nothing done yet. -/
def demoWorld : World := { db := demoDB, trace := [] }

/-! ## The verdicts of the validators, one by one -/

/-- The verdicts of the eight validators of `validateData`, each run on its
own on `data` in the state `w`, in the order in which `validateData` calls
them: email, username, about-me, signature, fullname, birthday, group title,
custom fields. -/
def validatorVerdicts (env : Env) (callerUid : JSVal) (data : JSObject) (w : World) :
    List (Except JSError Unit) :=
  [ (isEmailValid env data).map (fun _ => ()),
    (isUsernameAvailable env data (data.get "uid") w).1.map (fun _ => ()),
    (isAboutMeValid env callerUid data w).1,
    (isSignatureValid env callerUid data w).1,
    isFullnameValid env data,
    isBirthdayValid env data,
    (isGroupTitleValid env data).map (fun _ => ()),
    (validateCustomFields env data w).1 ]

/-- The error of the first failed verdict of a list. -/
def firstError : List (Except JSError Unit) → Option JSError
  | [] => none
  | .error e :: _ => some e
  | .ok _ :: rest => firstError rest

/-- The number of failed verdicts of a list. -/
def failureCount : List (Except JSError Unit) → Nat
  | [] => 0
  | .error _ :: rest => failureCount rest + 1
  | .ok _ :: rest => failureCount rest


/-! ## Roles and content restriction -/

/-- Modelled from the spec: the role store is not among the sources.  Spec,
section 3: "role (enum: none|student|ta|professor|admin — admin derived from a
separate administrators group membership, not the role field)". -/
inductive Role
  | none
  | student
  | ta
  | professor
  deriving DecidableEq, Repr

/-- Modelled from the spec: the identity a uid resolves to (section 9: "an
identity record {role, isAdmin, ...}"); the resolution code is not among the
sources.  A guest has the role `none` and is no administrator. -/
structure Identity where
  role : Role
  isAdmin : Bool
  deriving DecidableEq, Repr

/-- Modelled from the spec: the fixed role hierarchy, which is not among the
sources (section 4.5: "student < ta ≈ professor, both ≥ ta threshold"). -/
def Role.rank : Role → Nat
  | .none => 0
  | .student => 1
  | .ta => 2
  | .professor => 2

/-- Modelled from the spec: the rank a target-role tag requires, by the same
hierarchy; the code that reads the tag is not among the sources.  A tag that
names no role requires a rank nobody has. -/
def tagRank (tag : String) : Option Nat :=
  if tag = "student" then some 1
  else if tag = "ta" then some 2
  else if tag = "professor" then some 2
  else none

/-- Modelled from the spec: a topic or a post with its optional target-role
tag (section 3); the topic and post code is not among the sources. -/
structure Content where
  id : Nat
  cid : Nat
  timestamp : Int
  targetRole : Option String
  deriving DecidableEq, Repr

/-- Modelled from the spec: whether a viewer meets or exceeds what the tag
requires; the privilege code is not among the sources.  Section 4.5:
"Administrators and the tagged role-or-above always pass"; untagged content is
unrestricted. -/
def canView (viewer : Identity) (targetRole : Option String) : Bool :=
  match targetRole with
  | none => true
  | some tag =>
    viewer.isAdmin ||
      (match tagRank tag with
       | some r => decide (r ≤ viewer.role.rank)
       | none => false)

/-- Modelled from the spec: read-time filtering, whose code
(`privileges.posts.filter`) is not among the sources.  Section 4.5: the engine
"removes any id whose targetRole requires a role the viewer does not meet or
exceed". -/
def filterVisible (viewer : Identity) (candidates : List Content) : List Content :=
  candidates.filter (fun c => canView viewer c.targetRole)

/-- Modelled from the spec: the category topic listing, whose code is not
among the sources.  Section 4.5: the `instructor` flag "switches the source
index from all topics to restricted-only topics", and "the combination still
hides restricted content from unauthorized viewers". -/
def getCategoryTopics (viewer : Identity) (instructor : Bool) (topics : List Content) :
    List Content :=
  filterVisible viewer
    (if instructor then topics.filter (fun c => c.targetRole.isSome) else topics)

/-- Modelled from the spec: the post list of a topic (`getTopicPosts`), whose
code is not among the sources: the candidate list, role-filtered. -/
def getTopicPosts (viewer : Identity) (posts : List Content) : List Content :=
  filterVisible viewer posts

/-- Modelled from the spec: the latest entry of a candidate pool, the pick of
teaser selection; the teaser code is not among the sources.  Among entries of
equal time the one listed first wins. -/
def latest : List Content → Option Content
  | [] => none
  | c :: rest =>
    match latest rest with
    | none => some c
    | some d => if d.timestamp ≤ c.timestamp then some c else some d

/-- Modelled from the spec: teaser selection (`getTeasersByTids`), whose code
is not among the sources.  Section 4.5: "the candidate pool must itself
already be role-filtered for the requesting viewer before the latest pick is
made". -/
def getTeaser (viewer : Identity) (posts : List Content) : Option Content :=
  latest (filterVisible viewer posts)

/-- The handler of `filter:composer.submit` in `composerTargetRole.js`: for
the actions `topics.post` and `posts.reply`, when the composer holds the
target-role select (`selectVal` is its value, `none` without the select),
`composerData.targetRole` becomes that value, or `undefined` when it is falsy. -/
def composerSubmit (action : String) (selectVal : Option JSVal) (composerData : JSObject) :
    JSObject :=
  if action ≠ "topics.post" ∧ action ≠ "posts.reply" then composerData
  else
    match selectVal with
    | none => composerData
    | some val => composerData.set "targetRole" (if val.truthy then val else .undefined)

/-- Modelled from the spec: the contents of the forum, the per-category index
of restricted content ids (pairs of category id and content id), and the next
free id; the topic and post stores are not among the sources. -/
structure Forum where
  contents : List Content
  restricted : List (Nat × Nat)
  nextId : Nat
  deriving DecidableEq, Repr

/-- Modelled from the spec: who may restrict content; the enforcement code of
the API is not among the sources.  Section 4.5: "only roles at-or-above the
configured instructor tier, plus administrators, may set it". -/
def mayRestrict (caller : Identity) : Bool :=
  caller.isAdmin || decide (2 ≤ caller.role.rank)

/-- Modelled from the spec: the creation of a topic or a reply with an
optional submitted `targetRole`; the API code (`api/topics` `create` and
`reply`) is not among the sources.  Section 4.5: without the authority "the
tag is silently stripped (not an error)" and the content "is created
unrestricted.  Otherwise the tag is stored and the content id is added to the
category's restricted-id sorted index". -/
def createContent (caller : Identity) (cid : Nat) (now : Int) (submitted : Option String)
    (forum : Forum) : Forum × Content :=
  let tag := if mayRestrict caller then submitted else none
  let content : Content :=
    { id := forum.nextId, cid := cid, timestamp := now, targetRole := tag }
  ({ contents := content :: forum.contents,
     restricted :=
       match tag with
       | some _ => (cid, content.id) :: forum.restricted
       | none => forum.restricted,
     nextId := forum.nextId + 1 }, content)

/-- The sample environment with a mailer that rejects every message. -/
def failingMailEnv : Env :=
  { demoEnv with sendValidationEmail := fun _ _ => some "Error: connect ECONNREFUSED" }

/-! ## The password change -/

/-- The comparison `a <= b` on numbers: false as soon as one side is `NaN`. -/
def JSNum.le : JSNum → JSNum → Bool
  | .int a, .int b => decide (a ≤ b)
  | _, _ => false

/-- The comparison `a === b` of two properties of a request body: primitives
of the same type with the same value; two arrays or objects of a body are
never the same reference. -/
def JSVal.strictEq : JSVal → JSVal → Bool
  | .undefined, .undefined => true
  | .null, .null => true
  | .bool a, .bool b => a == b
  | .num x, .num y => JSNum.strictEq x y
  | .str s, .str t => s == t
  | _, _ => false

/-- The function `User.changePassword(uid, data)`; `data` is `none` for a
missing body.  The writes of the collaborators `User.reset.cleanByUid`,
`User.reset.updateExpiry`, `User.auth.revokeAllSessions` and
`User.email.expireValidation`, whose stores are outside this module, are
recorded in the trace. -/
def User.changePassword (env : Env) (uid : JSVal) (body : Option JSObject) : Eff Unit :=
  if JSNum.le (toNumber env uid) (.int 0) || body.isNone ||
      !((body.getD []).get "uid").truthy then
    Eff.throw (.error (.text "[[error:invalid-uid]]"))
  else do
    let data := body.getD []
    Eff.ofExcept (env.isPasswordValid (data.get "newPassword"))
    let store ← Eff.getDB
    let isAdmin := env.isAdministrator store uid
    let hasPassword := env.hasPassword store uid
    if env.config.passwordDisableEdit && !isAdmin then
      Eff.throw (.error (.text "[[error:no-privileges]]"))
    else
      let isSelf := JSNum.strictEq (env.parseInt10 uid.toStr)
        (env.parseInt10 (data.get "uid").toStr)
      if !isAdmin && !isSelf then
        Eff.throw (.error (.text "[[user:change-password-error-privileges]]"))
      else do
        Eff.emit (.hook "filter:password.check")
        Eff.ofExcept (env.filterPasswordCheck (data.get "newPassword") (data.get "uid"))
        (if isSelf && hasPassword then do
          let store ← Eff.getDB
          let correct := env.isPasswordCorrect store (data.get "uid")
            (data.get "currentPassword") (data.get "ip")
          if !correct then
            Eff.throw (.error (.text "[[user:change-password-error-wrong-current]]"))
          else if JSVal.strictEq (data.get "currentPassword") (data.get "newPassword") then
            Eff.throw (.error (.text "[[user:change-password-error-same-password]]"))
          else pure ()
        else pure ())
        let hashedPassword := env.hashPassword (data.get "newPassword")
        User.setUserFields (data.get "uid")
          [("password", .str hashedPassword), ("password:shaWrapped", .num (.int 1)),
           ("rss_token", .str env.generateUUID)]
        Eff.emit (.resetCleanByUid (data.get "uid"))
        Eff.emit (.resetUpdateExpiry (data.get "uid"))
        Eff.emit (.revokeAllSessions (data.get "uid"))
        Eff.emit (.expireValidation (data.get "uid"))
        Eff.emit (.hook "action:password.change")

/-- The sample store after user 1 has set the password `secret1`. -/
def passwordDB : DB :=
  demoDB.setObjectField "user:1" "password" (.str "hash(secret1)")

/-- The sample state of the password examples. -/
def passwordWorld : World := { db := passwordDB, trace := [] }

/-! ## The post queue gate -/

/-- Modelled from the spec: the queue configuration a post is checked
against, which is not among the sources: the global switch, the switch of the
category and the reputation threshold (section 8: "category C with postQueue
enabled and reputation threshold 10"). -/
structure QueueConfig where
  postQueue : Bool
  categoryPostQueue : Bool
  postQueueReputationThreshold : Int
  deriving DecidableEq, Repr

/-- Modelled from the spec: what the uid of a poster resolves to for the gate
(section 9: "an identity record {role, isAdmin, isModerator(cid)}") together
with the poster's reputation; the resolution code is not among the sources. -/
structure Poster where
  identity : Identity
  isModerator : Bool
  reputation : Int
  deriving DecidableEq, Repr

/-- Modelled from the spec: the guest, uid absent or zero: no role, no
privilege, no reputation. -/
def guest : Poster :=
  { identity := { role := .none, isAdmin := false }, isModerator := false, reputation := 0 }

/-- Modelled from the spec: a queue configuration is active when any of its
switches is on (section 4.6: "whenever any queue configuration is active"). -/
def QueueConfig.active (config : QueueConfig) : Bool :=
  config.postQueue || config.categoryPostQueue

/-- Modelled from the spec: `posts.shouldQueue` is not among the sources.
Section 4.6: "Returns false (bypass) when: uid resolves to any assigned role
(student/ta/professor) [...] OR uid is an administrator/moderator OR the
category/global queue configuration is disabled OR the uid's reputation meets
the configured threshold"; a poster is queued when no bypass applies. -/
def posts.shouldQueue (config : QueueConfig) (poster : Poster) : Bool :=
  if poster.identity.role ≠ .none then false
  else if poster.identity.isAdmin || poster.isModerator then false
  else if !config.active then false
  else if poster.reputation ≥ config.postQueueReputationThreshold then false
  else true

/-- The value of a run of decimal digits, most significant first, added to
`acc` shifted. -/
def digitsValue : List Char → Nat → Nat
  | [], acc => acc
  | c :: cs, acc => digitsValue cs (acc * 10 + (c.toNat - 48))

/-- The sample environment with a `parseInt` that reads the leading decimal
digits of an unsigned id. -/
def passwordEnv : Env :=
  { demoEnv with
    parseInt10 := fun s =>
      match s.data.takeWhile Char.isDigit with
      | [] => .nan
      | ds => .int (digitsValue ds 0) }

/-! ## The batched write of `updateProfile` -/

/-- Whether an action is a batched write `User.setUserFields`. -/
def Event.isSetUserFields : Event → Bool
  | .setUserFields _ _ => true
  | _ => false

/-- A function that performs no batched write: the batched writes of the
trace are after the run what they were before. -/
def Eff.NoBatchedWrite {α : Type} (x : Eff α) : Prop :=
  ∀ w : World, (x w).2.trace.filter Event.isSetUserFields =
    w.trace.filter Event.isSetUserFields

/-- The sample environment with a `JSON.stringify` that quotes a string. -/
def quotingEnv : Env :=
  { passwordEnv with
    jsonStringify := fun v =>
      match v with
      | .str s => "\"" ++ s ++ "\""
      | _ => v.toStr }

/-! ## The field validator: the gates -/

theorem minRepOrZero_eq (field : CustomField) : field.minRepOrZero = field.minRep.getD 0 := by
  unfold CustomField.minRepOrZero
  cases h : field.minRep with
  | none => rfl
  | some n => by_cases hn : n = 0 <;> simp [hn]

theorem validatorIsURL_error (env : Env) (value : JSVal) (e : JSError)
    (h : validatorIsURL env value = .error e) : e = .typeError := by
  cases value <;> simp [validatorIsURL] at h <;> exact h.symm

/-- An error of the type gate is a `TypeError`, a `SyntaxError`, or one of the
five type-specific coded errors naming the field. -/
theorem checkType_error_code (env : Env) (field : CustomField) (value : JSVal) (e : JSError)
    (h : checkType env field value = .error e) :
    e = .typeError ∨ e = .syntaxError ∨
    ∃ code, e = .error (tx.compile code [field.name]) ∧
      code ∈ ["error:custom-user-field-invalid-number", "error:custom-user-field-invalid-text",
        "error:custom-user-field-invalid-date", "error:custom-user-field-invalid-link",
        "error:custom-user-field-select-value-invalid"] := by
  unfold checkType at h
  split at h
  all_goals (try simp only [throwFieldError] at h)
  all_goals (repeat' split at h)
  all_goals first
    | (cases h; simp; done)
    | (simp at h; done)
    | (cases h; exact Or.inr (Or.inr ⟨_, rfl, by simp⟩))
    | (cases h; rename_i hu; exact Or.inl (validatorIsURL_error _ _ _ hu))

/-- The reputation gate passes or raises the reputation error. -/
theorem checkReputation_cases (env : Env) (field : CustomField) (reputation : JSNum) :
    (checkReputation env field reputation = .ok () ∧
      ¬ (JSNum.lt reputation (.int field.minRepOrZero) = true ∧
          env.config.reputationDisabled = false)) ∨
    (checkReputation env field reputation =
        .error (.error (tx.compile "error:not-enough-reputation-custom-field"
          [toString field.minRepOrZero, field.name])) ∧
      JSNum.lt reputation (.int field.minRepOrZero) = true ∧
      env.config.reputationDisabled = false) := by
  unfold checkReputation
  by_cases h : (JSNum.lt reputation (.int field.minRepOrZero) &&
      !env.config.reputationDisabled) = true
  · right
    simp only [h, if_true, true_and]
    simpa using h
  · left
    simp only [h]
    simpa using h

/-- The length gate passes or raises the length error. -/
theorem checkLength_cases (field : CustomField) (value : JSVal) :
    checkLength field value = .ok () ∨
    (checkLength field value =
        .error (.error (tx.compile "error:custom-user-field-value-too-long" [field.name])) ∧
      ∃ s, value = .str s ∧ 255 < jsLength s) := by
  cases value <;> simp [checkLength]
  rename_i s
  by_cases h : 255 < jsLength s
  · simp [h]
  · simp [h]; omega

/-- With a defined value and both earlier gates passing, `validateField` is
the type gate. -/
theorem validateField_eq_checkType (env : Env) (field : CustomField) (value : JSVal)
    (reputation : JSNum) (hdef : value.isUndefined = false)
    (hrep : checkReputation env field reputation = .ok ())
    (hlen : checkLength field value = .ok ()) :
    validateField env field value reputation = checkType env field value := by
  simp [validateField, hdef, hrep, hlen]

/-- With a defined value, a failure of the reputation gate is the result. -/
theorem validateField_of_reputation_error (env : Env) (field : CustomField) (value : JSVal)
    (reputation : JSNum) (e : JSError) (hdef : value.isUndefined = false)
    (hrep : checkReputation env field reputation = .error e) :
    validateField env field value reputation = .error e := by
  simp [validateField, hdef, hrep]

/-- With a defined value and a passing reputation gate, a failure of the
length gate is the result. -/
theorem validateField_of_length_error (env : Env) (field : CustomField) (value : JSVal)
    (reputation : JSNum) (e : JSError) (hdef : value.isUndefined = false)
    (hrep : checkReputation env field reputation = .ok ())
    (hlen : checkLength field value = .error e) :
    validateField env field value reputation = .error e := by
  simp [validateField, hdef, hrep, hlen]

theorem includesVal_iff (opts : List String) (value : JSVal) :
    includesVal opts value = true ↔ ∃ s, value = .str s ∧ s ∈ opts := by
  cases value <;> simp [includesVal]

theorem isEmptyStr_iff (value : JSVal) : value.isEmptyStr = true ↔ value = .str "" := by
  cases value <;> simp [JSVal.isEmptyStr]

/-- The type gate of a `select` definition. -/
theorem checkType_select (env : Env) (field : CustomField) (text : String) (value : JSVal)
    (htype : field.type = "select") (hopts : field.selectOptions = some text) :
    checkType env field value =
      if includesVal (optionList text) value || value.isEmptyStr then .ok ()
      else .error (.error (tx.compile "error:custom-user-field-select-value-invalid"
        [field.name])) := by
  unfold checkType
  simp only [htype, hopts, throwFieldError]
  by_cases h : (includesVal (optionList text) value || value.isEmptyStr) = true
  · have h2 : (!includesVal (optionList text) value && !value.isEmptyStr) = false := by
      cases h1 : includesVal (optionList text) value <;> cases h3 : value.isEmptyStr <;>
        simp_all
    simp [h, h2]
  · have h2 : (!includesVal (optionList text) value && !value.isEmptyStr) = true := by
      cases h1 : includesVal (optionList text) value <;> cases h3 : value.isEmptyStr <;>
        simp_all
    simp [h, h2]

/-- The type gate of a `select-multi` definition on a truthy value whose text
parses to an array. -/
theorem checkType_selectMulti (env : Env) (field : CustomField) (text : String) (value : JSVal)
    (values : List JSVal)
    (htype : field.type = "select-multi") (hopts : field.selectOptions = some text)
    (hparse : env.jsonParse (if value.truthy then value.toStr else "[]") = some (.arr values)) :
    checkType env field value =
      if values.all (includesVal (optionList text)) then .ok ()
      else .error (.error (tx.compile "error:custom-user-field-select-value-invalid"
        [field.name])) := by
  unfold checkType
  simp only [htype, hopts, hparse, throwFieldError]
  by_cases h : values.all (includesVal (optionList text)) = true <;> simp [h]

/-- The loop over the definitions skips the definitions whose key is absent. -/
theorem JSObject.get_of_not_hasOwn (o : JSObject) (k : String) (h : o.hasOwn k = false) :
    o.get k = .undefined := by
  induction o with
  | nil => rfl
  | cons p rest ih =>
    obtain ⟨k0, v0⟩ := p
    simp only [JSObject.hasOwn, List.any_cons, Bool.or_eq_false_iff, beq_eq_false_iff_ne,
      ne_eq] at h
    simp only [JSObject.get, h.1, if_false]
    exact ih h.2

theorem JSObject.read_of_hasOwn (o : JSObject) (k : String) (h : o.hasOwn k = true) :
    o.read k = o.get k := by
  simp [JSObject.read, h]

theorem JSObject.get_mem (o : JSObject) (k : String) (h : o.hasOwn k = true) :
    (k, o.get k) ∈ o := by
  induction o with
  | nil => simp [JSObject.hasOwn] at h
  | cons p rest ih =>
    obtain ⟨k0, v0⟩ := p
    by_cases h0 : k0 = k
    · subst h0
      simp [JSObject.get]
    · simp only [JSObject.hasOwn, List.any_cons, Bool.or_eq_true, beq_iff_eq, h0,
        false_or] at h
      simp only [JSObject.get, h0, if_false]
      exact List.mem_cons_of_mem _ (ih h)

/-- A property of `Object.prototype` is a built-in function or an object. -/
theorem objectPrototype_get_kind (k : String) (h : objectPrototype.hasOwn k = true) :
    (∃ name arity, objectPrototype.get k = .func name arity) ∨
      ∃ kvs, objectPrototype.get k = .obj kvs := by
  have hm := JSObject.get_mem objectPrototype k h
  generalize objectPrototype.get k = v at hm
  simp only [objectPrototype, objectPrototypeFunctions, List.cons_append, List.nil_append,
    List.mem_cons, Prod.mk.injEq, List.mem_singleton, List.mem_nil_iff, or_false] at hm
  rcases hm with h | h | h | h | h | h | h | h | h | h | h | h
  all_goals first
    | exact Or.inl ⟨_, _, h.2⟩
    | exact Or.inr ⟨_, h.2⟩

/-- No property of `Object.prototype` is a string. -/
theorem objectPrototype_get_ne_str (k s : String) : objectPrototype.get k ≠ .str s := by
  intro hs
  cases hown : objectPrototype.hasOwn k with
  | false =>
    rw [JSObject.get_of_not_hasOwn _ _ hown] at hs
    exact JSVal.noConfusion hs
  | true =>
    rcases objectPrototype_get_kind k hown with ⟨_, _, h⟩ | ⟨_, h⟩ <;>
    · rw [h] at hs
      exact JSVal.noConfusion hs

/-- Every property of `Object.prototype` has a value other than `undefined`. -/
theorem objectPrototype_get_defined (k : String) (h : objectPrototype.hasOwn k = true) :
    (objectPrototype.get k).isUndefined = false := by
  rcases objectPrototype_get_kind k h with ⟨_, _, h⟩ | ⟨_, h⟩ <;>
  · rw [h]
    rfl

/-- For a key that `Object.prototype` does not define, the read is the own
property. -/
theorem JSObject.read_eq_get (o : JSObject) (k : String)
    (h : objectPrototype.hasOwn k = false) : o.read k = o.get k := by
  unfold JSObject.read
  split
  · rfl
  · rename_i hown
    simp only [Bool.not_eq_true] at hown
    rw [JSObject.get_of_not_hasOwn _ _ hown, JSObject.get_of_not_hasOwn _ _ h]

/-- A read gives a string exactly when the own property is that string. -/
theorem JSObject.read_str_iff (o : JSObject) (k s : String) :
    o.read k = .str s ↔ o.get k = .str s := by
  unfold JSObject.read
  split
  · exact Iff.rfl
  · rename_i hown
    simp only [Bool.not_eq_true] at hown
    rw [JSObject.get_of_not_hasOwn _ _ hown]
    constructor
    · intro h
      exact absurd h (objectPrototype_get_ne_str k s)
    · intro h
      exact JSVal.noConfusion h

theorem validateFieldsLoop_filter (env : Env) (data : JSObject) (reputation : JSNum)
    (fields : List CustomField) :
    validateFieldsLoop env data reputation fields =
      validateFieldsLoop env data reputation
        (fields.filter (fun f => !(data.read f.key).isUndefined)) := by
  induction fields with
  | nil => rfl
  | cons f rest ih =>
    by_cases h : (data.read f.key).isUndefined = true
    · simp [List.filter, h, validateFieldsLoop, validateField, ih]
    · simp only [Bool.not_eq_true] at h
      simp only [List.filter, h, validateFieldsLoop, Bool.not_false]
      cases validateField env f (data.read f.key) reputation with
      | error e => rfl
      | ok u => simpa using ih


/-! ## The field validator: the claims -/

/-- C4: for every definition, every submitted value that is not `undefined`
and every integer reputation, `validateField` fails with the
not-enough-reputation-custom-field error (carrying `min:rep`, 0 when unset,
and the name) if and only if the reputation is below `min:rep` and the
`reputation:disabled` flag is false; when the flag is set the reputation gate
rejects no reputation value. -/
theorem validateField_reputation_error_iff (env : Env) (field : CustomField) (value : JSVal)
    (r : Int) (hdef : value.isUndefined = false) :
    (validateField env field value (.int r) =
        .error (.error (tx.compile "error:not-enough-reputation-custom-field"
          [toString (field.minRep.getD 0), field.name]))
      ↔ (r < field.minRep.getD 0 ∧ env.config.reputationDisabled = false)) ∧
    (env.config.reputationDisabled = true →
      ∀ rep : JSNum, checkReputation env field rep = .ok ()) := by
  rw [← minRepOrZero_eq]
  refine ⟨?_, ?_⟩
  · rcases checkReputation_cases env field (.int r) with ⟨hok, hno⟩ | ⟨herr, hlt, hdis⟩
    · have hno2 : ¬ (r < field.minRepOrZero ∧ env.config.reputationDisabled = false) := by
        simpa [JSNum.lt] using hno
      constructor
      · intro h
        exfalso
        rcases checkLength_cases field value with hlen | ⟨hlen, _⟩
        · rw [validateField_eq_checkType env field value _ hdef hok hlen] at h
          rcases checkType_error_code env field value _ h with h1 | h1 | ⟨code, h1, h2⟩
          · cases h1
          · cases h1
          · simp only [tx.compile, JSError.error.injEq, Message.compiled.injEq] at h1
            have hc := h1.1
            subst hc
            simp at h2
        · rw [validateField_of_length_error env field value _ _ hdef hok hlen] at h
          simp [tx.compile] at h
      · intro h
        exact absurd h hno2
    · have hlt2 : r < field.minRepOrZero := by simpa [JSNum.lt] using hlt
      constructor
      · intro _
        exact ⟨hlt2, hdis⟩
      · intro _
        exact validateField_of_reputation_error env field value _ _ hdef herr
  · intro hdis rep
    simp [checkReputation, hdis]

/-- C4, at the test suite's input: reputation 0 against `Lucky Number`
(threshold 7) with the value 13. -/
theorem validateField_reputation_error_iff_witness :
    validateField demoEnv luckyNumber (.num (.int 13)) (.int 0) =
      .error (.error (tx.compile "error:not-enough-reputation-custom-field"
        ["7", "Lucky Number"])) :=
  ((validateField_reputation_error_iff demoEnv luckyNumber (.num (.int 13)) 0 rfl).1).2
    ⟨by decide, rfl⟩

/-- C5, as stated, fails: with threshold 0 and reputation enabled, the
reputation -1 is rejected by `checkReputation`, and `validateField` fails on a
defined value. -/
theorem checkReputation_zero_threshold_rejects_negative :
    checkReputation demoEnv bio (.int (-1)) =
      .error (.error (tx.compile "error:not-enough-reputation-custom-field" ["0", "Bio"])) ∧
    validateField demoEnv bio (.str "x") (.int (-1)) =
      .error (.error (tx.compile "error:not-enough-reputation-custom-field" ["0", "Bio"])) := by
  constructor <;> decide

/-- C5, amended: a definition whose threshold is 0 or unset passes the
reputation gate exactly when the reputation is not negative or the
`reputation:disabled` flag is set. -/
theorem checkReputation_zero_threshold (env : Env) (field : CustomField) (r : Int)
    (hzero : field.minRep = none ∨ field.minRep = some 0) :
    checkReputation env field (.int r) = .ok () ↔
      (0 ≤ r ∨ env.config.reputationDisabled = true) := by
  have h0 : field.minRepOrZero = 0 := by
    rw [minRepOrZero_eq]
    rcases hzero with h | h <;> simp [h]
  unfold checkReputation
  simp only [h0, JSNum.lt]
  cases hdis : env.config.reputationDisabled
  · by_cases hr : r < 0
    · simp [hr]
    · simp [hr]; omega
  · simp

/-- C5, amended, at reputation 0 and at reputation 10 for the definition `Bio`
(threshold 0). -/
theorem checkReputation_zero_threshold_witness :
    checkReputation demoEnv bio (.int 0) = .ok () ∧
    checkReputation demoEnv bio (.int 10) = .ok () :=
  ⟨(checkReputation_zero_threshold demoEnv bio 0 (Or.inr rfl)).2 (Or.inl (by decide)),
   (checkReputation_zero_threshold demoEnv bio 10 (Or.inr rfl)).2 (Or.inl (by decide))⟩

/-- C6: for a string value that passes the reputation gate, the length gate
accepts a length (in UTF-16 code units, the `length` property) of at most 255
and fails with the custom-user-field-value-too-long error naming the field at
256 or more, which is then the result of `validateField`; a value that is not
a string is never rejected by the length gate. -/
theorem checkLength_boundary (env : Env) (field : CustomField) (reputation : JSNum)
    (hrep : checkReputation env field reputation = .ok ()) :
    (∀ s : String, jsLength s ≤ 255 → checkLength field (.str s) = .ok ()) ∧
    (∀ s : String, 256 ≤ jsLength s →
      checkLength field (.str s) =
        .error (.error (tx.compile "error:custom-user-field-value-too-long" [field.name])) ∧
      validateField env field (.str s) reputation =
        .error (.error (tx.compile "error:custom-user-field-value-too-long" [field.name]))) ∧
    (∀ value : JSVal, (∀ s, value ≠ .str s) → checkLength field value = .ok ()) := by
  refine ⟨?_, ?_, ?_⟩
  · intro s hs
    have : ¬ 255 < jsLength s := by omega
    simp [checkLength, this]
  · intro s hs
    have h1 : 255 < jsLength s := by omega
    have h2 : checkLength field (.str s) =
        .error (.error (tx.compile "error:custom-user-field-value-too-long" [field.name])) := by
      simp [checkLength, h1]
    exact ⟨h2, validateField_of_length_error env field _ _ _ rfl hrep h2⟩
  · intro value hv
    cases value <;> simp [checkLength]
    rename_i s
    exact absurd rfl (hv s)

set_option maxRecDepth 100000 in
/-- C6 at the boundary: 255 letters pass the length gate, 256 letters fail
`validateField` with the too-long error, and the number 13 passes. -/
theorem checkLength_boundary_witness :
    jsLength (repeatA 255) = 255 ∧ jsLength (repeatA 256) = 256 ∧
    checkLength bio (.str (repeatA 255)) = .ok () ∧
    validateField demoEnv bio (.str (repeatA 256)) (.int 10) =
      .error (.error (tx.compile "error:custom-user-field-value-too-long" ["Bio"])) ∧
    checkLength bio (.num (.int 13)) = .ok () :=
  ⟨by decide, by decide,
   (checkLength_boundary demoEnv bio (.int 10) (by decide)).1 _ (by decide),
   ((checkLength_boundary demoEnv bio (.int 10) (by decide)).2.1 _ (by decide)).2,
   (checkLength_boundary demoEnv bio (.int 10) (by decide)).2.2 _ (by intro s h; cases h)⟩

/-- C7: `validateField` evaluates reputation, then length, then type, and
raises the first violation: on a defined value a failure of the reputation
gate is the result whatever the other gates would say, and when the reputation
gate passes a string longer than 255 yields value-too-long whatever the type
gate would say. -/
theorem validateField_gate_order (env : Env) (field : CustomField) (value : JSVal)
    (reputation : JSNum) (hdef : value.isUndefined = false) :
    (∀ e, checkReputation env field reputation = .error e →
      validateField env field value reputation = .error e) ∧
    (checkReputation env field reputation = .ok () →
      ∀ s, value = .str s → 255 < jsLength s →
        validateField env field value reputation =
          .error (.error (tx.compile "error:custom-user-field-value-too-long"
            [field.name]))) := by
  refine ⟨?_, ?_⟩
  · intro e he
    exact validateField_of_reputation_error env field value _ _ hdef he
  · intro hrep s hs hlen
    subst hs
    apply validateField_of_length_error env field _ _ _ hdef hrep
    simp [checkLength, hlen]

set_option maxRecDepth 100000 in
/-- C7 on the number field `Lucky Number`: 300 letters violate both the
length rule and the number rule and yield value-too-long; with reputation 0
the same value yields the reputation error. -/
theorem validateField_gate_order_witness :
    checkType demoEnv luckyNumber (.str (repeatA 300)) =
      .error (.error (tx.compile "error:custom-user-field-invalid-number" ["Lucky Number"])) ∧
    validateField demoEnv luckyNumber (.str (repeatA 300)) (.int 10) =
      .error (.error (tx.compile "error:custom-user-field-value-too-long" ["Lucky Number"])) ∧
    validateField demoEnv luckyNumber (.str (repeatA 300)) (.int 0) =
      .error (.error (tx.compile "error:not-enough-reputation-custom-field"
        ["7", "Lucky Number"])) :=
  ⟨by decide,
   (validateField_gate_order demoEnv luckyNumber (.str (repeatA 300)) (.int 10) rfl).2
      (by decide) _ rfl (by decide),
   (validateField_gate_order demoEnv luckyNumber (.str (repeatA 300)) (.int 0) rfl).1 _
      (by decide)⟩

/-- C8, as stated, fails: the body `{uid: 2}` has no key `constructor`, yet
for a definition keyed `constructor` the read `data[field.key]` gives the
function every object inherits, so `validateField` evaluates the definition
and the number check fails, in the loop and in `validateCustomFields`. -/
theorem validateFieldsLoop_inherited_key_evaluated :
    JSObject.hasOwn [("uid", .num (.int 2))] "constructor" = false ∧
    JSObject.read [("uid", .num (.int 2))] "constructor" = .func "Object" 1 ∧
    validateFieldsLoop demoEnv [("uid", .num (.int 2))] (.int 10) [constructorField] =
      .error (.error (tx.compile "error:custom-user-field-invalid-number" ["Constructor"])) ∧
    (validateCustomFields demoEnv [("uid", .num (.int 2))]
        { db := constructorDB, trace := [] }).1 =
      .error (.error (tx.compile "error:custom-user-field-invalid-number" ["Constructor"])) :=
  ⟨rfl, rfl, rfl, rfl⟩

/-- C8, amended: on the value `undefined` `validateField` performs no check
and succeeds, whatever the reputation and the definition, and the loop of
`validateCustomFields` evaluates exactly the definitions for which the read
`data[field.key]` is not `undefined`. The read of a key that is absent from
the data is `undefined` when the key is none of the twelve properties of
`Object.prototype`, and is the inherited function or object when it is one of
them; the read of a key that is present is the value submitted. -/
theorem validateField_undefined (env : Env) :
    (∀ (field : CustomField) (reputation : JSNum),
      validateField env field .undefined reputation = .ok ()) ∧
    (∀ (data : JSObject) (reputation : JSNum) (fields : List CustomField),
      validateFieldsLoop env data reputation fields =
        validateFieldsLoop env data reputation
          (fields.filter (fun f => !(data.read f.key).isUndefined))) ∧
    (∀ (data : JSObject) (key : String), data.hasOwn key = false →
      key ∉ ["constructor", "__defineGetter__", "__defineSetter__", "hasOwnProperty",
        "__lookupGetter__", "__lookupSetter__", "isPrototypeOf", "propertyIsEnumerable",
        "toString", "valueOf", "toLocaleString", "__proto__"] →
      data.read key = .undefined) ∧
    (∀ (data : JSObject) (key : String), data.hasOwn key = false →
      key ∈ ["constructor", "__defineGetter__", "__defineSetter__", "hasOwnProperty",
        "__lookupGetter__", "__lookupSetter__", "isPrototypeOf", "propertyIsEnumerable",
        "toString", "valueOf", "toLocaleString", "__proto__"] →
      (data.read key).isUndefined = false ∧ ∀ s, data.read key ≠ .str s) ∧
    (∀ (data : JSObject) (key : String), data.hasOwn key = true →
      data.read key = data.get key) := by
  have hnames : ∀ key, objectPrototype.hasOwn key = true ↔
      key ∈ ["constructor", "__defineGetter__", "__defineSetter__", "hasOwnProperty",
        "__lookupGetter__", "__lookupSetter__", "isPrototypeOf", "propertyIsEnumerable",
        "toString", "valueOf", "toLocaleString", "__proto__"] := by
    intro key
    simp only [objectPrototype, objectPrototypeFunctions, List.cons_append, List.nil_append,
      JSObject.hasOwn, List.any_cons, List.any_nil, Bool.or_false, Bool.or_eq_true,
      beq_iff_eq, List.mem_cons, List.mem_singleton, List.mem_nil_iff, or_false]
    constructor <;> intro h <;>
      rcases h with h | h | h | h | h | h | h | h | h | h | h | h <;> simp [h]
  refine ⟨fun _ _ => rfl, fun data reputation fields =>
    validateFieldsLoop_filter env data reputation fields, ?_, ?_, ?_⟩
  · intro data key hown hkey
    have hp : objectPrototype.hasOwn key = false := by
      cases h : objectPrototype.hasOwn key with
      | false => rfl
      | true => exact absurd ((hnames key).mp h) hkey
    rw [JSObject.read_eq_get _ _ hp, JSObject.get_of_not_hasOwn _ _ hown]
  · intro data key hown hkey
    have hp := (hnames key).mpr hkey
    have hr : data.read key = objectPrototype.get key := by
      simp [JSObject.read, hown]
    rw [hr]
    exact ⟨objectPrototype_get_defined key hp, fun s => objectPrototype_get_ne_str key s⟩
  · intro data key hown
    exact JSObject.read_of_hasOwn data key hown

/-- C8, amended, on the body `{uid: 2}`: the key `luckyNumber` is absent and
reads as `undefined`, so its definition is not evaluated, whatever the
reputation; the key `constructor` is absent and does not read as `undefined`;
the key `uid` reads as submitted. -/
theorem validateField_undefined_witness :
    JSObject.read [("uid", .num (.int 2))] "luckyNumber" = .undefined ∧
    validateFieldsLoop demoEnv [("uid", .num (.int 2))] (.int 0) [luckyNumber] = .ok () ∧
    (JSObject.read [("uid", .num (.int 2))] "constructor").isUndefined = false ∧
    JSObject.read [("uid", .num (.int 2))] "uid" = .num (.int 2) :=
  ⟨(validateField_undefined demoEnv).2.2.1 [("uid", .num (.int 2))] "luckyNumber" rfl
      (by decide),
   ((validateField_undefined demoEnv).2.1 [("uid", .num (.int 2))] (.int 0)
      [luckyNumber]).trans rfl,
   ((validateField_undefined demoEnv).2.2.2.1 [("uid", .num (.int 2))] "constructor" rfl
      (by decide)).1,
   (validateField_undefined demoEnv).2.2.2.2 [("uid", .num (.int 2))] "uid" rfl⟩

/-- C9: for a definition of type `select` with options text `text`, and a
defined value that passes the reputation and length gates, `validateField`
succeeds if and only if the value is the empty string or a member of the
non-empty lines of `text`; otherwise it fails with the
custom-user-field-select-value-invalid error naming the field. -/
theorem validateField_select (env : Env) (field : CustomField) (text : String) (value : JSVal)
    (reputation : JSNum)
    (htype : field.type = "select") (hopts : field.selectOptions = some text)
    (hdef : value.isUndefined = false)
    (hrep : checkReputation env field reputation = .ok ())
    (hlen : checkLength field value = .ok ()) :
    (validateField env field value reputation = .ok () ↔
      (value = .str "" ∨ ∃ s, value = .str s ∧ s ∈ optionList text)) ∧
    (¬ (value = .str "" ∨ ∃ s, value = .str s ∧ s ∈ optionList text) →
      validateField env field value reputation =
        .error (.error (tx.compile "error:custom-user-field-select-value-invalid"
          [field.name]))) := by
  rw [validateField_eq_checkType env field value _ hdef hrep hlen,
    checkType_select env field text value htype hopts]
  by_cases h : (includesVal (optionList text) value || value.isEmptyStr) = true
  · have hc : value = .str "" ∨ ∃ s, value = .str s ∧ s ∈ optionList text := by
      rw [Bool.or_eq_true, includesVal_iff, isEmptyStr_iff] at h
      exact h.symm
    simp only [h, if_true, true_iff]
    exact ⟨hc, fun hn => absurd hc hn⟩
  · have hc : ¬ (value = .str "" ∨ ∃ s, value = .str s ∧ s ∈ optionList text) := by
      rw [Bool.or_eq_true, includesVal_iff, isEmptyStr_iff] at h
      exact fun hc => h hc.symm
    simp only [h]
    refine ⟨⟨fun hx => ?_, fun hx => absurd hx hc⟩, fun _ => rfl⟩
    simp at hx

/-- C9 on the definition `Soccer Team` (options Barcelona, Liverpool): the
option list, an option, the empty string and a foreign value. -/
theorem validateField_select_witness :
    optionList "Barcelona\nLiverpool" = ["Barcelona", "Liverpool"] ∧
    validateField demoEnv soccerTeam (.str "Liverpool") (.int 10) = .ok () ∧
    validateField demoEnv soccerTeam (.str "") (.int 10) = .ok () ∧
    validateField demoEnv soccerTeam (.str "Real Madrid") (.int 10) =
      .error (.error (tx.compile "error:custom-user-field-select-value-invalid"
        ["Soccer Team"])) :=
  ⟨by decide,
   (validateField_select demoEnv soccerTeam "Barcelona\nLiverpool" (.str "Liverpool") (.int 10)
      rfl rfl rfl (by decide) (by decide)).1.2 (Or.inr ⟨_, rfl, by decide⟩),
   (validateField_select demoEnv soccerTeam "Barcelona\nLiverpool" (.str "") (.int 10)
      rfl rfl rfl (by decide) (by decide)).1.2 (Or.inl rfl),
   (validateField_select demoEnv soccerTeam "Barcelona\nLiverpool" (.str "Real Madrid")
      (.int 10) rfl rfl rfl (by decide) (by decide)).2
      (by
        intro h
        rcases h with h | ⟨s, h, hs⟩
        · exact absurd (JSVal.str.inj h) (by decide)
        · cases h
          revert hs
          decide)⟩

/-- C10: for a definition of type `select-multi` with options text `text` and
a value that is the JSON text `s` of an array `values`, the type gate passes
if and only if every element of `values` is a string among the non-empty
lines of `text` (the empty array passes); otherwise it fails with the
custom-user-field-select-value-invalid error naming the field. -/
theorem checkType_selectMulti_array (env : Env) (field : CustomField) (text s : String)
    (values : List JSVal)
    (htype : field.type = "select-multi") (hopts : field.selectOptions = some text)
    (hne : s ≠ "") (hparse : env.jsonParse s = some (.arr values)) :
    (checkType env field (.str s) = .ok () ↔
      ∀ v ∈ values, ∃ t, v = .str t ∧ t ∈ optionList text) ∧
    (¬ (∀ v ∈ values, ∃ t, v = .str t ∧ t ∈ optionList text) →
      checkType env field (.str s) =
        .error (.error (tx.compile "error:custom-user-field-select-value-invalid"
          [field.name]))) := by
  have htruthy : (JSVal.str s).truthy = true := by simp [JSVal.truthy, hne]
  have hp : env.jsonParse (if (JSVal.str s).truthy then (JSVal.str s).toStr else "[]") =
      some (.arr values) := by
    simp only [htruthy, if_true, JSVal.toStr]
    exact hparse
  rw [checkType_selectMulti env field text (.str s) values htype hopts hp]
  have hall : values.all (includesVal (optionList text)) = true ↔
      ∀ v ∈ values, ∃ t, v = .str t ∧ t ∈ optionList text := by
    rw [List.all_eq_true]
    constructor
    · intro h v hv
      exact (includesVal_iff _ _).1 (h v hv)
    · intro h v hv
      exact (includesVal_iff _ _).2 (h v hv)
  by_cases h : values.all (includesVal (optionList text)) = true
  · simp only [h, if_true, true_iff]
    exact ⟨hall.1 h, fun hn => absurd (hall.1 h) hn⟩
  · simp only [h]
    refine ⟨⟨fun hx => ?_, fun hx => absurd (hall.2 hx) h⟩, fun _ => rfl⟩
    simp at hx

/-- C10 on the definition `Languages` (options C, JS, Python): the array with
C passes, the array with C and Ruby fails. -/
theorem checkType_selectMulti_array_witness :
    checkType demoEnv languages (.str "[\"C\"]") = .ok () ∧
    checkType demoEnv languages (.str "[\"C\", \"Ruby\"]") =
      .error (.error (tx.compile "error:custom-user-field-select-value-invalid"
        ["Languages"])) :=
  ⟨(checkType_selectMulti_array demoEnv languages "C\nJS\nPython" "[\"C\"]" [.str "C"]
      rfl rfl (by decide) rfl).1.2
      (by
        intro v hv
        simp only [List.mem_singleton] at hv
        exact ⟨"C", hv, by decide⟩),
   (checkType_selectMulti_array demoEnv languages "C\nJS\nPython" "[\"C\", \"Ruby\"]"
      [.str "C", .str "Ruby"] rfl rfl (by decide) rfl).2
      (by
        intro h
        rcases h (.str "Ruby") (by simp) with ⟨t, ht, hmem⟩
        cases ht
        revert hmem
        decide)⟩


/-! ## Asynchronous functions that only read the store -/

theorem Eff.bind_run {α β : Type} (x : Eff α) (f : α → Eff β) (w : World) :
    (x >>= f) w =
      match x w with
      | (.ok a, w') => f a w'
      | (.error e, w') => (.error e, w') := rfl

theorem Eff.bind_of_ok {α β : Type} (x : Eff α) (f : α → Eff β) (w w' : World) (a : α)
    (h : x w = (.ok a, w')) : (x >>= f) w = f a w' := by
  rw [Eff.bind_run, h]

theorem Eff.both_of_ok {β : Type} (x : Eff Unit) (y : Eff β) (w w' : World)
    (h : x w = (.ok (), w')) : Eff.both x y w = y w' := by
  simp only [Eff.both, h]

theorem Eff.bind_of_error {α β : Type} (x : Eff α) (f : α → Eff β) (w w' : World)
    (e : JSError) (h : x w = (.error e, w')) : (x >>= f) w = (.error e, w') := by
  rw [Eff.bind_run, h]

theorem Eff.ReadOnly.pure {α : Type} (a : α) : Eff.ReadOnly (Pure.pure a : Eff α) :=
  ⟨fun _ => .ok a, fun _ => [], by simp, fun w => by
    show (Except.ok a, w) = _
    simp⟩

theorem Eff.ReadOnly.throw {α : Type} (e : JSError) : Eff.ReadOnly (Eff.throw e : Eff α) :=
  ⟨fun _ => .error e, fun _ => [], by simp, fun w => by
    show (Except.error e, w) = _
    simp⟩

theorem Eff.ReadOnly.ofExcept {α : Type} (x : Except JSError α) :
    Eff.ReadOnly (Eff.ofExcept x) := by
  cases x with
  | ok a => exact Eff.ReadOnly.pure a
  | error e => exact Eff.ReadOnly.throw e

theorem Eff.ReadOnly.getDB : Eff.ReadOnly Eff.getDB :=
  ⟨fun store => .ok store, fun _ => [], by simp, fun w => by
    show (Except.ok w.db, w) = _
    simp⟩

theorem Eff.ReadOnly.emit (ev : Event) (h : ev.isWrite = false) : Eff.ReadOnly (Eff.emit ev) :=
  ⟨fun _ => .ok (), fun _ => [ev], fun _ e he => by
    simp only [List.mem_singleton] at he
    rw [he]
    exact h, fun w => rfl⟩

theorem Eff.ReadOnly.bind {α β : Type} (x : Eff α) (f : α → Eff β)
    (hx : Eff.ReadOnly x) (hf : ∀ a, Eff.ReadOnly (f a)) : Eff.ReadOnly (x >>= f) := by
  obtain ⟨r1, ev1, hw1, h1⟩ := hx
  choose r2 ev2 hw2 h2 using hf
  refine ⟨fun store => match r1 store with
      | .ok a => r2 a store
      | .error e => .error e,
    fun store => ev1 store ++ (match r1 store with
      | .ok a => ev2 a store
      | .error _ => []), ?_, ?_⟩
  · intro store e he
    rcases List.mem_append.1 he with h | h
    · exact hw1 store e h
    · cases hr : r1 store with
      | ok a => rw [hr] at h; exact hw2 a store e h
      | error e' => rw [hr] at h; simp at h
  · intro w
    rw [Eff.bind_run, h1 w]
    cases hr : r1 w.db with
    | ok a => simp [h2 a, hr, List.append_assoc]
    | error e => simp [hr]

theorem Eff.ReadOnly.db_eq {α : Type} {x : Eff α} (h : Eff.ReadOnly x) (w : World) :
    (x w).2.db = w.db := by
  obtain ⟨r, ev, _, hx⟩ := h
  rw [hx w]

theorem Eff.ReadOnly.result_eq {α : Type} {x : Eff α} (h : Eff.ReadOnly x) (w w' : World)
    (hdb : w.db = w'.db) : (x w).1 = (x w').1 := by
  obtain ⟨r, ev, _, hx⟩ := h
  rw [hx w, hx w', hdb]

theorem Eff.ReadOnly.writes_eq {α : Type} {x : Eff α} (h : Eff.ReadOnly x) (w : World) :
    (x w).2.trace.filter Event.isWrite = w.trace.filter Event.isWrite := by
  obtain ⟨r, ev, hev, hx⟩ := h
  rw [hx w]
  simp only [List.filter_append]
  have : (ev w.db).filter Event.isWrite = [] := by
    rw [List.filter_eq_nil_iff]
    intro e he
    simp [hev w.db e he]
  rw [this, List.append_nil]

theorem db.getSortedSetRange_readOnly (key : String) :
    Eff.ReadOnly (db.getSortedSetRange key) := by
  unfold db.getSortedSetRange
  exact Eff.ReadOnly.bind _ _ Eff.ReadOnly.getDB (fun _ => Eff.ReadOnly.pure _)

theorem db.getObjectField_readOnly (key field : String) :
    Eff.ReadOnly (db.getObjectField key field) := by
  unfold db.getObjectField
  exact Eff.ReadOnly.bind _ _ Eff.ReadOnly.getDB (fun _ => Eff.ReadOnly.pure _)

theorem db.getObjectFields_readOnly (key : String) (fields : List String) :
    Eff.ReadOnly (db.getObjectFields key fields) := by
  unfold db.getObjectFields
  exact Eff.ReadOnly.bind _ _ Eff.ReadOnly.getDB (fun _ => Eff.ReadOnly.pure _)

theorem User.getUserFields_readOnly (uid : JSVal) (fields : List String) :
    Eff.ReadOnly (User.getUserFields uid fields) :=
  db.getObjectFields_readOnly _ _

theorem User.getUserField_readOnly (uid : JSVal) (field : String) :
    Eff.ReadOnly (User.getUserField uid field) :=
  db.getObjectField_readOnly _ _

theorem User.existsBySlug_readOnly (userslug : String) :
    Eff.ReadOnly (User.existsBySlug userslug) := by
  unfold User.existsBySlug
  exact Eff.ReadOnly.bind _ _ Eff.ReadOnly.getDB (fun _ => Eff.ReadOnly.pure _)

theorem usernameChecks_readOnly (env : Env) (username : String) (uid : JSVal) :
    Eff.ReadOnly (usernameChecks env username uid) := by
  unfold usernameChecks
  repeat' first
    | exact Eff.ReadOnly.pure _
    | exact Eff.ReadOnly.throw _
    | exact Eff.ReadOnly.ofExcept _
    | exact User.getUserFields_readOnly _ _
    | exact User.existsBySlug_readOnly _
    | exact Eff.ReadOnly.emit _ rfl
    | apply Eff.ReadOnly.bind
    | intro _
    | split


theorem isUsernameAvailable_readOnly (env : Env) (data : JSObject) (uid : JSVal) :
    Eff.ReadOnly (isUsernameAvailable env data uid) := by
  unfold isUsernameAvailable
  try dsimp only
  repeat' first
    | exact Eff.ReadOnly.pure _
    | exact Eff.ReadOnly.throw _
    | exact usernameChecks_readOnly _ _ _
    | apply Eff.ReadOnly.bind
    | intro _
    | split

theorem User.checkMinReputation_readOnly (env : Env) (callerUid uid : JSVal)
    (setting : String) : Eff.ReadOnly (User.checkMinReputation env callerUid uid setting) := by
  unfold User.checkMinReputation
  try dsimp only
  repeat' first
    | exact Eff.ReadOnly.pure _
    | exact Eff.ReadOnly.throw _
    | exact User.getUserField_readOnly _ _
    | apply Eff.ReadOnly.bind
    | intro _
    | split

theorem isAboutMeValid_readOnly (env : Env) (callerUid : JSVal) (data : JSObject) :
    Eff.ReadOnly (isAboutMeValid env callerUid data) := by
  unfold isAboutMeValid
  try dsimp only
  repeat' first
    | exact Eff.ReadOnly.pure _
    | exact Eff.ReadOnly.throw _
    | exact User.checkMinReputation_readOnly _ _ _ _
    | split

theorem isSignatureValid_readOnly (env : Env) (callerUid : JSVal) (data : JSObject) :
    Eff.ReadOnly (isSignatureValid env callerUid data) := by
  unfold isSignatureValid
  try dsimp only
  repeat' first
    | exact Eff.ReadOnly.pure _
    | exact Eff.ReadOnly.throw _
    | exact User.checkMinReputation_readOnly _ _ _ _
    | split

theorem validateCustomFields_readOnly (env : Env) (data : JSObject) :
    Eff.ReadOnly (validateCustomFields env data) := by
  unfold validateCustomFields
  try dsimp only
  repeat' first
    | exact Eff.ReadOnly.pure _
    | exact Eff.ReadOnly.ofExcept _
    | exact Eff.ReadOnly.getDB
    | exact db.getSortedSetRange_readOnly _
    | exact User.getUserField_readOnly _ _
    | apply Eff.ReadOnly.bind
    | intro _

/-- The function `validateData` only reads the store. -/
theorem validateData_readOnly (env : Env) (callerUid : JSVal) (data : JSObject) :
    Eff.ReadOnly (validateData env callerUid data) := by
  unfold validateData
  try dsimp only
  repeat' first
    | exact Eff.ReadOnly.pure _
    | exact Eff.ReadOnly.ofExcept _
    | exact isUsernameAvailable_readOnly _ _ _
    | exact isAboutMeValid_readOnly _ _ _
    | exact isSignatureValid_readOnly _ _ _
    | exact validateCustomFields_readOnly _ _
    | apply Eff.ReadOnly.bind
    | intro _

/-- The result of a sequence of two functions that only read, both taken in
the same state. -/
theorem Eff.ReadOnly.bind_result {α β : Type} (x : Eff α) (f : α → Eff β)
    (hx : Eff.ReadOnly x) (hf : ∀ a, Eff.ReadOnly (f a)) (w : World) :
    ((x >>= f) w).1 =
      match (x w).1 with
      | .ok a => (f a w).1
      | .error e => .error e := by
  have hdb := hx.db_eq w
  rw [Eff.bind_run]
  rcases hxw : x w with ⟨r, w'⟩
  rw [hxw] at hdb
  cases r with
  | ok a => exact (hf a).result_eq w' w hdb
  | error e => rfl

theorem Eff.ofExcept_result {α : Type} (x : Except JSError α) (w : World) :
    (Eff.ofExcept x w).1 = x := by
  cases x <;> rfl

/-! ## Frame properties of the validators -/

theorem JSObject.get_set_ne (data : JSObject) (k k' : String) (v : JSVal) (h : k ≠ k') :
    (data.set k v).get k' = data.get k' := by
  induction data with
  | nil => simp [JSObject.set, JSObject.get, h]
  | cons p rest ih =>
    obtain ⟨k0, v0⟩ := p
    by_cases h0 : k0 = k
    · subst h0
      simp [JSObject.set, JSObject.get, h]
    · by_cases h1 : k0 = k'
      · subst h1
        simp [JSObject.set, JSObject.get, h0]
      · simp [JSObject.set, JSObject.get, h0, h1, ih]

theorem JSObject.get_set_eq (data : JSObject) (k : String) (v : JSVal) :
    (data.set k v).get k = v := by
  induction data with
  | nil => simp [JSObject.set, JSObject.get]
  | cons p rest ih =>
    obtain ⟨k0, v0⟩ := p
    by_cases h0 : k0 = k
    · simp [JSObject.set, JSObject.get, h0]
    · simp [JSObject.set, JSObject.get, h0, ih]

/-- The function `isEmailValid` changes `data.email` only. -/
theorem isEmailValid_frame (env : Env) (data data1 : JSObject)
    (h : isEmailValid env data = .ok data1) (k : String) (hk : k ≠ "email") :
    data1.get k = data.get k := by
  unfold isEmailValid at h
  split at h
  · cases h; rfl
  · cases hv : data.get "email" with
    | str s =>
      simp only [hv] at h
      split at h
      · cases h
      · cases h
        exact JSObject.get_set_ne _ _ _ _ (Ne.symm hk)
    | _ => simp [hv] at h

/-- The function `isUsernameAvailable` changes `data.username` only. -/
theorem isUsernameAvailable_frame (env : Env) (data data2 : JSObject) (uid : JSVal)
    (w : World) (h : (isUsernameAvailable env data uid w).1 = .ok data2) (k : String)
    (hk : k ≠ "username") : data2.get k = data.get k := by
  unfold isUsernameAvailable at h
  by_cases hc : (!(data.get "username").truthy) = true
  · simp only [hc, if_true] at h
    cases h
    rfl
  · simp only [hc] at h
    cases hv : data.get "username" with
    | str s =>
      simp only [hv, Bool.false_eq_true, if_false] at h
      rw [Eff.bind_run] at h
      rcases hx : usernameChecks env (jsTrim s) uid w with ⟨r, w'⟩
      rw [hx] at h
      cases r with
      | ok u =>
        cases h
        exact JSObject.get_set_ne _ _ _ _ (Ne.symm hk)
      | error e => cases h
    | _ =>
      simp only [hv, Bool.false_eq_true, if_false] at h
      cases h

/-- The verdict of `isUsernameAvailable` depends on `data.username` only. -/
theorem isUsernameAvailable_congr (env : Env) (data data' : JSObject) (uid : JSVal)
    (w : World) (h : data.get "username" = data'.get "username") :
    (isUsernameAvailable env data uid w).1.map (fun _ => ()) =
      (isUsernameAvailable env data' uid w).1.map (fun _ => ()) := by
  unfold isUsernameAvailable
  rw [h]
  by_cases hc : (!(data'.get "username").truthy) = true
  · simp only [hc, if_true]
    rfl
  · simp only [hc]
    cases hv : data'.get "username" with
    | str s =>
      simp only [Bool.false_eq_true, if_false]
      rw [Eff.bind_run, Eff.bind_run]
      rcases usernameChecks env (jsTrim s) uid w with ⟨r, w'⟩
      cases r <;> rfl
    | _ => rfl

theorem isAboutMeValid_congr (env : Env) (callerUid : JSVal) (data data' : JSObject)
    (h1 : data.get "aboutme" = data'.get "aboutme") (h2 : data.get "uid" = data'.get "uid") :
    isAboutMeValid env callerUid data = isAboutMeValid env callerUid data' := by
  unfold isAboutMeValid
  rw [h1, h2]

theorem isSignatureValid_congr (env : Env) (callerUid : JSVal) (data data' : JSObject)
    (h1 : data.get "signature" = data'.get "signature")
    (h2 : data.get "uid" = data'.get "uid") :
    isSignatureValid env callerUid data = isSignatureValid env callerUid data' := by
  unfold isSignatureValid
  rw [h1, h2]

theorem isFullnameValid_congr (env : Env) (data data' : JSObject)
    (h1 : data.get "fullname" = data'.get "fullname") :
    isFullnameValid env data = isFullnameValid env data' := by
  unfold isFullnameValid
  rw [h1]

theorem isBirthdayValid_congr (env : Env) (data data' : JSObject)
    (h1 : data.get "birthday" = data'.get "birthday") :
    isBirthdayValid env data = isBirthdayValid env data' := by
  unfold isBirthdayValid
  rw [h1]

/-- The verdict of `isGroupTitleValid` depends on `data.groupTitle` only. -/
theorem isGroupTitleValid_congr (env : Env) (data data' : JSObject)
    (h1 : data.get "groupTitle" = data'.get "groupTitle") :
    (isGroupTitleValid env data).map (fun _ => ()) =
      (isGroupTitleValid env data').map (fun _ => ()) := by
  unfold isGroupTitleValid
  rw [h1]
  repeat' split
  all_goals rfl


/-- One step of a sequence whose first function only reads: its verdict may
be taken in any state with the same store. -/
theorem Eff.ReadOnly.bind_step {α β : Type} {x : Eff α} {f : α → Eff β}
    (hx : Eff.ReadOnly x) (w0 w : World) (hdb : w.db = w0.db) :
    (x >>= f) w =
      match (x w0).1 with
      | .ok a => f a (x w).2
      | .error e => (.error e, (x w).2) := by
  rw [Eff.bind_run, ← hx.result_eq w w0 hdb]
  rcases x w with ⟨r, w'⟩
  cases r <;> rfl

/-- The first failure among the seven built-in validators, each judged on the
submitted data, is the failure of `validateData`. -/
theorem validateData_first_failure (env : Env) (callerUid : JSVal) (data : JSObject)
    (w : World) (e : JSError)
    (h : firstError ((validatorVerdicts env callerUid data w).take 7) = some e) :
    (validateData env callerUid data w).1 = .error e := by
  unfold validateData
  simp only [validatorVerdicts, List.take] at h
  rw [Eff.ReadOnly.bind_step (Eff.ReadOnly.ofExcept _) w w rfl, Eff.ofExcept_result]
  cases h1 : isEmailValid env data with
  | error e1 =>
    rw [h1] at h
    cases (Option.some.inj h)
    rfl
  | ok d1 =>
    rw [h1] at h
    replace h : firstError [Except.map (fun _ => ())
        (isUsernameAvailable env data (data.get "uid") w).1,
      (isAboutMeValid env callerUid data w).1, (isSignatureValid env callerUid data w).1,
      isFullnameValid env data, isBirthdayValid env data,
      (isGroupTitleValid env data).map (fun _ => ())] = some e := h
    simp only []
    have f1 := isEmailValid_frame env data d1 h1
    have hdb1 : (Eff.ofExcept (Except.ok d1 : Except JSError JSObject) w).2.db = w.db := rfl
    generalize (Eff.ofExcept (Except.ok d1 : Except JSError JSObject) w).2 = w1 at hdb1 ⊢
    rw [f1 "uid" (by decide)]
    rw [Eff.ReadOnly.bind_step (isUsernameAvailable_readOnly _ _ _) w w1 hdb1]
    have c2 := isUsernameAvailable_congr env d1 data (data.get "uid") w
      (f1 "username" (by decide))
    rw [← c2] at h
    have hdb2 : (isUsernameAvailable env d1 (data.get "uid") w1).2.db = w.db :=
      ((isUsernameAvailable_readOnly _ _ _).db_eq w1).trans hdb1
    generalize (isUsernameAvailable env d1 (data.get "uid") w1).2 = w2 at hdb2 ⊢
    cases h2 : (isUsernameAvailable env d1 (data.get "uid") w).1 with
    | error e2 =>
      rw [h2] at h
      cases (Option.some.inj h)
      rfl
    | ok d2 =>
      rw [h2] at h
      replace h : firstError [(isAboutMeValid env callerUid data w).1,
        (isSignatureValid env callerUid data w).1,
        isFullnameValid env data, isBirthdayValid env data,
        (isGroupTitleValid env data).map (fun _ => ())] = some e := h
      simp only []
      have f2 := isUsernameAvailable_frame env d1 d2 (data.get "uid") w h2
      have g : ∀ k : String, k ≠ "email" → k ≠ "username" → d2.get k = data.get k :=
        fun k hk1 hk2 => (f2 k hk2).trans (f1 k hk1)
      rw [isAboutMeValid_congr env callerUid d2 data (g _ (by decide) (by decide))
          (g _ (by decide) (by decide)),
        isSignatureValid_congr env callerUid d2 data (g _ (by decide) (by decide))
          (g _ (by decide) (by decide)),
        isFullnameValid_congr env d2 data (g _ (by decide) (by decide)),
        isBirthdayValid_congr env d2 data (g _ (by decide) (by decide))]
      have c7 := isGroupTitleValid_congr env d2 data (g _ (by decide) (by decide))
      rw [← c7] at h
      rw [Eff.ReadOnly.bind_step (isAboutMeValid_readOnly _ _ _) w w2 hdb2]
      have hdb3 : (isAboutMeValid env callerUid data w2).2.db = w.db :=
        ((isAboutMeValid_readOnly _ _ _).db_eq w2).trans hdb2
      generalize (isAboutMeValid env callerUid data w2).2 = w3 at hdb3 ⊢
      cases h3 : (isAboutMeValid env callerUid data w).1 with
      | error e3 =>
        rw [h3] at h
        cases (Option.some.inj h)
        rfl
      | ok u3 =>
        rw [h3] at h
        replace h : firstError [(isSignatureValid env callerUid data w).1,
          isFullnameValid env data, isBirthdayValid env data,
          (isGroupTitleValid env d2).map (fun _ => ())] = some e := h
        simp only []
        rw [Eff.ReadOnly.bind_step (isSignatureValid_readOnly _ _ _) w w3 hdb3]
        have hdb4 : (isSignatureValid env callerUid data w3).2.db = w.db :=
          ((isSignatureValid_readOnly _ _ _).db_eq w3).trans hdb3
        generalize (isSignatureValid env callerUid data w3).2 = w4 at hdb4 ⊢
        cases h4 : (isSignatureValid env callerUid data w).1 with
        | error e4 =>
          rw [h4] at h
          cases (Option.some.inj h)
          rfl
        | ok u4 =>
          rw [h4] at h
          replace h : firstError [isFullnameValid env data, isBirthdayValid env data,
            (isGroupTitleValid env d2).map (fun _ => ())] = some e := h
          simp only []
          rw [Eff.bind_run]
          cases h5 : isFullnameValid env data with
          | error e5 =>
            rw [h5] at h
            cases (Option.some.inj h)
            rfl
          | ok u5 =>
            rw [h5] at h
            replace h : firstError [isBirthdayValid env data,
              (isGroupTitleValid env d2).map (fun _ => ())] = some e := h
            show ((Eff.ofExcept (isBirthdayValid env data) >>= _) w4).1 = _
            rw [Eff.bind_run]
            cases h6 : isBirthdayValid env data with
            | error e6 =>
              rw [h6] at h
              cases (Option.some.inj h)
              rfl
            | ok u6 =>
              rw [h6] at h
              replace h : firstError [(isGroupTitleValid env d2).map (fun _ => ())] =
                some e := h
              show ((Eff.ofExcept (isGroupTitleValid env d2) >>= _) w4).1 = _
              rw [Eff.bind_run]
              cases h7 : isGroupTitleValid env d2 with
              | error e7 =>
                rw [h7] at h
                cases (Option.some.inj h)
                rfl
              | ok d3 =>
                rw [h7] at h
                cases h

theorem failureCount_le_length (l : List (Except JSError Unit)) :
    failureCount l ≤ l.length := by
  induction l with
  | nil => exact Nat.le_refl _
  | cons o rest ih =>
    cases o with
    | error e => simp only [failureCount, List.length_cons]; omega
    | ok u => simp only [failureCount, List.length_cons]; omega

theorem firstError_none (l : List (Except JSError Unit)) (h : firstError l = none) :
    failureCount l = 0 := by
  induction l with
  | nil => rfl
  | cons o rest ih =>
    cases o with
    | error e => simp [firstError] at h
    | ok u => exact ih h

theorem firstError_append (l l' : List (Except JSError Unit)) (e : JSError)
    (h : firstError l = some e) : firstError (l ++ l') = some e := by
  induction l with
  | nil => simp [firstError] at h
  | cons o rest ih =>
    cases o with
    | error e' => exact h
    | ok u => exact ih h

theorem failureCount_append (l l' : List (Except JSError Unit)) :
    failureCount (l ++ l') = failureCount l + failureCount l' := by
  induction l with
  | nil => simp [failureCount]
  | cons o rest ih =>
    cases o with
    | error e =>
      show failureCount (rest ++ l') + 1 = failureCount rest + 1 + failureCount l'
      rw [ih]
      omega
    | ok u => exact ih


/-! ## `validateData` and `updateProfile`: the claims -/

/-- C3: `validateData` runs email, username, about-me, signature, fullname,
birthday, group title and custom fields in this order and surfaces the first
failure only: whenever two or more of the eight validators fail on the
submitted data, `validateData` fails with the error of the earliest of them. -/
theorem validateData_surfaces_earliest_error (env : Env) (callerUid : JSVal)
    (data : JSObject) (w : World)
    (h : 2 ≤ failureCount (validatorVerdicts env callerUid data w)) :
    ∃ e, firstError (validatorVerdicts env callerUid data w) = some e ∧
      (validateData env callerUid data w).1 = .error e := by
  have hsplit : validatorVerdicts env callerUid data w =
      (validatorVerdicts env callerUid data w).take 7 ++
        (validatorVerdicts env callerUid data w).drop 7 :=
    (List.take_append_drop 7 _).symm
  have hlast : failureCount ((validatorVerdicts env callerUid data w).drop 7) ≤ 1 :=
    failureCount_le_length _
  have hcount := failureCount_append ((validatorVerdicts env callerUid data w).take 7)
    ((validatorVerdicts env callerUid data w).drop 7)
  rw [← hsplit] at hcount
  cases hf : firstError ((validatorVerdicts env callerUid data w).take 7) with
  | none =>
    have := firstError_none _ hf
    omega
  | some e =>
    refine ⟨e, ?_, validateData_first_failure env callerUid data w e hf⟩
    rw [hsplit]
    exact firstError_append _ _ e hf

/-- C3 on the example of the claim: an invalid email together with a URL-like
fullname yields the email error. -/
theorem validateData_surfaces_earliest_error_witness :
    (validateData demoEnv (.num (.int 2))
      [("uid", .num (.int 2)), ("email", .str "bad"), ("fullname", .str "https://x.y")]
      demoWorld).1 = .error (.error (.text "[[error:invalid-email]]")) :=
  match validateData_surfaces_earliest_error demoEnv (.num (.int 2))
      [("uid", .num (.int 2)), ("email", .str "bad"), ("fullname", .str "https://x.y")]
      demoWorld (by decide) with
  | ⟨_, he, hv⟩ => hv.trans (congrArg Except.error (Option.some.inj (he.symm.trans rfl)))

/-- C1: when the target id is present, the filter hook returns and
`validateData` fails on the data it returned, `updateProfile` fails with that
validator error, the store after the call is the store before it, and the
call has issued no write (no `setUserFields`, `setUserField`, `sortedSetAdd`
or `sortedSetRemove`). -/
theorem updateProfile_validation_failure (env : Env) (uid : JSVal) (data : JSObject)
    (extraFields : Option (List String)) (w : World) (result : JSObject × List String)
    (e : JSError)
    (huid : (data.get "uid").truthy = true)
    (hhook : env.filterUpdateProfile uid data
      (profileFields (w.db.getSortedSetRange "user-custom-fields") extraFields) = .ok result)
    (hval : (validateData env uid result.1 w).1 = .error e) :
    (User.updateProfile env uid data extraFields w).1 = .error e ∧
    (User.updateProfile env uid data extraFields w).2.db = w.db ∧
    (User.updateProfile env uid data extraFields w).2.trace.filter Event.isWrite =
      w.trace.filter Event.isWrite := by
  have hro := validateData_readOnly env uid result.1
  have hrun : User.updateProfile env uid data extraFields w =
      (.error e, (validateData env uid result.1
        { db := w.db, trace := w.trace ++ [.hook "filter:user.updateProfile"] }).2) := by
    unfold User.updateProfile
    rw [Eff.bind_of_ok (db.getSortedSetRange "user-custom-fields") _ w w
      (w.db.getSortedSetRange "user-custom-fields") rfl]
    simp only [huid, Bool.not_true, Bool.false_eq_true, if_false]
    rw [Eff.bind_of_ok (Eff.emit (.hook "filter:user.updateProfile")) _ w
      { db := w.db, trace := w.trace ++ [.hook "filter:user.updateProfile"] } () rfl]
    rw [hhook]
    rw [Eff.bind_of_ok (Eff.ofExcept (Except.ok result)) _ _ _ result rfl]
    apply Eff.bind_of_error
    have h1 := hro.result_eq
      { db := w.db, trace := w.trace ++ [.hook "filter:user.updateProfile"] } w rfl
    rw [hval] at h1
    exact Prod.ext h1 rfl
  rw [hrun]
  refine ⟨rfl, ?_, ?_⟩
  · exact hro.db_eq _
  · rw [hro.writes_eq]
    simp [Event.isWrite]

/-- C1 at the test suite's input: user 1 (reputation 0) submits `luckyNumber`
(threshold 7); the call fails with the reputation error and the store is the
one before the call. -/
theorem updateProfile_validation_failure_witness :
    (User.updateProfile demoEnv (.num (.int 1))
      [("uid", .num (.int 1)), ("luckyNumber", .num (.int 13))] none demoWorld).1 =
        .error (.error (tx.compile "error:not-enough-reputation-custom-field"
          ["7", "Lucky Number"])) ∧
    (User.updateProfile demoEnv (.num (.int 1))
      [("uid", .num (.int 1)), ("luckyNumber", .num (.int 13))] none demoWorld).2.db =
        demoWorld.db ∧
    (User.updateProfile demoEnv (.num (.int 1))
      [("uid", .num (.int 1)), ("luckyNumber", .num (.int 13))] none
        demoWorld).2.trace.filter Event.isWrite = demoWorld.trace.filter Event.isWrite :=
  updateProfile_validation_failure demoEnv (.num (.int 1))
    [("uid", .num (.int 1)), ("luckyNumber", .num (.int 13))] none demoWorld
    ([("uid", .num (.int 1)), ("luckyNumber", .num (.int 13))],
      profileFields (demoWorld.db.getSortedSetRange "user-custom-fields") none)
    _ rfl rfl rfl

/-- C2: when `data.uid` is missing or falsy, `updateProfile` fails with
`[[error:invalid-update-uid]]` and leaves the state as it was: the trace is
unchanged, so no hook was fired, no validator has acted and nothing was
written. -/
theorem updateProfile_invalid_uid (env : Env) (uid : JSVal) (data : JSObject)
    (extraFields : Option (List String)) (w : World)
    (huid : (data.get "uid").truthy = false) :
    User.updateProfile env uid data extraFields w =
      (.error (.error (.text "[[error:invalid-update-uid]]")), w) := by
  unfold User.updateProfile
  rw [Eff.bind_of_ok (db.getSortedSetRange "user-custom-fields") _ w w
      (w.db.getSortedSetRange "user-custom-fields") rfl]
  simp only [huid, Bool.not_false, if_true]
  rfl

/-- C2 on a request without `uid` and on a request whose `uid` is 0, both
carrying an invalid email. -/
theorem updateProfile_invalid_uid_witness :
    User.updateProfile demoEnv (.num (.int 1)) [("email", .str "bad")] none demoWorld =
      (.error (.error (.text "[[error:invalid-update-uid]]")), demoWorld) ∧
    User.updateProfile demoEnv (.num (.int 1))
      [("uid", .num (.int 0)), ("email", .str "bad")] none demoWorld =
      (.error (.error (.text "[[error:invalid-update-uid]]")), demoWorld) :=
  ⟨updateProfile_invalid_uid demoEnv (.num (.int 1)) [("email", .str "bad")] none demoWorld rfl,
   updateProfile_invalid_uid demoEnv (.num (.int 1))
     [("uid", .num (.int 0)), ("email", .str "bad")] none demoWorld rfl⟩

/-! ## The type gate of the input types and of a multiple select: the claims -/

/-- The type gate of an `input-number` definition. -/
theorem checkType_inputNumber (env : Env) (field : CustomField) (value : JSVal)
    (htype : field.type = "input-number") :
    checkType env field value =
      if env.isNumber value then .ok ()
      else .error (.error (tx.compile "error:custom-user-field-invalid-number"
        [field.name])) := by
  unfold checkType
  simp only [htype, throwFieldError]
  cases env.isNumber value <;> rfl

/-- The type gate of an `input-text` definition on a string. -/
theorem checkType_inputText (env : Env) (field : CustomField) (s : String)
    (htype : field.type = "input-text") :
    checkType env field (.str s) =
      if s ≠ "" ∧ env.isURL s = true then
        .error (.error (tx.compile "error:custom-user-field-invalid-text" [field.name]))
      else .ok () := by
  unfold checkType
  simp only [htype, throwFieldError, JSVal.truthy, validatorIsURL]
  by_cases hs : s = ""
  · simp [hs]
  · cases hu : env.isURL s <;> simp [hs, hu]

/-- The type gate of an `input-link` definition. -/
theorem checkType_inputLink (env : Env) (field : CustomField) (value : JSVal)
    (htype : field.type = "input-link") :
    checkType env field value =
      if value.truthy = true ∧ env.isURL value.toStr = false then
        .error (.error (tx.compile "error:custom-user-field-invalid-link" [field.name]))
      else .ok () := by
  unfold checkType
  simp only [htype, throwFieldError]
  cases value.truthy <;> cases env.isURL value.toStr <;> simp

/-- The type gate of a `select-multi` definition on a truthy value whose text
does not parse. -/
theorem checkType_selectMulti_unparsable (env : Env) (field : CustomField) (text : String)
    (value : JSVal) (htype : field.type = "select-multi")
    (hopts : field.selectOptions = some text) (htruthy : value.truthy = true)
    (hparse : env.jsonParse value.toStr = none) :
    checkType env field value = .error .syntaxError := by
  unfold checkType
  simp only [htype, hopts, htruthy, if_true, hparse]

/-- C11, as stated, fails: on the multiple select `Languages` the submitted
text `C, JS` does not parse as JSON and validation fails, with the
`SyntaxError` of `JSON.parse`. -/
theorem validateField_selectMulti_unparsable_fails :
    demoEnv.jsonParse "C, JS" = none ∧
    validateField demoEnv languages (.str "C, JS") (.int 10) = .error .syntaxError := by
  constructor <;> rfl

/-- C11, amended: for a definition of type `select-multi` with an options
text, an absent value is not validated and the empty string is treated as the
empty array, so both pass; a non-empty value whose text fails to parse as
JSON is not treated as the empty array: its validation fails. -/
theorem validateField_selectMulti_empty_or_unparsable (env : Env) (field : CustomField)
    (text : String) (reputation : JSNum)
    (htype : field.type = "select-multi") (hopts : field.selectOptions = some text)
    (hempty : env.jsonParse "[]" = some (.arr []))
    (hrep : checkReputation env field reputation = .ok ()) :
    validateField env field .undefined reputation = .ok () ∧
    validateField env field (.str "") reputation = .ok () ∧
    (∀ value : JSVal, value.truthy = true → env.jsonParse value.toStr = none →
      checkType env field value ≠ .ok () ∧
      validateField env field value reputation ≠ .ok ()) := by
  refine ⟨rfl, ?_, ?_⟩
  · rw [validateField_eq_checkType env field (.str "") reputation rfl hrep rfl,
      checkType_selectMulti env field text (.str "") [] htype hopts (by simpa [JSVal.truthy] using hempty)]
    rfl
  · intro value htruthy hparse
    have hc := checkType_selectMulti_unparsable env field text value htype hopts htruthy hparse
    have hdef : value.isUndefined = false := by
      cases value <;> simp [JSVal.isUndefined, JSVal.truthy] at htruthy ⊢
    refine ⟨by rw [hc]; simp, ?_⟩
    rcases checkLength_cases field value with hlen | ⟨hlen, _⟩
    · rw [validateField_eq_checkType env field value reputation hdef hrep hlen, hc]
      simp
    · rw [validateField_of_length_error env field value reputation _ hdef hrep hlen]
      simp

/-- C11, amended, on the multiple select `Languages`: the empty string
passes and the text `C, JS` fails. -/
theorem validateField_selectMulti_empty_or_unparsable_witness :
    validateField demoEnv languages (.str "") (.int 10) = .ok () ∧
    validateField demoEnv languages (.str "C, JS") (.int 10) ≠ .ok () :=
  ⟨(validateField_selectMulti_empty_or_unparsable demoEnv languages "C\nJS\nPython" (.int 10)
      rfl rfl rfl (by decide)).2.1,
   ((validateField_selectMulti_empty_or_unparsable demoEnv languages "C\nJS\nPython" (.int 10)
      rfl rfl rfl (by decide)).2.2 (.str "C, JS") rfl rfl).2⟩

/-- C12: for a definition of type `input-number` and a defined value that
passes the reputation and length gates, `validateField` fails with the
custom-user-field-invalid-number error naming the field exactly when
`utils.isNumber(value)` is false, and succeeds when it is true; no value is
exempt, the empty string included. -/
theorem validateField_inputNumber (env : Env) (field : CustomField) (value : JSVal)
    (reputation : JSNum)
    (htype : field.type = "input-number") (hdef : value.isUndefined = false)
    (hrep : checkReputation env field reputation = .ok ())
    (hlen : checkLength field value = .ok ()) :
    (validateField env field value reputation =
        .error (.error (tx.compile "error:custom-user-field-invalid-number" [field.name]))
      ↔ env.isNumber value = false) ∧
    (validateField env field value reputation = .ok () ↔ env.isNumber value = true) := by
  rw [validateField_eq_checkType env field value reputation hdef hrep hlen,
    checkType_inputNumber env field value htype]
  cases env.isNumber value <;> simp

/-- C12 on the definition `Lucky Number`: the number 13 passes, and the empty
string and the text `not-a-number` fail with the number error. -/
theorem validateField_inputNumber_witness :
    validateField demoEnv luckyNumber (.num (.int 13)) (.int 10) = .ok () ∧
    validateField demoEnv luckyNumber (.str "") (.int 10) =
      .error (.error (tx.compile "error:custom-user-field-invalid-number"
        ["Lucky Number"])) ∧
    validateField demoEnv luckyNumber (.str "not-a-number") (.int 10) =
      .error (.error (tx.compile "error:custom-user-field-invalid-number"
        ["Lucky Number"])) :=
  ⟨(validateField_inputNumber demoEnv luckyNumber (.num (.int 13)) (.int 10) rfl rfl
      (by decide) rfl).2.2 rfl,
   (validateField_inputNumber demoEnv luckyNumber (.str "") (.int 10) rfl rfl
      (by decide) rfl).1.2 rfl,
   (validateField_inputNumber demoEnv luckyNumber (.str "not-a-number") (.int 10) rfl rfl
      (by decide) (by decide)).1.2 (by decide)⟩

/-- C13: for a definition of type `input-text` and a string of length at most
255 that passes the reputation gate, `validateField` fails with the
custom-user-field-invalid-text error naming the field if and only if the
string is not empty and `validator.isURL` accepts it; the empty string and
every string that is not a URL pass. -/
theorem validateField_inputText (env : Env) (field : CustomField) (s : String)
    (reputation : JSNum)
    (htype : field.type = "input-text") (hlen : jsLength s ≤ 255)
    (hrep : checkReputation env field reputation = .ok ()) :
    (validateField env field (.str s) reputation =
        .error (.error (tx.compile "error:custom-user-field-invalid-text" [field.name]))
      ↔ (s ≠ "" ∧ env.isURL s = true)) ∧
    (validateField env field (.str s) reputation = .ok ()
      ↔ (s = "" ∨ env.isURL s = false)) := by
  have hl : checkLength field (.str s) = .ok () := by
    have : ¬ 255 < jsLength s := by omega
    simp [checkLength, this]
  rw [validateField_eq_checkType env field (.str s) reputation rfl hrep hl,
    checkType_inputText env field s htype]
  by_cases hs : s = ""
  · simp [hs]
  · cases hu : env.isURL s <;> simp [hs, hu]

/-- C13 on the definition `Bio`: a URL fails with the text error, the empty
string and the text `Toronto` pass. -/
theorem validateField_inputText_witness :
    validateField demoEnv bio (.str "https://spam.com") (.int 10) =
      .error (.error (tx.compile "error:custom-user-field-invalid-text" ["Bio"])) ∧
    validateField demoEnv bio (.str "") (.int 10) = .ok () ∧
    validateField demoEnv bio (.str "Toronto") (.int 10) = .ok () :=
  ⟨(validateField_inputText demoEnv bio "https://spam.com" (.int 10) rfl (by decide)
      (by decide)).1.2 ⟨by decide, by decide⟩,
   (validateField_inputText demoEnv bio "" (.int 10) rfl (by decide) (by decide)).2.2
      (Or.inl rfl),
   (validateField_inputText demoEnv bio "Toronto" (.int 10) rfl (by decide) (by decide)).2.2
      (Or.inr (by decide))⟩

/-- C14: for a definition of type `input-link` and a defined value that
passes the reputation and length gates, `validateField` fails with the
custom-user-field-invalid-link error naming the field if and only if the value
is not empty (it is truthy; for a string: it is not the empty string) and
`validator.isURL` rejects its string form; the empty string passes. -/
theorem validateField_inputLink (env : Env) (field : CustomField) (value : JSVal)
    (reputation : JSNum)
    (htype : field.type = "input-link") (hdef : value.isUndefined = false)
    (hrep : checkReputation env field reputation = .ok ())
    (hlen : checkLength field value = .ok ()) :
    (validateField env field value reputation =
        .error (.error (tx.compile "error:custom-user-field-invalid-link" [field.name]))
      ↔ (value.truthy = true ∧ env.isURL value.toStr = false)) ∧
    (validateField env field value reputation = .ok ()
      ↔ (value.truthy = false ∨ env.isURL value.toStr = true)) ∧
    (∀ s, value = .str s → (value.truthy = true ↔ s ≠ "")) ∧
    validateField env field (.str "") reputation = .ok () := by
  have hempty : validateField env field (.str "") reputation = .ok () := by
    rw [validateField_eq_checkType env field (.str "") reputation rfl hrep rfl,
      checkType_inputLink env field (.str "") htype]
    simp [JSVal.truthy]
  rw [validateField_eq_checkType env field value reputation hdef hrep hlen,
    checkType_inputLink env field value htype]
  refine ⟨?_, ?_, ?_, hempty⟩
  · cases value.truthy <;> cases env.isURL value.toStr <;> simp
  · cases value.truthy <;> cases env.isURL value.toStr <;> simp
  · intro s hs
    subst hs
    simp [JSVal.truthy]

/-- C14 on a link definition `Website`: the text `not-a-url` fails with the
link error, the link `https://nodebb.org` and the empty string pass. -/
theorem validateField_inputLink_witness :
    validateField demoEnv website (.str "not-a-url") (.int 10) =
      .error (.error (tx.compile "error:custom-user-field-invalid-link" ["Website"])) ∧
    validateField demoEnv website (.str "https://nodebb.org") (.int 10) = .ok () ∧
    validateField demoEnv website (.str "") (.int 10) = .ok () :=
  ⟨(validateField_inputLink demoEnv website (.str "not-a-url") (.int 10) rfl rfl
      (by decide) (by decide)).1.2 ⟨rfl, by decide⟩,
   (validateField_inputLink demoEnv website (.str "https://nodebb.org") (.int 10) rfl rfl
      (by decide) (by decide)).2.1.2 (Or.inr (by decide)),
   (validateField_inputLink demoEnv website (.str "") (.int 10) rfl rfl
      (by decide) (by decide)).2.2.2⟩

/-- C15, the code at the failing inputs: on the multiple select `Languages`
the text `not json` surfaces the `SyntaxError` of `JSON.parse`, and on the
text definition `Bio` the number 13 surfaces the `TypeError` of
`validator.isURL`; neither is a coded validation error. -/
theorem validateField_surfaces_raw_exception :
    validateField demoEnv languages (.str "not json") (.int 10) = .error .syntaxError ∧
    validateField demoEnv bio (.num (.int 13)) (.int 10) = .error .typeError ∧
    (∀ msg : Message, JSError.syntaxError ≠ .error msg ∧ JSError.typeError ≠ .error msg) := by
  refine ⟨rfl, rfl, ?_⟩
  intro msg
  constructor <;> intro h <;> cases h

/-! ## Username availability: the claims -/

theorem strictEqStr_orNull (v : JSVal) (s : String) :
    (if v.isUndefined then JSVal.null else v).strictEqStr s = v.strictEqStr s := by
  cases v <;> rfl

/-- The stored name and slug as `usernameChecks` reads them. -/
theorem getUserFields_name_slug (uid : JSVal) (w : World) :
    User.getUserFields uid ["username", "userslug"] w =
      (.ok [("username",
          if ((w.db.getObject ("user:" ++ uid.toStr)).get "username").isUndefined then .null
          else (w.db.getObject ("user:" ++ uid.toStr)).get "username"),
        ("userslug",
          if ((w.db.getObject ("user:" ++ uid.toStr)).get "userslug").isUndefined then .null
          else (w.db.getObject ("user:" ++ uid.toStr)).get "userslug")], w) := rfl

/-- The body of `usernameChecks` below the read of the stored name and slug,
with the two comparisons against them as `b1` and `b2`. -/
theorem usernameChecks_body (env : Env) (username : String) (w : World) (b1 b2 : Bool) :
    (if b1 = true then (Pure.pure () : Eff Unit)
      else if (jsLength username : Int) < env.config.minimumUsernameLength then
        Eff.throw (.error (.text "[[error:username-too-short]]"))
      else if (jsLength username : Int) > env.config.maximumUsernameLength then
        Eff.throw (.error (.text "[[error:username-too-long]]"))
      else if (!env.isUserNameValid username || env.slugify username == "") = true then
        Eff.throw (.error (.text "[[error:invalid-username]]"))
      else if b2 = true then Pure.pure ()
      else do
        let taken ← User.existsBySlug (env.slugify username)
        if taken then Eff.throw (.error (.text "[[error:username-taken]]"))
        else do
          Eff.emit (.hook "filter:username.check")
          let veto ← Eff.ofExcept (env.filterUsernameCheck username)
          match veto with
          | some e => Eff.throw e
          | none => Pure.pure ()) w =
      if b1 = true then (.ok (), w)
      else if (jsLength username : Int) < env.config.minimumUsernameLength then
        (.error (.error (.text "[[error:username-too-short]]")), w)
      else if (jsLength username : Int) > env.config.maximumUsernameLength then
        (.error (.error (.text "[[error:username-too-long]]")), w)
      else if (!env.isUserNameValid username || env.slugify username == "") = true then
        (.error (.error (.text "[[error:invalid-username]]")), w)
      else if b2 = true then (.ok (), w)
      else if w.db.isSortedSetMember "userslug:uid" (env.slugify username) = true then
        (.error (.error (.text "[[error:username-taken]]")), w)
      else
        match env.filterUsernameCheck username with
        | .error e =>
          (.error e, { db := w.db, trace := w.trace ++ [.hook "filter:username.check"] })
        | .ok (some e) =>
          (.error e, { db := w.db, trace := w.trace ++ [.hook "filter:username.check"] })
        | .ok none =>
          (.ok (), { db := w.db, trace := w.trace ++ [.hook "filter:username.check"] }) := by
  by_cases c1 : b1 = true
  · simp only [c1, if_true]; rfl
  · simp only [c1, Bool.false_eq_true, if_false]
    by_cases c2 : (jsLength username : Int) < env.config.minimumUsernameLength
    · simp only [c2, if_true]; rfl
    · simp only [c2, Bool.false_eq_true, if_false]
      by_cases c3 : (jsLength username : Int) > env.config.maximumUsernameLength
      · simp only [c3, if_true]; rfl
      · simp only [c3, Bool.false_eq_true, if_false]
        by_cases c4 : (!env.isUserNameValid username || env.slugify username == "") = true
        · simp only [c4, if_true]; rfl
        · simp only [c4, Bool.false_eq_true, if_false]
          by_cases c5 : b2 = true
          · simp only [c5, if_true]; rfl
          · simp only [c5, Bool.false_eq_true, if_false]
            rw [Eff.bind_of_ok (User.existsBySlug (env.slugify username)) _ w w
              (w.db.isSortedSetMember "userslug:uid" (env.slugify username)) rfl]
            by_cases c6 : w.db.isSortedSetMember "userslug:uid" (env.slugify username) = true
            · simp only [c6, if_true]; rfl
            · simp only [c6, Bool.false_eq_true, if_false]
              rw [Eff.bind_of_ok (Eff.emit (.hook "filter:username.check")) _ w
                { db := w.db, trace := w.trace ++ [.hook "filter:username.check"] } () rfl]
              cases hh : env.filterUsernameCheck username with
              | error e => rfl
              | ok veto => cases veto <;> rfl

/-- The function `usernameChecks` as a decision list over the state. -/
theorem usernameChecks_run (env : Env) (username : String) (uid : JSVal) (w : World) :
    usernameChecks env username uid w =
      if (uid.truthy &&
          ((w.db.getObject ("user:" ++ uid.toStr)).get "username").strictEqStr username) = true
      then (.ok (), w)
      else if (jsLength username : Int) < env.config.minimumUsernameLength then
        (.error (.error (.text "[[error:username-too-short]]")), w)
      else if (jsLength username : Int) > env.config.maximumUsernameLength then
        (.error (.error (.text "[[error:username-too-long]]")), w)
      else if (!env.isUserNameValid username || env.slugify username == "") = true then
        (.error (.error (.text "[[error:invalid-username]]")), w)
      else if (uid.truthy &&
          ((w.db.getObject ("user:" ++ uid.toStr)).get "userslug").strictEqStr
            (env.slugify username)) = true
      then (.ok (), w)
      else if w.db.isSortedSetMember "userslug:uid" (env.slugify username) = true then
        (.error (.error (.text "[[error:username-taken]]")), w)
      else
        match env.filterUsernameCheck username with
        | .error e =>
          (.error e, { db := w.db, trace := w.trace ++ [.hook "filter:username.check"] })
        | .ok (some e) =>
          (.error e, { db := w.db, trace := w.trace ++ [.hook "filter:username.check"] })
        | .ok none =>
          (.ok (), { db := w.db, trace := w.trace ++ [.hook "filter:username.check"] }) := by
  rw [← usernameChecks_body env username w]
  unfold usernameChecks
  by_cases hu : uid.truthy = true
  · simp only [hu, if_true]
    rw [Eff.bind_of_ok (User.getUserFields uid ["username", "userslug"]) _ w w _
      (getUserFields_name_slug uid w)]
    simp [JSObject.get, strictEqStr_orNull]
  · have hu2 : uid.truthy = false := by simpa using hu
    simp only [hu2, Bool.false_eq_true, if_false]
    rw [Eff.bind_of_ok (Pure.pure ([] : JSObject) : Eff JSObject) _ w w [] rfl]
    simp

/-- The function `isUsernameAvailable` on a non-empty string: the trim, then
`usernameChecks`, then `data` with the trimmed name. -/
theorem isUsernameAvailable_run (env : Env) (data : JSObject) (uid : JSVal) (w : World)
    (raw : String) (hname : data.get "username" = .str raw) (hne : raw ≠ "") :
    isUsernameAvailable env data uid w =
      match usernameChecks env (jsTrim raw) uid w with
      | (.ok _, w') => (.ok (data.set "username" (.str (jsTrim raw))), w')
      | (.error e, w') => (.error e, w') := by
  unfold isUsernameAvailable
  have ht : (!(JSVal.str raw).truthy) = false := by
    simp [JSVal.truthy, hne]
  simp only [hname, ht, Bool.false_eq_true, if_false]
  rw [Eff.bind_run]
  rcases usernameChecks env (jsTrim raw) uid w with ⟨r, w'⟩
  cases r <;> rfl

theorem jsTrim_ne_empty (raw : String) (h : jsTrim raw ≠ "") : raw ≠ "" := by
  intro h0
  subst h0
  exact h rfl

/-- C16: when a target uid is given and the trimmed submitted username equals
the target user's stored username, `isUsernameAvailable` succeeds at once with
the trimmed name in `data`, whatever the configured lengths, the validity
predicate, the slug index and the veto hook say, and it leaves the state as it
was (the veto hook is not fired). -/
theorem isUsernameAvailable_unchanged (env : Env) (data : JSObject) (uid : JSVal) (w : World)
    (raw : String) (hname : data.get "username" = .str raw) (hne : raw ≠ "")
    (huid : uid.truthy = true)
    (hsame : (w.db.getObject ("user:" ++ uid.toStr)).get "username" = .str (jsTrim raw)) :
    isUsernameAvailable env data uid w =
      (.ok (data.set "username" (.str (jsTrim raw))), w) := by
  rw [isUsernameAvailable_run env data uid w raw hname hne, usernameChecks_run]
  have hc : (uid.truthy && ((w.db.getObject ("user:" ++ uid.toStr)).get
      "username").strictEqStr (jsTrim raw)) = true := by
    simp [huid, hsame, JSVal.strictEqStr]
  simp only [hc, if_true]

/-- C16 on user 2 of the sample store, whose name has 11 units, under a
configuration that demands at least 20 units and a hook that vetoes every
name: the unchanged name, submitted with blanks around it, is accepted. -/
theorem isUsernameAvailable_unchanged_witness :
    (jsLength "highRepUser" : Int) < strictEnv.config.minimumUsernameLength ∧
    isUsernameAvailable strictEnv
      [("uid", .num (.int 2)), ("username", .str " highRepUser ")] (.num (.int 2)) demoWorld =
      (.ok [("uid", .num (.int 2)), ("username", .str "highRepUser")], demoWorld) :=
  ⟨by decide,
   isUsernameAvailable_unchanged strictEnv
     [("uid", .num (.int 2)), ("username", .str " highRepUser ")] (.num (.int 2)) demoWorld
     " highRepUser " rfl (by decide) rfl rfl⟩

/-- C17, as stated, fails: for user 2 of the sample store (name
`highRepUser`, slug `highrepuser`) the submitted name `highrepuser` differs
from the stored name, its slug is a member of the slug index, and the veto
hook of this environment rejects every name; yet `isUsernameAvailable`
succeeds, without firing the hook. -/
theorem isUsernameAvailable_own_slug_succeeds :
    (demoWorld.db.getObject "user:2").get "username" ≠ .str "highrepuser" ∧
    demoWorld.db.isSortedSetMember "userslug:uid" (strictEnv.slugify "highrepuser") = true ∧
    strictEnv.filterUsernameCheck "highrepuser" =
      .ok (some (.error (.text "[[error:vetoed]]"))) ∧
    isUsernameAvailable { strictEnv with config := demoConfig }
      [("uid", .num (.int 2)), ("username", .str "highrepuser")] (.num (.int 2)) demoWorld =
      (.ok [("uid", .num (.int 2)), ("username", .str "highrepuser")], demoWorld) := by
  refine ⟨?_, rfl, rfl, rfl⟩
  intro h
  exact absurd (JSVal.str.inj h) (by decide)

/-- C17, amended: for a submitted name whose trim is not empty and differs
from the target user's stored name (or without a target uid),
`isUsernameAvailable` applies its checks in this order: too short, too long,
invalid name or empty slug; then it succeeds at once when a target uid is
given and the slug is the target user's stored slug, without the collision
check and without the veto hook; otherwise it fails with username-taken when
the slug is in the slug index, then with the error the veto hook raised or
returned, and it succeeds when the hook returned none. -/
theorem isUsernameAvailable_checks_in_order (env : Env) (data : JSObject) (uid : JSVal)
    (w : World) (raw name slug : String) (own : Bool)
    (hname : data.get "username" = .str raw) (htrim : name = jsTrim raw) (hne : name ≠ "")
    (hslug : slug = env.slugify name)
    (hown : own = (uid.truthy &&
      ((w.db.getObject ("user:" ++ uid.toStr)).get "userslug").strictEqStr slug))
    (hdiff : (uid.truthy &&
      ((w.db.getObject ("user:" ++ uid.toStr)).get "username").strictEqStr name) = false) :
    ((jsLength name : Int) < env.config.minimumUsernameLength →
      (isUsernameAvailable env data uid w).1 =
        .error (.error (.text "[[error:username-too-short]]"))) ∧
    (¬ (jsLength name : Int) < env.config.minimumUsernameLength →
      (jsLength name : Int) > env.config.maximumUsernameLength →
      (isUsernameAvailable env data uid w).1 =
        .error (.error (.text "[[error:username-too-long]]"))) ∧
    (¬ (jsLength name : Int) < env.config.minimumUsernameLength →
      ¬ (jsLength name : Int) > env.config.maximumUsernameLength →
      (env.isUserNameValid name = false ∨ slug = "") →
      (isUsernameAvailable env data uid w).1 =
        .error (.error (.text "[[error:invalid-username]]"))) ∧
    (¬ (jsLength name : Int) < env.config.minimumUsernameLength →
      ¬ (jsLength name : Int) > env.config.maximumUsernameLength →
      env.isUserNameValid name = true → slug ≠ "" →
      (own = true →
        isUsernameAvailable env data uid w = (.ok (data.set "username" (.str name)), w)) ∧
      (own = false → w.db.isSortedSetMember "userslug:uid" slug = true →
        (isUsernameAvailable env data uid w).1 =
          .error (.error (.text "[[error:username-taken]]"))) ∧
      (own = false → w.db.isSortedSetMember "userslug:uid" slug = false →
        ∀ e, (env.filterUsernameCheck name = .error e ∨
            env.filterUsernameCheck name = .ok (some e)) →
          (isUsernameAvailable env data uid w).1 = .error e) ∧
      (own = false → w.db.isSortedSetMember "userslug:uid" slug = false →
        env.filterUsernameCheck name = .ok none →
        (isUsernameAvailable env data uid w).1 = .ok (data.set "username" (.str name)))) := by
  subst htrim hslug hown
  rw [isUsernameAvailable_run env data uid w raw hname (jsTrim_ne_empty raw hne),
    usernameChecks_run]
  simp only [hdiff, Bool.false_eq_true, if_false]
  refine ⟨fun h1 => by simp only [h1, if_true], fun h1 h2 => ?_, fun h1 h2 h3 => ?_,
    fun h1 h2 h3 h4 => ?_⟩
  · simp only [h1, if_false, h2, if_true]
  · have c : (!env.isUserNameValid (jsTrim raw) || env.slugify (jsTrim raw) == "") = true := by
      rcases h3 with h | h <;> simp [h]
    simp only [h1, h2, if_false, c, if_true]
  · have c : (!env.isUserNameValid (jsTrim raw) || env.slugify (jsTrim raw) == "") = false := by
      simp [h3, h4]
    simp only [h1, h2, if_false, c, Bool.false_eq_true]
    refine ⟨fun h5 => by simp only [h5, if_true], fun h5 h6 => ?_, fun h5 h6 e he => ?_,
      fun h5 h6 he => ?_⟩
    · simp only [h5, h6, Bool.false_eq_true, if_false, if_true]
    · simp only [h5, h6, Bool.false_eq_true, if_false]
      rcases he with he | he <;> rw [he]
    · simp only [h5, h6, Bool.false_eq_true, if_false]
      rw [he]

/-- C17, amended, on the sample store: for user 2 the name `x` is too short,
the name `lowrepuser` (submitted with a blank before it) is taken, and the
name `highrepuser`, whose slug is the user's own, is accepted at once. -/
theorem isUsernameAvailable_checks_in_order_witness :
    (isUsernameAvailable demoEnv [("uid", .num (.int 2)), ("username", .str "x")]
      (.num (.int 2)) demoWorld).1 = .error (.error (.text "[[error:username-too-short]]")) ∧
    (isUsernameAvailable demoEnv [("uid", .num (.int 2)), ("username", .str " lowrepuser")]
      (.num (.int 2)) demoWorld).1 = .error (.error (.text "[[error:username-taken]]")) ∧
    isUsernameAvailable demoEnv [("uid", .num (.int 2)), ("username", .str "highrepuser")]
      (.num (.int 2)) demoWorld =
      (.ok [("uid", .num (.int 2)), ("username", .str "highrepuser")], demoWorld) :=
  ⟨(isUsernameAvailable_checks_in_order demoEnv
      [("uid", .num (.int 2)), ("username", .str "x")] (.num (.int 2)) demoWorld "x" "x" "x"
      false rfl rfl (by decide) rfl rfl rfl).1 (by decide),
   ((isUsernameAvailable_checks_in_order demoEnv
      [("uid", .num (.int 2)), ("username", .str " lowrepuser")] (.num (.int 2)) demoWorld
      " lowrepuser" "lowrepuser" "lowrepuser" false rfl rfl (by decide) rfl rfl rfl).2.2.2
      (by decide) (by decide) rfl (by decide)).2.1 rfl rfl,
   ((isUsernameAvailable_checks_in_order demoEnv
      [("uid", .num (.int 2)), ("username", .str "highrepuser")] (.num (.int 2)) demoWorld
      "highrepuser" "highrepuser" "highrepuser" true rfl rfl (by decide) rfl rfl rfl).2.2.2
      (by decide) (by decide) rfl (by decide)).1 rfl⟩

/-! ## The store: lookups after writes -/

theorem find_putObject (l : List (String × JSObject)) (key : String) (o : JSObject) :
    (putObject l key o).find? (fun p => p.1 == key) = some (key, o) := by
  induction l with
  | nil => simp [putObject]
  | cons p rest ih =>
    obtain ⟨k, o'⟩ := p
    by_cases h : k = key
    · simp [putObject, h]
    · simp [putObject, h, List.find?, ih]

theorem DB.getObject_setObjectField (store : DB) (key field : String) (value : JSVal) :
    (store.setObjectField key field value).getObject key =
      (store.getObject key).set field value := by
  simp [DB.setObjectField, DB.getObject, find_putObject]

theorem find_putSortedSet (l : List (String × List (Int × String))) (key : String)
    (es : List (Int × String)) :
    (putSortedSet l key es).find? (fun p => p.1 == key) = some (key, es) := by
  induction l with
  | nil => simp [putSortedSet]
  | cons p rest ih =>
    obtain ⟨k, es'⟩ := p
    by_cases h : k = key
    · simp [putSortedSet, h]
    · simp [putSortedSet, h, List.find?, ih]

theorem any_insertEntry (score : Int) (member m : String) (l : List (Int × String)) :
    (insertEntry score member l).any (fun e => e.2 == m) =
      (member == m || l.any (fun e => e.2 == m)) := by
  induction l with
  | nil => simp [insertEntry]
  | cons p rest ih =>
    obtain ⟨s, m0⟩ := p
    simp only [insertEntry]
    split
    · simp
    · simp only [List.any_cons, ih]
      cases (m0 == m) <;> cases (member == m) <;> simp

theorem any_filter_ne (member m : String) (l : List (Int × String)) (h : m ≠ member) :
    (l.filter (fun e => e.2 != member)).any (fun e => e.2 == m) =
      l.any (fun e => e.2 == m) := by
  induction l with
  | nil => rfl
  | cons p rest ih =>
    obtain ⟨s, m0⟩ := p
    by_cases h0 : m0 = member
    · subst h0
      have : (m0 == m) = false := by simpa using Ne.symm h
      simp [List.filter, this, ih]
    · have : (m0 != member) = true := by simpa using h0
      simp [List.filter, this, ih]

theorem any_filter_self (member : String) (l : List (Int × String)) :
    (l.filter (fun e => e.2 != member)).any (fun e => e.2 == member) = false := by
  induction l with
  | nil => rfl
  | cons p rest ih =>
    obtain ⟨s, m0⟩ := p
    by_cases h0 : m0 = member
    · simp [List.filter, h0, ih]
    · have h1 : (m0 != member) = true := by simpa using h0
      have h2 : (m0 == member) = false := by simpa using h0
      simp [List.filter, h1, h2, ih]

/-- After an addition the member is in the set. -/
theorem DB.isSortedSetMember_sortedSetAdd (store : DB) (key : String) (score : Int)
    (member : String) :
    (store.sortedSetAdd key score member).isSortedSetMember key member = true := by
  simp [DB.sortedSetAdd, DB.isSortedSetMember, DB.getSortedSet, find_putSortedSet,
    any_insertEntry]

/-- An addition does not change the membership of another member. -/
theorem DB.isSortedSetMember_sortedSetAdd_ne (store : DB) (key : String) (score : Int)
    (member m : String) (h : m ≠ member) :
    (store.sortedSetAdd key score member).isSortedSetMember key m =
      store.isSortedSetMember key m := by
  have h1 : (member == m) = false := by simpa using Ne.symm h
  simp only [DB.sortedSetAdd, DB.isSortedSetMember, DB.getSortedSet, find_putSortedSet,
    any_insertEntry, h1, Bool.false_or]
  exact any_filter_ne member m _ h

/-- After a removal the member is not in the set. -/
theorem DB.isSortedSetMember_sortedSetRemove (store : DB) (key member : String) :
    (store.sortedSetRemove key member).isSortedSetMember key member = false := by
  simp only [DB.sortedSetRemove, DB.isSortedSetMember, DB.getSortedSet, find_putSortedSet]
  exact any_filter_self member _

theorem DB.getObject_sortedSetAdd (store : DB) (key : String) (score : Int)
    (member k : String) :
    (store.sortedSetAdd key score member).getObject k = store.getObject k := rfl

theorem DB.getObject_sortedSetRemove (store : DB) (key member k : String) :
    (store.sortedSetRemove key member).getObject k = store.getObject k := rfl

/-! ## Runs of the update routines -/

theorem Eff.runs_pure {α : Type} (a : α) (w : World) :
    Eff.Runs (Pure.pure a : Eff α) w a w.db := ⟨w.trace, rfl⟩

theorem Eff.runs_bind {α β : Type} {x : Eff α} {f : α → Eff β} {w : World} {a : α} {b : β}
    {store1 store2 : DB} (hx : Eff.Runs x w a store1)
    (hf : ∀ trace, Eff.Runs (f a) { db := store1, trace := trace } b store2) :
    Eff.Runs (x >>= f) w b store2 := by
  obtain ⟨tr, hx⟩ := hx
  obtain ⟨tr2, hf⟩ := hf tr
  exact ⟨tr2, by rw [Eff.bind_of_ok x f w _ a hx, hf]⟩

theorem db.getObjectField_runs (key field : String) (w : World) :
    Eff.Runs (db.getObjectField key field) w
      (if ((w.db.getObject key).get field).isUndefined then .null
        else (w.db.getObject key).get field) w.db := ⟨w.trace, rfl⟩

theorem db.getObjectFields_runs (key : String) (fields : List String) (w : World) :
    Eff.Runs (db.getObjectFields key fields) w
      (fields.map (fun f =>
        (f, if ((w.db.getObject key).get f).isUndefined then .null
          else (w.db.getObject key).get f))) w.db := ⟨w.trace, rfl⟩

theorem db.sortedSetRemove_runs (key : String) (value : JSVal) (w : World) :
    Eff.Runs (db.sortedSetRemove key value) w ()
      (if value.truthy then w.db.sortedSetRemove key value.toStr else w.db) := by
  unfold db.sortedSetRemove
  cases value.truthy
  · exact ⟨w.trace, rfl⟩
  · exact ⟨_, rfl⟩

theorem db.sortedSetAdd_runs (env : Env) (key : String) (score : JSVal) (member : String)
    (n : Int) (w : World) (hn : toNumber env score = .int n) :
    Eff.Runs (db.sortedSetAdd env key score member) w () (w.db.sortedSetAdd key n member) := by
  unfold db.sortedSetAdd
  rw [hn]
  exact ⟨_, rfl⟩

theorem User.setUserField_runs (uid : JSVal) (field : String) (value : JSVal) (w : World) :
    Eff.Runs (User.setUserField uid field value) w ()
      (w.db.setObjectField ("user:" ++ uid.toStr) field value) := ⟨_, rfl⟩

theorem updateUidMapping_runs (env : Env) (field : String) (uid : JSVal) (value : String)
    (oldValue : JSVal) (n : Int) (w : World) (hn : toNumber env uid = .int n) :
    Eff.Runs (updateUidMapping env field uid value oldValue) w ()
      (if oldValue.strictEqStr value then w.db
        else uidMappingStore w.db field uid n value oldValue) := by
  unfold updateUidMapping
  cases h : oldValue.strictEqStr value
  · simp only [Bool.false_eq_true, if_false]
    refine Eff.runs_bind (db.sortedSetRemove_runs _ _ w) (fun tr1 => ?_)
    refine Eff.runs_bind (User.setUserField_runs _ _ _ _) (fun tr2 => ?_)
    unfold uidMappingStore
    by_cases hv : (value != "") = true
    · simp only [hv, if_true]
      exact db.sortedSetAdd_runs env _ _ _ n _ hn
    · simp only [hv, Bool.false_eq_true, if_false]
      exact Eff.runs_pure _ _
  · simp only [if_true]
    exact Eff.runs_pure _ _

theorem Eff.runs_ofExcept_ok {α : Type} (a : α) (w : World) :
    Eff.Runs (Eff.ofExcept (Except.ok a : Except JSError α)) w a w.db := ⟨w.trace, rfl⟩

theorem entry_truthy (a b : String) : (JSVal.str (a ++ ":" ++ b)).truthy = true := by
  have h : a ++ ":" ++ b ≠ "" := by
    intro h
    have h2 := congrArg String.length h
    have h3 : ":".length = 1 := rfl
    simp only [String.length_append, h3] at h2
    have h4 : "".length = 0 := rfl
    omega
  simp [JSVal.truthy, h]

theorem uidMappingStore_getObject (store : DB) (field : String) (uid : JSVal) (n : Int)
    (value : String) (oldValue : JSVal) :
    (uidMappingStore store field uid n value oldValue).getObject ("user:" ++ uid.toStr) =
      (store.getObject ("user:" ++ uid.toStr)).set field (.str value) := by
  unfold uidMappingStore
  cases oldValue.truthy <;> cases (value != "") <;>
    simp [DB.getObject_sortedSetAdd, DB.getObject_setObjectField, DB.getObject_sortedSetRemove]

theorem updateFullname_runs (env : Env) (uid : JSVal) (newFullname : String) (n : Int)
    (w : World) (hn : toNumber env uid = .int n)
    (hstored : (∃ old, (w.db.getObject ("user:" ++ uid.toStr)).get "fullname" = .str old) ∨
      ((w.db.getObject ("user:" ++ uid.toStr)).get "fullname").truthy = false)
    (hdiff : (w.db.getObject ("user:" ++ uid.toStr)).get "fullname" ≠ .str newFullname) :
    Eff.Runs (updateFullname env uid newFullname) w ()
      (fullnameStore env w.db uid n newFullname
        (if ((w.db.getObject ("user:" ++ uid.toStr)).get "fullname").isUndefined then .null
          else (w.db.getObject ("user:" ++ uid.toStr)).get "fullname")) := by
  unfold updateFullname
  refine Eff.runs_bind (db.getObjectField_runs _ _ w) (fun tr0 => ?_)
  generalize hv : (if ((w.db.getObject ("user:" ++ uid.toStr)).get "fullname").isUndefined
    then JSVal.null else (w.db.getObject ("user:" ++ uid.toStr)).get "fullname") = v0
  have hne : v0.strictEqStr newFullname = false := by
    rw [← hv, strictEqStr_orNull]
    cases hs : (w.db.getObject ("user:" ++ uid.toStr)).get "fullname" <;>
      simp [JSVal.strictEqStr]
    rename_i s
    intro h
    exact hdiff (by rw [hs, h])
  have hv0 : (∃ old, v0 = .str old) ∨ v0.truthy = false := by
    rw [← hv]
    rcases hstored with ⟨old, h⟩ | h
    · left; exact ⟨old, by simp [h, JSVal.isUndefined]⟩
    · right
      cases hs : (w.db.getObject ("user:" ++ uid.toStr)).get "fullname" <;>
        simp [hs, JSVal.isUndefined, JSVal.truthy] at h ⊢ <;> exact h
  clear hv hstored hdiff
  have hum := updateUidMapping_runs env "fullname" uid newFullname v0 n
    { db := w.db, trace := tr0 } hn
  simp only [hne, Bool.false_eq_true, if_false] at hum
  refine Eff.runs_bind hum (fun tr1 => ?_)
  simp only [hne, Bool.not_false, if_true]
  unfold fullnameStore
  have tail : ∀ (store : DB) (tr : List Event),
      Eff.Runs (if (newFullname != "") = true then
          db.sortedSetAdd env "fullname:sorted" (.num (.int 0))
            (env.toLowerCase newFullname ++ ":" ++ uid.toStr)
        else Pure.pure ()) { db := store, trace := tr } ()
        (if (newFullname != "") = true then
          store.sortedSetAdd "fullname:sorted" 0
            (env.toLowerCase newFullname ++ ":" ++ uid.toStr)
        else store) := by
    intro store tr
    by_cases hnew : (newFullname != "") = true
    · simp only [hnew, if_true]
      exact db.sortedSetAdd_runs env _ _ _ 0 _ rfl
    · simp only [hnew, Bool.false_eq_true, if_false]
      exact Eff.runs_pure _ _
  cases v0 with
  | str old =>
    by_cases ho : old = ""
    · subst ho
      simp only [JSVal.truthy, bne_self_eq_false, Bool.false_eq_true, if_false]
      exact Eff.runs_bind (Eff.runs_pure _ _) (fun tr2 => tail _ tr2)
    · have ht : (old != "") = true := by simpa using ho
      simp only [JSVal.truthy, ht, if_true]
      refine Eff.runs_bind (Eff.runs_ofExcept_ok _ _) (fun tr2 => ?_)
      have hrem := db.sortedSetRemove_runs "fullname:sorted"
        (.str (env.toLowerCase old ++ ":" ++ uid.toStr))
        { db := uidMappingStore w.db "fullname" uid n newFullname (.str old), trace := tr2 }
      simp only [entry_truthy, if_true, JSVal.toStr] at hrem
      exact Eff.runs_bind hrem (fun tr3 => tail _ tr3)
  | undefined | null =>
    simp only [JSVal.truthy, Bool.false_eq_true, if_false]
    exact Eff.runs_bind (Eff.runs_pure _ _) (fun tr2 => tail _ tr2)
  | bool _ | num _ | arr _ | obj _ | func _ _ =>
    have hf := hv0.resolve_left (fun h => by obtain ⟨old, h⟩ := h; cases h)
    simp only [hf, Bool.false_eq_true, if_false]
    exact Eff.runs_bind (Eff.runs_pure _ _) (fun tr2 => tail _ tr2)

theorem updateUsername_runs (env : Env) (uid : JSVal) (newUsername old : String)
    (callerUid : JSVal) (n : Int) (w : World) (hn : toNumber env uid = .int n)
    (hnew : newUsername ≠ "")
    (hstored : (w.db.getObject ("user:" ++ uid.toStr)).get "username" = .str old)
    (hdiff : old ≠ newUsername) :
    Eff.Runs (updateUsername env uid newUsername callerUid) w ()
      (usernameStore env w.db uid n newUsername old
        (if ((w.db.getObject ("user:" ++ uid.toStr)).get "userslug").isUndefined then .null
          else (w.db.getObject ("user:" ++ uid.toStr)).get "userslug") callerUid) := by
  unfold updateUsername
  have h0 : (newUsername == "") = false := by simpa using hnew
  simp only [h0, Bool.false_eq_true, if_false]
  refine Eff.runs_bind (db.getObjectFields_runs _ _ w) (fun tr0 => ?_)
  have hu : JSObject.get
      (["username", "userslug"].map (fun f =>
        (f, if ((w.db.getObject ("user:" ++ uid.toStr)).get f).isUndefined then JSVal.null
          else (w.db.getObject ("user:" ++ uid.toStr)).get f))) "username" = .str old := by
    simp [JSObject.get, hstored, JSVal.isUndefined]
  have hs : JSObject.get
      (["username", "userslug"].map (fun f =>
        (f, if ((w.db.getObject ("user:" ++ uid.toStr)).get f).isUndefined then JSVal.null
          else (w.db.getObject ("user:" ++ uid.toStr)).get f))) "userslug" =
      (if ((w.db.getObject ("user:" ++ uid.toStr)).get "userslug").isUndefined then .null
        else (w.db.getObject ("user:" ++ uid.toStr)).get "userslug") := by
    simp [JSObject.get]
  rw [hu, hs]
  generalize (if ((w.db.getObject ("user:" ++ uid.toStr)).get "userslug").isUndefined
    then JSVal.null else (w.db.getObject ("user:" ++ uid.toStr)).get "userslug") = v1
  have hne : (JSVal.str old).strictEqStr newUsername = false := by
    simpa [JSVal.strictEqStr] using hdiff
  simp only [hne, Bool.false_eq_true, if_false]
  have h1 := updateUidMapping_runs env "username" uid newUsername (.str old) n
    { db := w.db, trace := tr0 } hn
  simp only [hne, Bool.false_eq_true, if_false] at h1
  refine Eff.runs_bind h1 (fun tr1 => ?_)
  refine Eff.runs_bind (updateUidMapping_runs env "userslug" uid (env.slugify newUsername) v1 n
    _ hn) (fun tr2 => ?_)
  refine Eff.runs_bind (db.sortedSetAdd_runs env _ _ _ env.now _ rfl) (fun tr3 => ?_)
  refine Eff.runs_bind (Eff.runs_ofExcept_ok _ _) (fun tr4 => ?_)
  have hrem := db.sortedSetRemove_runs "username:sorted"
    (.str (env.toLowerCase old ++ ":" ++ uid.toStr))
    { db := (if v1.strictEqStr (env.slugify newUsername) = true then
          uidMappingStore w.db "username" uid n newUsername (.str old)
        else uidMappingStore (uidMappingStore w.db "username" uid n newUsername (.str old))
          "userslug" uid n (env.slugify newUsername) v1).sortedSetAdd
        ("user:" ++ uid.toStr ++ ":usernames") env.now
        (newUsername ++ ":" ++ toString env.now ++ ":" ++ callerUid.toStr),
      trace := tr4 }
  simp only [entry_truthy, if_true, JSVal.toStr] at hrem
  refine Eff.runs_bind hrem (fun tr5 => ?_)
  exact db.sortedSetAdd_runs env _ _ _ 0 _ rfl

/-! ## The stores the update routines leave -/

theorem fullnameStore_getObject (env : Env) (store : DB) (uid : JSVal) (n : Int)
    (newFullname : String) (stored : JSVal) :
    (fullnameStore env store uid n newFullname stored).getObject ("user:" ++ uid.toStr) =
      (store.getObject ("user:" ++ uid.toStr)).set "fullname" (.str newFullname) := by
  rw [← uidMappingStore_getObject store "fullname" uid n newFullname stored]
  unfold fullnameStore
  cases stored <;> simp only [] <;> repeat' split
  all_goals rfl

theorem fullnameStore_member_new (env : Env) (store : DB) (uid : JSVal) (n : Int)
    (newFullname : String) (stored : JSVal) (hnew : newFullname ≠ "") :
    (fullnameStore env store uid n newFullname stored).isSortedSetMember "fullname:sorted"
      (env.toLowerCase newFullname ++ ":" ++ uid.toStr) = true := by
  unfold fullnameStore
  have h : (newFullname != "") = true := by simpa using hnew
  simp only [h, if_true]
  exact DB.isSortedSetMember_sortedSetAdd _ _ _ _

theorem fullnameStore_member_old (env : Env) (store : DB) (uid : JSVal) (n : Int)
    (newFullname old : String) (hold : old ≠ "")
    (hentry : env.toLowerCase old ++ ":" ++ uid.toStr ≠
      env.toLowerCase newFullname ++ ":" ++ uid.toStr) :
    (fullnameStore env store uid n newFullname (.str old)).isSortedSetMember "fullname:sorted"
      (env.toLowerCase old ++ ":" ++ uid.toStr) = false := by
  unfold fullnameStore
  have h : (old != "") = true := by simpa using hold
  simp only [h, if_true]
  by_cases hnew : (newFullname != "") = true
  · simp only [hnew, if_true]
    rw [DB.isSortedSetMember_sortedSetAdd_ne _ _ _ _ _ hentry]
    exact DB.isSortedSetMember_sortedSetRemove _ _ _
  · simp only [hnew, Bool.false_eq_true, if_false]
    exact DB.isSortedSetMember_sortedSetRemove _ _ _

theorem usernameStore_getObject (env : Env) (store : DB) (uid : JSVal) (n : Int)
    (newUsername old : String) (slug callerUid : JSVal) :
    ((usernameStore env store uid n newUsername old slug callerUid).getObject
      ("user:" ++ uid.toStr)).get "username" = .str newUsername := by
  unfold usernameStore
  simp only [DB.getObject_sortedSetAdd, DB.getObject_sortedSetRemove]
  split
  · rw [uidMappingStore_getObject, JSObject.get_set_eq]
  · rw [uidMappingStore_getObject, uidMappingStore_getObject,
      JSObject.get_set_ne _ _ _ _ (by decide), JSObject.get_set_eq]

theorem usernameStore_member_new (env : Env) (store : DB) (uid : JSVal) (n : Int)
    (newUsername old : String) (slug callerUid : JSVal) :
    (usernameStore env store uid n newUsername old slug callerUid).isSortedSetMember
      "username:sorted" (env.toLowerCase newUsername ++ ":" ++ uid.toStr) = true :=
  DB.isSortedSetMember_sortedSetAdd _ _ _ _

theorem usernameStore_member_old (env : Env) (store : DB) (uid : JSVal) (n : Int)
    (newUsername old : String) (slug callerUid : JSVal)
    (hentry : env.toLowerCase old ++ ":" ++ uid.toStr ≠
      env.toLowerCase newUsername ++ ":" ++ uid.toStr) :
    (usernameStore env store uid n newUsername old slug callerUid).isSortedSetMember
      "username:sorted" (env.toLowerCase old ++ ":" ++ uid.toStr) = false := by
  unfold usernameStore
  simp only []
  rw [DB.isSortedSetMember_sortedSetAdd_ne _ _ _ _ _ hentry]
  exact DB.isSortedSetMember_sortedSetRemove _ _ _

theorem updateFullname_same (env : Env) (uid : JSVal) (newFullname : String) (w : World)
    (hstored : (w.db.getObject ("user:" ++ uid.toStr)).get "fullname" = .str newFullname) :
    updateFullname env uid newFullname w = (.ok (), w) := by
  unfold updateFullname
  have h0 : db.getObjectField ("user:" ++ uid.toStr) "fullname" w =
      (.ok (.str newFullname), w) := by
    show (Except.ok (if ((w.db.getObject ("user:" ++ uid.toStr)).get "fullname").isUndefined
      then JSVal.null else (w.db.getObject ("user:" ++ uid.toStr)).get "fullname"), w) = _
    rw [hstored]
    rfl
  rw [Eff.bind_of_ok (db.getObjectField ("user:" ++ uid.toStr) "fullname") _ w w _ h0]
  have h1 : updateUidMapping env "fullname" uid newFullname (.str newFullname) w =
      (.ok (), w) := by
    unfold updateUidMapping
    simp [JSVal.strictEqStr]
    rfl
  rw [Eff.bind_of_ok (updateUidMapping env "fullname" uid newFullname (.str newFullname))
    _ w w () h1]
  simp [JSVal.strictEqStr]
  rfl

theorem updateUsername_same (env : Env) (uid : JSVal) (newUsername : String)
    (callerUid : JSVal) (w : World)
    (hstored : (w.db.getObject ("user:" ++ uid.toStr)).get "username" = .str newUsername) :
    updateUsername env uid newUsername callerUid w = (.ok (), w) := by
  unfold updateUsername
  by_cases h : (newUsername == "") = true
  · simp only [h, if_true]
    rfl
  · simp only [h, Bool.false_eq_true, if_false]
    have h0 : db.getObjectFields ("user:" ++ uid.toStr) ["username", "userslug"] w =
        (.ok [("username", .str newUsername),
          ("userslug",
            if ((w.db.getObject ("user:" ++ uid.toStr)).get "userslug").isUndefined then .null
            else (w.db.getObject ("user:" ++ uid.toStr)).get "userslug")], w) := by
      show (Except.ok (["username", "userslug"].map (fun f =>
        (f, if ((w.db.getObject ("user:" ++ uid.toStr)).get f).isUndefined then JSVal.null
          else (w.db.getObject ("user:" ++ uid.toStr)).get f))), w) = _
      simp [hstored, JSVal.isUndefined]
    rw [Eff.bind_of_ok (db.getObjectFields ("user:" ++ uid.toStr) ["username", "userslug"])
      _ w w _ h0]
    simp [JSObject.get, JSVal.strictEqStr]
    rfl

/-- C18, as stated, fails for `updateUsername`: for user 2 of the sample store
the stored name is `highRepUser`, the new name is the empty string, which
differs from it, and the routine leaves the state as it was, so the field does
not hold the new value. -/
theorem updateUsername_empty_name_keeps_store :
    updateUsername demoEnv (.num (.int 2)) "" (.num (.int 2)) demoWorld =
      (.ok (), demoWorld) ∧
    ((updateUsername demoEnv (.num (.int 2)) "" (.num (.int 2)) demoWorld).2.db.getObject
      "user:2").get "username" = .str "highRepUser" ∧
    "highRepUser" ≠ "" :=
  ⟨rfl, rfl, by decide⟩

/-- C18, amended: on a store state and for a uid whose number is `n`.
`updateFullname`, with a stored full name that is a string or unset: when the
new value is the stored one the state is left as it was; otherwise the
routine succeeds, the user's field holds the new value, `fullname:sorted`
contains the entry of the new value when it is not empty, and no longer
contains the entry of a non-empty old value unless it is the new entry.
`updateUsername`, with a stored name that is a string: an empty new name, or a
new name equal to the stored one, leaves the state as it was; otherwise the
routine succeeds, the field holds the new name, `username:sorted` contains the
new entry and no longer contains the old entry unless it is the new entry. -/
theorem update_routines_keep_sorted_index (env : Env) (uid : JSVal) (n : Int) (w : World)
    (hn : toNumber env uid = .int n) :
    (∀ newFullname : String,
      ((w.db.getObject ("user:" ++ uid.toStr)).get "fullname" = .str newFullname →
        updateFullname env uid newFullname w = (.ok (), w)) ∧
      (((∃ old, (w.db.getObject ("user:" ++ uid.toStr)).get "fullname" = .str old) ∨
          ((w.db.getObject ("user:" ++ uid.toStr)).get "fullname").truthy = false) →
        (w.db.getObject ("user:" ++ uid.toStr)).get "fullname" ≠ .str newFullname →
        ∃ w', updateFullname env uid newFullname w = (.ok (), w') ∧
          (w'.db.getObject ("user:" ++ uid.toStr)).get "fullname" = .str newFullname ∧
          (newFullname ≠ "" →
            w'.db.isSortedSetMember "fullname:sorted"
              (env.toLowerCase newFullname ++ ":" ++ uid.toStr) = true) ∧
          (∀ old, (w.db.getObject ("user:" ++ uid.toStr)).get "fullname" = .str old →
            old ≠ "" →
            env.toLowerCase old ++ ":" ++ uid.toStr ≠
              env.toLowerCase newFullname ++ ":" ++ uid.toStr →
            w'.db.isSortedSetMember "fullname:sorted"
              (env.toLowerCase old ++ ":" ++ uid.toStr) = false))) ∧
    (∀ (newUsername : String) (callerUid : JSVal),
      (newUsername = "" → updateUsername env uid newUsername callerUid w = (.ok (), w)) ∧
      ((w.db.getObject ("user:" ++ uid.toStr)).get "username" = .str newUsername →
        updateUsername env uid newUsername callerUid w = (.ok (), w)) ∧
      (∀ old, newUsername ≠ "" →
        (w.db.getObject ("user:" ++ uid.toStr)).get "username" = .str old →
        old ≠ newUsername →
        ∃ w', updateUsername env uid newUsername callerUid w = (.ok (), w') ∧
          (w'.db.getObject ("user:" ++ uid.toStr)).get "username" = .str newUsername ∧
          w'.db.isSortedSetMember "username:sorted"
            (env.toLowerCase newUsername ++ ":" ++ uid.toStr) = true ∧
          (env.toLowerCase old ++ ":" ++ uid.toStr ≠
              env.toLowerCase newUsername ++ ":" ++ uid.toStr →
            w'.db.isSortedSetMember "username:sorted"
              (env.toLowerCase old ++ ":" ++ uid.toStr) = false))) := by
  refine ⟨fun newFullname => ⟨updateFullname_same env uid newFullname w, ?_⟩,
    fun newUsername callerUid => ⟨?_, updateUsername_same env uid newUsername callerUid w, ?_⟩⟩
  · intro hstored hdiff
    obtain ⟨tr, hrun⟩ := updateFullname_runs env uid newFullname n w hn hstored hdiff
    refine ⟨_, hrun, ?_, ?_, ?_⟩
    · show ((fullnameStore env w.db uid n newFullname _).getObject _).get _ = _
      rw [fullnameStore_getObject, JSObject.get_set_eq]
    · intro hnew
      exact fullnameStore_member_new env w.db uid n newFullname _ hnew
    · intro old hold hne hentry
      show (fullnameStore env w.db uid n newFullname _).isSortedSetMember _ _ = false
      rw [hold]
      exact fullnameStore_member_old env w.db uid n newFullname old hne hentry
  · intro h
    subst h
    rfl
  · intro old hnew hstored hdiff
    obtain ⟨tr, hrun⟩ := updateUsername_runs env uid newUsername old callerUid n w hn hnew
      hstored hdiff
    exact ⟨_, hrun, usernameStore_getObject env w.db uid n newUsername old _ callerUid,
      usernameStore_member_new env w.db uid n newUsername old _ callerUid,
      usernameStore_member_old env w.db uid n newUsername old _ callerUid⟩

/-- C18, amended, on user 2 of the sample store: renaming `highRepUser` to
`Bob` succeeds, and giving the full name `High Rep` to a user without one
succeeds. -/
theorem update_routines_keep_sorted_index_witness :
    (∃ w', updateUsername demoEnv (.num (.int 2)) "Bob" (.num (.int 2)) demoWorld =
        (.ok (), w') ∧
      (w'.db.getObject "user:2").get "username" = .str "Bob" ∧
      w'.db.isSortedSetMember "username:sorted" "bob:2" = true ∧
      w'.db.isSortedSetMember "username:sorted" "highrepuser:2" = false) ∧
    (∃ w', updateFullname demoEnv (.num (.int 2)) "High Rep" demoWorld = (.ok (), w') ∧
      (w'.db.getObject "user:2").get "fullname" = .str "High Rep" ∧
      w'.db.isSortedSetMember "fullname:sorted" "high rep:2" = true) :=
  ⟨match ((update_routines_keep_sorted_index demoEnv (.num (.int 2)) 2 demoWorld rfl).2
      "Bob" (.num (.int 2))).2.2 "highRepUser" (by decide) rfl (by decide) with
    | ⟨w', h1, h2, h3, h4⟩ => ⟨w', h1, h2, h3, h4 (by decide)⟩,
   match ((update_routines_keep_sorted_index demoEnv (.num (.int 2)) 2 demoWorld rfl).1
      "High Rep").2 (Or.inr rfl) (by intro h; cases h) with
    | ⟨w', h1, h2, h3, _⟩ => ⟨w', h1, h2, h3 (by decide)⟩⟩

/-! ## Content restriction: the claims -/

theorem canView_ta (viewer : Identity) :
    canView viewer (some "ta") = true ↔
      (viewer.role = .ta ∨ viewer.role = .professor ∨ viewer.isAdmin = true) := by
  obtain ⟨role, isAdmin⟩ := viewer
  cases role <;> cases isAdmin <;> decide

theorem latest_mem (l : List Content) (c : Content) (h : latest l = some c) : c ∈ l := by
  induction l generalizing c with
  | nil => simp [latest] at h
  | cons x rest ih =>
    simp only [latest] at h
    cases hr : latest rest with
    | none =>
      rw [hr] at h
      simp only [Option.some.injEq] at h
      simp [h]
    | some d =>
      rw [hr] at h
      simp only [] at h
      split at h
      · simp only [Option.some.injEq] at h
        simp [h]
      · simp only [Option.some.injEq] at h
        subst h
        exact List.mem_cons_of_mem _ (ih d hr)

theorem latest_ge (l : List Content) (c : Content) (h : latest l = some c) :
    ∀ y ∈ l, y.timestamp ≤ c.timestamp := by
  induction l generalizing c with
  | nil => simp
  | cons x rest ih =>
    simp only [latest] at h
    cases hr : latest rest with
    | none =>
      have hnil : rest = [] := by
        cases rest with
        | nil => rfl
        | cons z zs =>
          simp only [latest] at hr
          cases hz : latest zs <;> rw [hz] at hr
          · simp at hr
          · simp only [] at hr
            split at hr <;> simp at hr
      rw [hr] at h
      simp only [Option.some.injEq] at h
      subst h hnil
      simp
    | some d =>
      rw [hr] at h
      simp only [] at h
      have hd := ih d hr
      split at h
      · simp only [Option.some.injEq] at h
        subst h
        intro y hy
        rcases List.mem_cons.1 hy with h1 | h1
        · rw [h1]
        · exact le_trans (hd y h1) (by assumption)
      · simp only [Option.some.injEq] at h
        subst h
        intro y hy
        rcases List.mem_cons.1 hy with h1 | h1
        · rw [h1]; omega
        · exact hd y h1

/-- The latest entry of a pool stays the latest when a filter keeps it. -/
theorem latest_filter (p : Content → Bool) (l : List Content) (c : Content)
    (h : latest l = some c) (hp : p c = true) : latest (l.filter p) = some c := by
  induction l generalizing c with
  | nil => simp [latest] at h
  | cons x rest ih =>
    simp only [latest] at h
    cases hr : latest rest with
    | none =>
      have hnil : rest = [] := by
        cases rest with
        | nil => rfl
        | cons z zs =>
          simp only [latest] at hr
          cases hz : latest zs <;> rw [hz] at hr
          · simp at hr
          · simp only [] at hr
            split at hr <;> simp at hr
      rw [hr] at h
      simp only [Option.some.injEq] at h
      subst h hnil
      simp [List.filter, hp, latest]
    | some d =>
      rw [hr] at h
      simp only [] at h
      split at h
      · rename_i hle
        simp only [Option.some.injEq] at h
        subst h
        simp only [List.filter, hp, latest]
        cases hf : latest (rest.filter p) with
        | none => rfl
        | some d' =>
          simp only []
          have hmem : d' ∈ rest := (List.mem_filter.1 (latest_mem _ _ hf)).1
          have : d'.timestamp ≤ x.timestamp := le_trans (latest_ge rest d hr d' hmem) hle
          simp [this]
      · rename_i hlt
        simp only [Option.some.injEq] at h
        subst h
        have hfi := ih d hr hp
        by_cases hx : p x = true
        · simp only [List.filter, hx, latest, hfi]
          simp [hlt]
        · have hx2 : p x = false := by simpa using hx
          simp only [List.filter, hx2]
          exact hfi

/-- C19: content tagged `targetRole = 'ta'` is visible exactly to viewers
with the role ta or professor and to administrators, so never to a student or
a guest, and identically in the category topic listing (with or without the
instructor flag), in the post list of a topic and in teaser selection: the
teaser is never a hidden post, and a visible post that is the latest of the
topic is the teaser.  Untagged content is visible to every viewer. -/
theorem targetRole_ta_visibility (viewer : Identity) (c : Content) :
    (c.targetRole = some "ta" →
      (canView viewer c.targetRole = true ↔
        (viewer.role = .ta ∨ viewer.role = .professor ∨ viewer.isAdmin = true)) ∧
      (∀ (instructor : Bool) (topics : List Content),
        c ∈ getCategoryTopics viewer instructor topics ↔
          (c ∈ topics ∧
            (viewer.role = .ta ∨ viewer.role = .professor ∨ viewer.isAdmin = true))) ∧
      (∀ posts : List Content,
        c ∈ getTopicPosts viewer posts ↔
          (c ∈ posts ∧
            (viewer.role = .ta ∨ viewer.role = .professor ∨ viewer.isAdmin = true))) ∧
      (∀ posts : List Content, getTeaser viewer posts = some c →
        (viewer.role = .ta ∨ viewer.role = .professor ∨ viewer.isAdmin = true)) ∧
      (∀ posts : List Content, latest posts = some c →
        (viewer.role = .ta ∨ viewer.role = .professor ∨ viewer.isAdmin = true) →
        getTeaser viewer posts = some c) ∧
      ((viewer.role = .student ∨ viewer.role = .none) → viewer.isAdmin = false →
        canView viewer c.targetRole = false)) ∧
    (c.targetRole = none →
      canView viewer c.targetRole = true ∧
      (∀ topics : List Content, c ∈ getCategoryTopics viewer false topics ↔ c ∈ topics) ∧
      (∀ posts : List Content, c ∈ getTopicPosts viewer posts ↔ c ∈ posts) ∧
      (∀ posts : List Content, latest posts = some c → getTeaser viewer posts = some c)) := by
  refine ⟨fun htag => ?_, fun htag => ?_⟩
  · have hv : canView viewer c.targetRole = true ↔
        (viewer.role = .ta ∨ viewer.role = .professor ∨ viewer.isAdmin = true) := by
      rw [htag]
      exact canView_ta viewer
    refine ⟨hv, ?_, ?_, ?_, ?_, ?_⟩
    · intro instructor topics
      cases instructor
      · simp only [getCategoryTopics, filterVisible, Bool.false_eq_true, if_false,
          List.mem_filter, hv]
      · simp only [getCategoryTopics, filterVisible, if_true, List.mem_filter, htag,
          Option.isSome_some, and_true, canView_ta]
    · intro posts
      simp only [getTopicPosts, filterVisible, List.mem_filter, hv]
    · intro posts h
      have := latest_mem _ _ h
      simp only [filterVisible, List.mem_filter] at this
      exact hv.1 this.2
    · intro posts h hrole
      exact latest_filter _ posts c h (hv.2 hrole)
    · intro hrole hadmin
      cases hcv : canView viewer c.targetRole with
      | false => rfl
      | true =>
        rcases hv.1 hcv with h | h | h
        · rcases hrole with h2 | h2 <;> rw [h2] at h <;> cases h
        · rcases hrole with h2 | h2 <;> rw [h2] at h <;> cases h
        · rw [hadmin] at h
          cases h
  · have hv : canView viewer c.targetRole = true := by
      rw [htag]
      rfl
    refine ⟨hv, ?_, ?_, ?_⟩
    · intro topics
      simp only [getCategoryTopics, filterVisible, Bool.false_eq_true, if_false,
        List.mem_filter, hv, and_true]
    · intro posts
      simp only [getTopicPosts, filterVisible, List.mem_filter, hv, and_true]
    · intro posts h
      exact latest_filter _ posts c h hv

/-- C19 on a topic with a normal reply and a later reply tagged `ta`: a
student gets the normal reply as the teaser and a list without the tagged
reply, a ta gets the tagged reply in both. -/
theorem targetRole_ta_visibility_witness :
    getTopicPosts { role := .student, isAdmin := false }
      [{ id := 1, cid := 1, timestamp := 10, targetRole := none },
       { id := 2, cid := 1, timestamp := 20, targetRole := some "ta" }] =
      [{ id := 1, cid := 1, timestamp := 10, targetRole := none }] ∧
    getTeaser { role := .student, isAdmin := false }
      [{ id := 1, cid := 1, timestamp := 10, targetRole := none },
       { id := 2, cid := 1, timestamp := 20, targetRole := some "ta" }] =
      some { id := 1, cid := 1, timestamp := 10, targetRole := none } ∧
    getTeaser { role := .ta, isAdmin := false }
      [{ id := 1, cid := 1, timestamp := 10, targetRole := none },
       { id := 2, cid := 1, timestamp := 20, targetRole := some "ta" }] =
      some { id := 2, cid := 1, timestamp := 20, targetRole := some "ta" } :=
  ⟨by decide, by decide,
   (targetRole_ta_visibility { role := .ta, isAdmin := false }
      { id := 2, cid := 1, timestamp := 20, targetRole := some "ta" }).1 rfl
      |>.2.2.2.2.1 _ (by decide) (Or.inl rfl)⟩

/-- The composer handler leaves `composerData` alone for other actions and
without the select; otherwise `targetRole` reads as the selected value when it
is truthy and as `undefined` when it is not. -/
theorem composerSubmit_targetRole (action : String) (selectVal : Option JSVal)
    (composerData : JSObject) :
    (action ≠ "topics.post" → action ≠ "posts.reply" →
      composerSubmit action selectVal composerData = composerData) ∧
    (composerSubmit action none composerData = composerData) ∧
    (∀ val, (action = "topics.post" ∨ action = "posts.reply") →
      (composerSubmit action (some val) composerData).get "targetRole" =
        if val.truthy then val else .undefined) := by
  refine ⟨?_, ?_, ?_⟩
  · intro h1 h2
    simp [composerSubmit, h1, h2]
  · unfold composerSubmit
    split <;> rfl
  · intro val h
    have hc : ¬ (action ≠ "topics.post" ∧ action ≠ "posts.reply") := by
      rcases h with h | h <;> simp [h]
    simp only [composerSubmit, hc, if_false]
    exact JSObject.get_set_eq _ _ _

/-- C20: a caller below the instructor tier (no role or student, and no
administrator) who submits any `targetRole` gets the content created, with no
tag, with the restricted index as it was (so without the new id, when the
index holds only ids already given out), exactly as if nothing had been
submitted; a ta, a professor or an administrator who submits a tag has it
stored and the new id added to the restricted index of the category. -/
theorem createContent_targetRole (caller : Identity) (cid : Nat) (now : Int)
    (submitted : Option String) (forum : Forum) :
    (mayRestrict caller = true ↔
      (caller.role = .ta ∨ caller.role = .professor ∨ caller.isAdmin = true)) ∧
    (createContent caller cid now submitted forum).2 ∈
      (createContent caller cid now submitted forum).1.contents ∧
    (mayRestrict caller = false →
      (createContent caller cid now submitted forum).2.targetRole = none ∧
      (createContent caller cid now submitted forum).1.restricted = forum.restricted ∧
      ((∀ p ∈ forum.restricted, p.2 < forum.nextId) →
        (cid, (createContent caller cid now submitted forum).2.id) ∉
          (createContent caller cid now submitted forum).1.restricted) ∧
      createContent caller cid now submitted forum = createContent caller cid now none forum) ∧
    (mayRestrict caller = true → ∀ tag, submitted = some tag →
      (createContent caller cid now submitted forum).2.targetRole = some tag ∧
      (cid, (createContent caller cid now submitted forum).2.id) ∈
        (createContent caller cid now submitted forum).1.restricted) := by
  refine ⟨?_, ?_, ?_, ?_⟩
  · obtain ⟨role, isAdmin⟩ := caller
    cases role <;> cases isAdmin <;> decide
  · simp [createContent]
  · intro h
    refine ⟨by simp [createContent, h], by simp [createContent, h], ?_,
      by simp [createContent, h]⟩
    intro hinv hmem
    have hr : (createContent caller cid now submitted forum).1.restricted = forum.restricted := by
      simp [createContent, h]
    rw [hr] at hmem
    have hlt := hinv _ hmem
    simp [createContent] at hlt
  · intro h tag htag
    subst htag
    simp [createContent, h]

/-- C20 on a student and on a professor who both submit the tag `ta` to an
empty forum. -/
theorem createContent_targetRole_witness :
    createContent { role := .student, isAdmin := false } 5 100 (some "ta")
      { contents := [], restricted := [], nextId := 1 } =
      ({ contents := [{ id := 1, cid := 5, timestamp := 100, targetRole := none }],
         restricted := [], nextId := 2 },
       { id := 1, cid := 5, timestamp := 100, targetRole := none }) ∧
    (createContent { role := .professor, isAdmin := false } 5 100 (some "ta")
      { contents := [], restricted := [], nextId := 1 }).2.targetRole = some "ta" ∧
    (5, 1) ∈ (createContent { role := .professor, isAdmin := false } 5 100 (some "ta")
      { contents := [], restricted := [], nextId := 1 }).1.restricted :=
  ⟨((createContent_targetRole { role := .student, isAdmin := false } 5 100 (some "ta")
      { contents := [], restricted := [], nextId := 1 }).2.2.1 rfl).2.2.2.trans rfl,
   ((createContent_targetRole { role := .professor, isAdmin := false } 5 100 (some "ta")
      { contents := [], restricted := [], nextId := 1 }).2.2.2 rfl "ta" rfl).1,
   ((createContent_targetRole { role := .professor, isAdmin := false } 5 100 (some "ta")
      { contents := [], restricted := [], nextId := 1 }).2.2.2 rfl "ta" rfl).2⟩

/-! ## The email update routine: the claim -/

/-- The value `oldEmail` of `updateEmail` compared with a string: the stored
field, or the empty string when it is unset or falsy. -/
theorem oldEmail_strictEqStr (v : JSVal) (s : String) :
    (if (if v.isUndefined then JSVal.null else v).truthy = true then
        (if v.isUndefined then JSVal.null else v)
      else JSVal.str "").strictEqStr s =
    (if v.truthy = true then v else JSVal.str "").strictEqStr s := by
  cases v <;> rfl

theorem updateEmail_run (env : Env) (uid : JSVal) (newEmail : String) (w : World) :
    updateEmail env uid newEmail w =
      if ((if ((w.db.getObject ("user:" ++ uid.toStr)).get "email").truthy = true then
              (w.db.getObject ("user:" ++ uid.toStr)).get "email"
            else .str "").strictEqStr newEmail) = true then (.ok (), w)
      else if env.isValidationPending w.db uid newEmail = true then (.ok (), w)
      else if newEmail = "" then (.ok (), w)
      else
        (.ok (), { db := w.db, trace := w.trace ++
          [match env.sendValidationEmail uid newEmail with
            | none => Event.validationEmail uid newEmail
            | some stack =>
              Event.logged ("[user.create] Validation email failed to send\n[emailer.send] " ++
                stack)] }) := by
  unfold updateEmail
  rw [Eff.bind_of_ok (db.getObjectField ("user:" ++ uid.toStr) "email") _ w w _ rfl]
  simp only [oldEmail_strictEqStr]
  by_cases h1 : ((if ((w.db.getObject ("user:" ++ uid.toStr)).get "email").truthy = true then
              (w.db.getObject ("user:" ++ uid.toStr)).get "email"
            else .str "").strictEqStr newEmail) = true
  · simp only [h1, if_true]
    rfl
  · simp only [h1, Bool.false_eq_true, if_false]
    rw [Eff.bind_of_ok Eff.getDB _ w w _ rfl]
    by_cases h2 : env.isValidationPending w.db uid newEmail = true
    · simp only [h2, if_true]
      rfl
    · simp only [h2, Bool.false_eq_true, if_false]
      by_cases h3 : newEmail = ""
      · subst h3
        rfl
      · have h4 : (newEmail != "") = true := by simpa using h3
        simp only [h3, h4, if_true, if_false]
        cases env.sendValidationEmail uid newEmail <;> rfl

/-- Every run of `updateEmail` settles, leaves the store as it was and adds at
most one action, which is not a write. -/
theorem updateEmail_actions (env : Env) (uid : JSVal) (newEmail : String) (w : World) :
    ∃ actions, updateEmail env uid newEmail w =
        (.ok (), { db := w.db, trace := w.trace ++ actions }) ∧
      actions.all (fun e => !e.isWrite) = true ∧ actions.length ≤ 1 := by
  rw [updateEmail_run]
  by_cases h1 : ((if ((w.db.getObject ("user:" ++ uid.toStr)).get "email").truthy = true then
              (w.db.getObject ("user:" ++ uid.toStr)).get "email"
            else .str "").strictEqStr newEmail) = true
  · rw [if_pos h1]
    exact ⟨[], by simp, rfl, by simp⟩
  · rw [if_neg h1]
    by_cases h2 : env.isValidationPending w.db uid newEmail = true
    · rw [if_pos h2]
      exact ⟨[], by simp, rfl, by simp⟩
    · rw [if_neg h2]
      by_cases h3 : newEmail = ""
      · rw [if_pos h3]
        exact ⟨[], by simp, rfl, by simp⟩
      · rw [if_neg h3]
        refine ⟨_, rfl, ?_, by simp⟩
        cases env.sendValidationEmail uid newEmail <;> rfl

/-- C24: `updateEmail(uid, newEmail)` never fails and never writes. It leaves
the state as it was when the new email is the stored one, when a validation
of it is pending, or when it is empty. Otherwise it leaves the store as it was
and adds one action to the trace: the validation email sent to the new
address, or, when sending is rejected, the logged failure. In every case the
actions added are not writes, and the loop of `updateProfile` goes on with the
next field after the `email` field. -/
theorem updateEmail_only_sends_validation (env : Env) (uid : JSVal) (newEmail : String)
    (w : World) :
    ((w.db.getObject ("user:" ++ uid.toStr)).get "email" = .str newEmail →
      updateEmail env uid newEmail w = (.ok (), w)) ∧
    (env.isValidationPending w.db uid newEmail = true →
      updateEmail env uid newEmail w = (.ok (), w)) ∧
    (newEmail = "" → updateEmail env uid newEmail w = (.ok (), w)) ∧
    ((w.db.getObject ("user:" ++ uid.toStr)).get "email" ≠ .str newEmail →
      env.isValidationPending w.db uid newEmail = false → newEmail ≠ "" →
      (env.sendValidationEmail uid newEmail = none →
        updateEmail env uid newEmail w =
          (.ok (), { db := w.db, trace := w.trace ++ [.validationEmail uid newEmail] })) ∧
      (∀ stack, env.sendValidationEmail uid newEmail = some stack →
        updateEmail env uid newEmail w =
          (.ok (), { db := w.db, trace := w.trace ++
            [.logged ("[user.create] Validation email failed to send\n[emailer.send] " ++
              stack)] }))) ∧
    (∃ actions, updateEmail env uid newEmail w =
        (.ok (), { db := w.db, trace := w.trace ++ actions }) ∧
      actions.all (fun e => !e.isWrite) = true ∧ actions.length ≤ 1) ∧
    (∀ (callerUid : JSVal) (rest : List String) (data updateData : JSObject) (s : String),
      data.get "email" = .str s → newEmail = jsTrim s →
      updateFieldsLoop env callerUid uid ("email" :: rest) data updateData w =
        updateFieldsLoop env callerUid uid rest (data.set "email" (.str newEmail)) updateData
          (updateEmail env uid newEmail w).2) := by
  have hrun := updateEmail_run env uid newEmail w
  refine ⟨?_, ?_, ?_, ?_, ?_, ?_⟩
  · intro hs
    rw [hrun, hs]
    by_cases h : newEmail = ""
    · subst h
      rfl
    · have h4 : (newEmail != "") = true := by simpa using h
      simp [JSVal.truthy, JSVal.strictEqStr, h4]
  · intro hp
    rw [hrun, hp]
    simp
  · intro he
    rw [hrun]
    simp [he]
  · intro hs hp he
    have hold : ((if ((w.db.getObject ("user:" ++ uid.toStr)).get "email").truthy = true then
              (w.db.getObject ("user:" ++ uid.toStr)).get "email"
            else .str "").strictEqStr newEmail) = false := by
      cases hv : (w.db.getObject ("user:" ++ uid.toStr)).get "email" with
      | str t =>
        have hne : t ≠ newEmail := by
          intro h
          apply hs
          rw [hv, h]
        by_cases ht : t = ""
        · subst ht
          simpa [JSVal.truthy, JSVal.strictEqStr] using hne
        · simp [JSVal.truthy, JSVal.strictEqStr, ht, hne]
      | undefined => simpa [JSVal.truthy, JSVal.strictEqStr] using Ne.symm he
      | null => simpa [JSVal.truthy, JSVal.strictEqStr] using Ne.symm he
      | bool b =>
        cases b
        · simpa [JSVal.truthy, JSVal.strictEqStr] using Ne.symm he
        · simp [JSVal.truthy, JSVal.strictEqStr]
      | num x =>
        cases x with
        | nan => simpa [JSVal.truthy, JSVal.strictEqStr] using Ne.symm he
        | int n =>
          by_cases hn : n = 0
          · subst hn
            simpa [JSVal.truthy, JSVal.strictEqStr] using Ne.symm he
          · simp [JSVal.truthy, JSVal.strictEqStr, hn]
      | arr xs => simp [JSVal.truthy, JSVal.strictEqStr]
      | obj kvs => simp [JSVal.truthy, JSVal.strictEqStr]
      | func name arity => simp [JSVal.truthy, JSVal.strictEqStr]
    refine ⟨?_, ?_⟩
    · intro hsend
      rw [hrun, hold, hp, hsend]
      simp [he]
    · intro stack hsend
      rw [hrun, hold, hp, hsend]
      simp [he]
  · exact updateEmail_actions env uid newEmail w
  · intro callerUid rest data updateData s hs hnew
    subst hnew
    have hok : ∃ w', updateEmail env uid (jsTrim s) w = (.ok (), w') := by
      obtain ⟨actions, h, _⟩ := updateEmail_actions env uid (jsTrim s) w
      exact ⟨_, h⟩
    obtain ⟨w', hw'⟩ := hok
    rw [hw']
    have hr : data.read "email" = .str s := (JSObject.read_str_iff data "email" s).mpr hs
    simp only [updateFieldsLoop, hr]
    simp only [if_true]
    exact Eff.both_of_ok _ _ w w' hw'

/-- C24 on user 2 of the sample store, who has no email yet: the address
`bob@example.org` is sent a validation email and nothing is written; when the
mailer rejects, the failure is logged instead; an empty address does nothing. -/
theorem updateEmail_only_sends_validation_witness :
    updateEmail demoEnv (.num (.int 2)) "bob@example.org" demoWorld =
      (.ok (), { db := demoDB,
                 trace := [.validationEmail (.num (.int 2)) "bob@example.org"] }) ∧
    updateEmail failingMailEnv (.num (.int 2)) "bob@example.org" demoWorld =
      (.ok (), { db := demoDB,
                 trace := [.logged ("[user.create] Validation email failed to send\n" ++
                   "[emailer.send] Error: connect ECONNREFUSED")] }) ∧
    updateEmail demoEnv (.num (.int 2)) "" demoWorld = (.ok (), demoWorld) :=
  ⟨((updateEmail_only_sends_validation demoEnv (.num (.int 2)) "bob@example.org"
      demoWorld).2.2.2.1
      (by intro h; have h2 := congrArg JSVal.truthy h; revert h2; decide) rfl
      (by decide)).1 rfl,
   ((updateEmail_only_sends_validation failingMailEnv (.num (.int 2)) "bob@example.org"
      demoWorld).2.2.2.1
      (by intro h; have h2 := congrArg JSVal.truthy h; revert h2; decide) rfl
      (by decide)).2 "Error: connect ECONNREFUSED" rfl,
   (updateEmail_only_sends_validation demoEnv (.num (.int 2)) "" demoWorld).2.2.1 rfl⟩

/-! ## The post queue gate: the claim -/

/-- C21: for every poster with an assigned role (student, ta or professor),
whatever the privileges and the reputation, and for every queue
configuration, `posts.shouldQueue` is false; hence it is false whenever it is
false for the guest, and it is never true for such a poster while false for
the guest. -/
theorem shouldQueue_role_bypass (config : QueueConfig) (poster : Poster)
    (hrole : poster.identity.role = .student ∨ poster.identity.role = .ta ∨
      poster.identity.role = .professor) :
    posts.shouldQueue config poster = false ∧
    (posts.shouldQueue config guest = false → posts.shouldQueue config poster = false) ∧
    ¬ (posts.shouldQueue config poster = true ∧ posts.shouldQueue config guest = false) := by
  have h : posts.shouldQueue config poster = false := by
    unfold posts.shouldQueue
    rcases hrole with h | h | h <;> simp [h]
  exact ⟨h, fun _ => h, fun hc => by rw [h] at hc; exact absurd hc.1 (by decide)⟩

/-- C21 on the configuration of the test suite, queue on in the category and
globally with threshold 10: a student of reputation 0 is not queued while the
guest is, and with the queue off neither is. -/
theorem shouldQueue_role_bypass_witness :
    posts.shouldQueue ⟨true, true, 10⟩ ⟨⟨.student, false⟩, false, 0⟩ = false ∧
    posts.shouldQueue ⟨true, true, 10⟩ guest = true ∧
    posts.shouldQueue ⟨false, false, 10⟩ guest = false ∧
    posts.shouldQueue ⟨false, false, 10⟩ ⟨⟨.student, false⟩, false, 0⟩ = false :=
  ⟨(shouldQueue_role_bypass ⟨true, true, 10⟩ ⟨⟨.student, false⟩, false, 0⟩
      (Or.inl rfl)).1,
   by decide, by decide,
   (shouldQueue_role_bypass ⟨false, false, 10⟩ ⟨⟨.student, false⟩, false, 0⟩
      (Or.inl rfl)).2.1 (by decide)⟩

/-! ## The password change: the claim -/

/-- The writes at the end of `changePassword`, run from any state. -/
theorem changePassword_writes (target : JSVal) (fields : JSObject) (w : World) :
    (do
      User.setUserFields target fields
      Eff.emit (.resetCleanByUid target)
      Eff.emit (.resetUpdateExpiry target)
      Eff.emit (.revokeAllSessions target)
      Eff.emit (.expireValidation target)
      Eff.emit (.hook "action:password.change") : Eff Unit) w =
    (.ok (), { db := w.db.setObject ("user:" ++ target.toStr) fields,
               trace := w.trace ++ [.setUserFields target fields, .resetCleanByUid target,
                 .resetUpdateExpiry target, .revokeAllSessions target,
                 .expireValidation target, .hook "action:password.change"] }) := by
  simp only [bind, Eff.bind, User.setUserFields, Eff.write, Eff.emit, List.append_assoc,
    List.cons_append, List.nil_append]

/-- The state a successful `changePassword` leaves: the three fields written
on the target user, and the trace extended by the veto hook, the batched
write, the four clean-up writes and the notification hook. -/
theorem changePassword_run (env : Env) (uid : JSVal) (body : Option JSObject) (w : World) :
    User.changePassword env uid body w =
      if (JSNum.le (toNumber env uid) (.int 0) || body.isNone ||
          !((body.getD []).get "uid").truthy) = true then
        (.error (.error (.text "[[error:invalid-uid]]")), w)
      else
        match env.isPasswordValid ((body.getD []).get "newPassword") with
        | .error e => (.error e, w)
        | .ok _ =>
          if (env.config.passwordDisableEdit && !env.isAdministrator w.db uid) = true then
            (.error (.error (.text "[[error:no-privileges]]")), w)
          else if (!env.isAdministrator w.db uid &&
              !JSNum.strictEq (env.parseInt10 uid.toStr)
                (env.parseInt10 ((body.getD []).get "uid").toStr)) = true then
            (.error (.error (.text "[[user:change-password-error-privileges]]")), w)
          else
            match env.filterPasswordCheck ((body.getD []).get "newPassword")
                ((body.getD []).get "uid") with
            | .error e =>
              (.error e, { db := w.db, trace := w.trace ++ [.hook "filter:password.check"] })
            | .ok _ =>
              if (JSNum.strictEq (env.parseInt10 uid.toStr)
                    (env.parseInt10 ((body.getD []).get "uid").toStr) &&
                  env.hasPassword w.db uid &&
                  !env.isPasswordCorrect w.db ((body.getD []).get "uid")
                    ((body.getD []).get "currentPassword") ((body.getD []).get "ip")) = true then
                (.error (.error (.text "[[user:change-password-error-wrong-current]]")),
                  { db := w.db, trace := w.trace ++ [.hook "filter:password.check"] })
              else if (JSNum.strictEq (env.parseInt10 uid.toStr)
                    (env.parseInt10 ((body.getD []).get "uid").toStr) &&
                  env.hasPassword w.db uid &&
                  JSVal.strictEq ((body.getD []).get "currentPassword")
                    ((body.getD []).get "newPassword")) = true then
                (.error (.error (.text "[[user:change-password-error-same-password]]")),
                  { db := w.db, trace := w.trace ++ [.hook "filter:password.check"] })
              else
                (.ok (),
                  { db := w.db.setObject ("user:" ++ ((body.getD []).get "uid").toStr)
                      [("password", .str (env.hashPassword ((body.getD []).get "newPassword"))),
                       ("password:shaWrapped", .num (.int 1)),
                       ("rss_token", .str env.generateUUID)],
                    trace := w.trace ++
                      [.hook "filter:password.check",
                       .setUserFields ((body.getD []).get "uid")
                         [("password",
                            .str (env.hashPassword ((body.getD []).get "newPassword"))),
                          ("password:shaWrapped", .num (.int 1)),
                          ("rss_token", .str env.generateUUID)],
                       .resetCleanByUid ((body.getD []).get "uid"),
                       .resetUpdateExpiry ((body.getD []).get "uid"),
                       .revokeAllSessions ((body.getD []).get "uid"),
                       .expireValidation ((body.getD []).get "uid"),
                       .hook "action:password.change"] }) := by
  unfold User.changePassword
  by_cases h1 : (JSNum.le (toNumber env uid) (.int 0) || body.isNone ||
          !((body.getD []).get "uid").truthy) = true
  · simp only [h1, if_true]
    rfl
  · simp only [h1, Bool.false_eq_true, if_false]
    cases h2 : env.isPasswordValid ((body.getD []).get "newPassword") with
    | error e => rfl
    | ok u =>
      rw [Eff.bind_of_ok (Eff.ofExcept (.ok u)) _ w w u rfl]
      rw [Eff.bind_of_ok Eff.getDB _ w w w.db rfl]
      simp only []
      by_cases h3 : (env.config.passwordDisableEdit && !env.isAdministrator w.db uid) = true
      · simp only [h3, if_true]
        rfl
      · simp only [h3, Bool.false_eq_true, if_false]
        by_cases h4 : (!env.isAdministrator w.db uid &&
              !JSNum.strictEq (env.parseInt10 uid.toStr)
                (env.parseInt10 ((body.getD []).get "uid").toStr)) = true
        · simp only [h4, if_true]
          rfl
        · simp only [h4, Bool.false_eq_true, if_false]
          rw [Eff.bind_of_ok (Eff.emit (.hook "filter:password.check")) _ w
            { db := w.db, trace := w.trace ++ [.hook "filter:password.check"] } () rfl]
          cases h5 : env.filterPasswordCheck ((body.getD []).get "newPassword")
              ((body.getD []).get "uid") with
          | error e => rfl
          | ok u2 =>
            rw [Eff.bind_of_ok (Eff.ofExcept (.ok u2)) _ _ _ u2 rfl]
            simp only []
            cases h6 : (JSNum.strictEq (env.parseInt10 uid.toStr)
                (env.parseInt10 ((body.getD []).get "uid").toStr) && env.hasPassword w.db uid) with
            | false =>
              simp only [Bool.false_eq_true, if_false, Bool.false_and]
              rw [Eff.bind_of_ok (pure ()) _ _ _ () rfl, changePassword_writes]
              simp only [List.append_assoc, List.cons_append, List.nil_append]
            | true =>
              simp only [if_true, Bool.true_and]
              rw [Eff.bind_run, Eff.bind_run]
              simp only [Eff.getDB]
              cases h7 : env.isPasswordCorrect w.db ((body.getD []).get "uid")
                  ((body.getD []).get "currentPassword") ((body.getD []).get "ip") with
              | false =>
                simp only [Bool.not_false, if_true]
                rfl
              | true =>
                simp only [Bool.not_true, Bool.false_eq_true, if_false]
                cases h8 : JSVal.strictEq ((body.getD []).get "currentPassword")
                    ((body.getD []).get "newPassword") with
                | true =>
                  simp only [if_true]
                  rfl
                | false =>
                  simp only [Bool.false_eq_true, if_false]
                  show (do
                    User.setUserFields _ _
                    Eff.emit (.resetCleanByUid _)
                    Eff.emit (.resetUpdateExpiry _)
                    Eff.emit (.revokeAllSessions _)
                    Eff.emit (.expireValidation _)
                    Eff.emit (.hook "action:password.change") : Eff Unit) _ = _
                  rw [changePassword_writes]
                  simp only [List.append_assoc, List.cons_append, List.nil_append]


/-- C23, as stated, fails: user 1 of the sample store, who has the password
`secret1`, changes their own password (caller and target are the same id),
supplies a wrong current password and
the new password `abc`. The check of the current password fails, but the error
thrown is the one of `User.isPasswordValid`, which runs first, and not
`[[user:change-password-error-wrong-current]]`. -/
theorem changePassword_invalid_password_first :
    JSNum.strictEq (passwordEnv.parseInt10 (JSVal.num (.int 1)).toStr)
      (passwordEnv.parseInt10 (JSVal.num (.int 1)).toStr) = true ∧
    passwordEnv.hasPassword passwordDB (.num (.int 1)) = true ∧
    passwordEnv.isPasswordCorrect passwordDB (.num (.int 1)) (.str "wrong") .undefined = false ∧
    User.changePassword passwordEnv (.num (.int 1))
        (some [("uid", .num (.int 1)), ("currentPassword", .str "wrong"),
          ("newPassword", .str "abc")]) passwordWorld =
      (.error (.error (.text "[[reset_password:password-too-short]]")), passwordWorld) ∧
    User.changePassword passwordEnv (.num (.int 1))
        (some [("uid", .num (.int 1)), ("currentPassword", .str "wrong"),
          ("newPassword", .str "abc")]) passwordWorld ≠
      (.error (.error (.text "[[user:change-password-error-wrong-current]]")), passwordWorld) := by
  refine ⟨rfl, rfl, rfl, rfl, ?_⟩
  intro h
  have h2 : User.changePassword passwordEnv (.num (.int 1))
        (some [("uid", .num (.int 1)), ("currentPassword", .str "wrong"),
          ("newPassword", .str "abc")]) passwordWorld =
      (.error (.error (.text "[[reset_password:password-too-short]]")), passwordWorld) := rfl
  rw [h2] at h
  have h3 := congrArg Prod.fst h
  revert h3
  decide


/-- C23, amended: `changePassword(uid, data)` applies its checks in this
order, and the first one that fails decides the error: `uid <= 0`, a missing
body or a falsy `data.uid` give `[[error:invalid-uid]]`; a new password that
`User.isPasswordValid` rejects gives the error of that function; editing
disabled for a caller who is no administrator gives `[[error:no-privileges]]`;
a caller who is neither an administrator nor the target gives
`[[user:change-password-error-privileges]]`; a veto of the hook
`filter:password.check` gives the error of the hook; for a caller who is the
target and has a password, a wrong current password gives
`[[user:change-password-error-wrong-current]]` and a current password equal to
the new one gives `[[user:change-password-error-same-password]]`. When no
check fails the function succeeds and performs its writes: the hash, the flag
and a fresh token on the target user, then the reset clean-up, the session
revocation and the validation expiry. Whenever it fails, the store is left as
it was and no write is added to the trace; whenever it succeeds, every check
has passed. -/
theorem changePassword_first_failure_or_writes (env : Env) (uid : JSVal)
    (body : Option JSObject) (w : World) (data : JSObject)
    (isAdmin isSelf hasPassword correct same : Bool)
    (hdata : data = body.getD [])
    (hadmin : isAdmin = env.isAdministrator w.db uid)
    (hself : isSelf = JSNum.strictEq (env.parseInt10 uid.toStr)
      (env.parseInt10 (data.get "uid").toStr))
    (hhas : hasPassword = env.hasPassword w.db uid)
    (hcorrect : correct = env.isPasswordCorrect w.db (data.get "uid")
      (data.get "currentPassword") (data.get "ip"))
    (hsame : same = JSVal.strictEq (data.get "currentPassword") (data.get "newPassword")) :
    ((JSNum.le (toNumber env uid) (.int 0) = true ∨ body = none ∨
        (data.get "uid").truthy = false) →
      User.changePassword env uid body w =
        (.error (.error (.text "[[error:invalid-uid]]")), w)) ∧
    (JSNum.le (toNumber env uid) (.int 0) = false → body ≠ none →
      (data.get "uid").truthy = true →
      (∀ e, env.isPasswordValid (data.get "newPassword") = .error e →
        User.changePassword env uid body w = (.error e, w)) ∧
      (env.isPasswordValid (data.get "newPassword") = .ok () →
        (env.config.passwordDisableEdit = true → isAdmin = false →
          User.changePassword env uid body w =
            (.error (.error (.text "[[error:no-privileges]]")), w)) ∧
        ((env.config.passwordDisableEdit = false ∨ isAdmin = true) →
          (isAdmin = false → isSelf = false →
            User.changePassword env uid body w =
              (.error (.error (.text "[[user:change-password-error-privileges]]")), w)) ∧
          ((isAdmin = true ∨ isSelf = true) →
            (∀ e, env.filterPasswordCheck (data.get "newPassword") (data.get "uid") =
                .error e →
              User.changePassword env uid body w =
                (.error e,
                  { db := w.db, trace := w.trace ++ [.hook "filter:password.check"] })) ∧
            (env.filterPasswordCheck (data.get "newPassword") (data.get "uid") = .ok () →
              (isSelf = true → hasPassword = true → correct = false →
                User.changePassword env uid body w =
                  (.error (.error (.text "[[user:change-password-error-wrong-current]]")),
                    { db := w.db, trace := w.trace ++ [.hook "filter:password.check"] })) ∧
              (isSelf = true → hasPassword = true → correct = true → same = true →
                User.changePassword env uid body w =
                  (.error (.error (.text "[[user:change-password-error-same-password]]")),
                    { db := w.db, trace := w.trace ++ [.hook "filter:password.check"] })) ∧
              ((isSelf = false ∨ hasPassword = false ∨ (correct = true ∧ same = false)) →
                User.changePassword env uid body w =
                  (.ok (),
                    { db := w.db.setObject ("user:" ++ (data.get "uid").toStr)
                        [("password", .str (env.hashPassword (data.get "newPassword"))),
                         ("password:shaWrapped", .num (.int 1)),
                         ("rss_token", .str env.generateUUID)],
                      trace := w.trace ++
                        [.hook "filter:password.check",
                         .setUserFields (data.get "uid")
                           [("password", .str (env.hashPassword (data.get "newPassword"))),
                            ("password:shaWrapped", .num (.int 1)),
                            ("rss_token", .str env.generateUUID)],
                         .resetCleanByUid (data.get "uid"),
                         .resetUpdateExpiry (data.get "uid"),
                         .revokeAllSessions (data.get "uid"),
                         .expireValidation (data.get "uid"),
                         .hook "action:password.change"] }))))))) ∧
    (∀ e w', User.changePassword env uid body w = (.error e, w') →
      w'.db = w.db ∧ w'.trace.filter Event.isWrite = w.trace.filter Event.isWrite) ∧
    (∀ w', User.changePassword env uid body w = (.ok (), w') →
      JSNum.le (toNumber env uid) (.int 0) = false ∧ body ≠ none ∧
      (data.get "uid").truthy = true ∧
      env.isPasswordValid (data.get "newPassword") = .ok () ∧
      (env.config.passwordDisableEdit = true → isAdmin = true) ∧
      (isAdmin = true ∨ isSelf = true) ∧
      env.filterPasswordCheck (data.get "newPassword") (data.get "uid") = .ok () ∧
      (isSelf = true → hasPassword = true → correct = true ∧ same = false)) := by
  subst hdata
  rw [changePassword_run, ← hadmin, ← hself, ← hhas, ← hcorrect, ← hsame]
  refine ⟨?_, ?_, ?_, ?_⟩
  · intro hg
    have c : (JSNum.le (toNumber env uid) (.int 0) || body.isNone ||
        !((body.getD []).get "uid").truthy) = true := by
      rcases hg with h | h | h <;> simp [h]
    rw [if_pos c]
  · intro g1 g2 g3
    have c : ¬ (JSNum.le (toNumber env uid) (.int 0) || body.isNone ||
        !((body.getD []).get "uid").truthy) = true := by
      simp [g1, g3, Option.isNone_iff_eq_none, g2]
    rw [if_neg c]
    refine ⟨fun e he => by rw [he], fun hv => ?_⟩
    rw [hv]
    simp only []
    refine ⟨fun d a => by simp [d, a], fun hd => ?_⟩
    have c2 : ¬ (env.config.passwordDisableEdit && !isAdmin) = true := by
      rcases hd with h | h <;> simp [h]
    rw [if_neg c2]
    refine ⟨fun a s => by simp [a, s], fun hp => ?_⟩
    have c3 : ¬ (!isAdmin && !isSelf) = true := by
      rcases hp with h | h <;> simp [h]
    rw [if_neg c3]
    refine ⟨fun e he => by rw [he], fun hh => ?_⟩
    rw [hh]
    simp only []
    refine ⟨fun s p c => by simp [s, p, c], fun s p c sm => by simp [s, p, c, sm], fun h => ?_⟩
    rcases h with h | h | ⟨h, h'⟩ <;> simp [h]
    simp [h']
  · intro e w' h
    repeat' split at h
    all_goals cases h
    all_goals simp [Event.isWrite]
  · intro w' h
    repeat' split at h
    all_goals try cases h
    rename_i g _ _ hv c2 c3 _ _ hh c4 c5
    clear hadmin hself hhas hcorrect hsame
    simp only [Bool.or_eq_true, not_or, Bool.not_eq_true, Bool.not_eq_eq_eq_not, Bool.not_true,
      Bool.not_false, Option.isNone_iff_eq_none] at g
    refine ⟨g.1.1, ?_, ?_, hv, ?_, ?_, hh, ?_⟩
    · intro hb
      simp [hb] at g
    · simpa using g.2
    · intro hd
      cases isAdmin <;> simp_all
    · cases isAdmin <;> cases isSelf <;> simp_all
    · intro hs hp
      cases correct <;> cases same <;> simp_all


/-- C23, amended, on the sample store where user 1 has the password
`secret1`: changing it to `secret2` with the right current password succeeds
and stores the new hash; a wrong current password fails with
`[[user:change-password-error-wrong-current]]`; user 2, who is no
administrator, fails with `[[user:change-password-error-privileges]]` on user
1; and in both failures the store is left as it was. -/
theorem changePassword_first_failure_or_writes_witness :
    (∃ w', User.changePassword passwordEnv (.num (.int 1))
        (some [("uid", .num (.int 1)), ("currentPassword", .str "secret1"),
          ("newPassword", .str "secret2")]) passwordWorld = (.ok (), w') ∧
      (w'.db.getObject "user:1").get "password" = .str "hash(secret2)") ∧
    User.changePassword passwordEnv (.num (.int 1))
        (some [("uid", .num (.int 1)), ("currentPassword", .str "secret0"),
          ("newPassword", .str "secret2")]) passwordWorld =
      (.error (.error (.text "[[user:change-password-error-wrong-current]]")),
        { db := passwordDB, trace := [.hook "filter:password.check"] }) ∧
    User.changePassword passwordEnv (.num (.int 2))
        (some [("uid", .num (.int 1)), ("currentPassword", .str "secret1"),
          ("newPassword", .str "secret2")]) passwordWorld =
      (.error (.error (.text "[[user:change-password-error-privileges]]")), passwordWorld) :=
  by
  refine ⟨?_, ?_, ?_⟩
  · have h := changePassword_first_failure_or_writes passwordEnv (.num (.int 1))
      (some [("uid", .num (.int 1)), ("currentPassword", .str "secret1"),
        ("newPassword", .str "secret2")]) passwordWorld _ false true true true false
      rfl rfl rfl rfl rfl rfl
    have h1 := h.2.1 rfl (fun hb => Option.noConfusion hb) rfl
    have h2 := h1.2 rfl
    have h3 := h2.2 (Or.inl rfl)
    have h4 := h3.2 (Or.inr rfl)
    have h5 := h4.2 rfl
    exact ⟨_, h5.2.2 (Or.inr (Or.inr ⟨rfl, rfl⟩)), rfl⟩
  · have h := changePassword_first_failure_or_writes passwordEnv (.num (.int 1))
      (some [("uid", .num (.int 1)), ("currentPassword", .str "secret0"),
        ("newPassword", .str "secret2")]) passwordWorld _ false true true false false
      rfl rfl rfl rfl rfl rfl
    have h1 := h.2.1 rfl (fun hb => Option.noConfusion hb) rfl
    have h2 := h1.2 rfl
    have h3 := h2.2 (Or.inl rfl)
    have h4 := h3.2 (Or.inr rfl)
    have h5 := h4.2 rfl
    exact h5.1 rfl rfl rfl
  · have h := changePassword_first_failure_or_writes passwordEnv (.num (.int 2))
      (some [("uid", .num (.int 1)), ("currentPassword", .str "secret1"),
        ("newPassword", .str "secret2")]) passwordWorld _ false false false true false
      rfl rfl rfl rfl rfl rfl
    have h1 := h.2.1 rfl (fun hb => Option.noConfusion hb) rfl
    have h2 := h1.2 rfl
    have h3 := h2.2 (Or.inl rfl)
    exact h3.1 rfl rfl

/-! ## The batched write of `updateProfile`: the claim -/

theorem dropWhile_eq_self_of_head {α : Type} (p : α → Bool) (l : List α)
    (h : ∀ a, l.head? = some a → p a = false) : l.dropWhile p = l := by
  cases l with
  | nil => rfl
  | cons a rest =>
    have := h a rfl
    simp [List.dropWhile, this]

theorem dropWhile_head {α : Type} (p : α → Bool) (l : List α) :
    ∀ a, (l.dropWhile p).head? = some a → p a = false := by
  induction l with
  | nil => simp
  | cons b rest ih =>
    intro a
    by_cases hb : p b = true
    · simp only [List.dropWhile, hb]
      exact ih a
    · simp only [Bool.not_eq_true] at hb
      simp only [List.dropWhile, hb, List.head?_cons, Option.some.injEq]
      intro h
      rw [← h]
      exact hb

/-- Stripping the end of a list that does not start with a stripped element
leaves a list that does not start with one. -/
theorem head_of_stripped_end {α : Type} (p : α → Bool) (l : List α)
    (h : ∀ a, l.head? = some a → p a = false) :
    ∀ a, ((l.reverse.dropWhile p).reverse).head? = some a → p a = false := by
  intro a ha
  have hl : l = (l.reverse.dropWhile p).reverse ++ (l.reverse.takeWhile p).reverse := by
    rw [← List.reverse_append, List.takeWhile_append_dropWhile, List.reverse_reverse]
  cases hr : (l.reverse.dropWhile p).reverse with
  | nil => rw [hr] at ha; simp at ha
  | cons b rest =>
    rw [hr] at ha hl
    simp only [List.head?_cons, Option.some.injEq] at ha
    subst ha
    apply h
    rw [hl]
    rfl

/-- Trimming a trimmed string changes nothing. -/
theorem jsTrim_idem (s : String) : jsTrim (jsTrim s) = jsTrim s := by
  unfold jsTrim
  simp only
  have h1 := dropWhile_head isJSWhitespace s.data
  have h2 := head_of_stripped_end isJSWhitespace _ h1
  rw [dropWhile_eq_self_of_head isJSWhitespace _ h2, List.reverse_reverse,
    dropWhile_eq_self_of_head isJSWhitespace _ (dropWhile_head isJSWhitespace _)]


theorem JSObject.keys_set (l : JSObject) (k : String) (v : JSVal) :
    (l.set k v).map Prod.fst =
      if k ∈ l.map Prod.fst then l.map Prod.fst else l.map Prod.fst ++ [k] := by
  induction l with
  | nil => simp [JSObject.set]
  | cons p rest ih =>
    obtain ⟨k0, v0⟩ := p
    by_cases h0 : k0 = k
    · subst h0
      simp [JSObject.set]
    · have h1 : ¬ k = k0 := fun h => h0 h.symm
      simp only [JSObject.set, h0, if_false, List.map_cons, ih, List.mem_cons, h1, false_or]
      split <;> simp

theorem JSObject.nodup_set (l : JSObject) (k : String) (v : JSVal)
    (h : (l.map Prod.fst).Nodup) : ((l.set k v).map Prod.fst).Nodup := by
  rw [JSObject.keys_set]
  split
  · exact h
  · rename_i hk
    exact List.Nodup.append h (List.nodup_singleton k) (by simpa using hk)

theorem JSObject.mem_set (l : JSObject) (k : String) (v : JSVal)
    (h : (l.map Prod.fst).Nodup) (k' : String) (v' : JSVal) :
    (k', v') ∈ l.set k v ↔ (k' = k ∧ v' = v) ∨ (k' ≠ k ∧ (k', v') ∈ l) := by
  induction l with
  | nil =>
    simp [JSObject.set]
  | cons p rest ih =>
    obtain ⟨k0, v0⟩ := p
    simp only [List.map_cons, List.nodup_cons] at h
    by_cases h0 : k0 = k
    · subst h0
      simp only [JSObject.set, if_true, List.mem_cons, Prod.mk.injEq]
      constructor
      · rintro (⟨a, b⟩ | hm)
        · exact Or.inl ⟨a, b⟩
        · right
          refine ⟨?_, Or.inr hm⟩
          intro hk
          subst hk
          exact h.1 (List.mem_map_of_mem Prod.fst hm)
      · rintro (⟨a, b⟩ | ⟨a, (⟨b, _⟩ | hm)⟩)
        · exact Or.inl ⟨a, b⟩
        · exact absurd b a
        · exact Or.inr hm
    · simp only [JSObject.set, h0, if_false, List.mem_cons, Prod.mk.injEq, ih h.2]
      constructor
      · rintro (⟨a, b⟩ | hm)
        · right
          exact ⟨by rw [a]; exact h0, Or.inl ⟨a, b⟩⟩
        · rcases hm with hm | ⟨a, hm⟩
          · exact Or.inl hm
          · exact Or.inr ⟨a, Or.inr hm⟩
      · rintro (hm | ⟨a, (⟨b, c⟩ | hm)⟩)
        · exact Or.inr (Or.inl hm)
        · exact Or.inl ⟨b, c⟩
        · exact Or.inr (Or.inr ⟨a, hm⟩)

/-- A sequence that settles with a value: its first part settled with a value
and the second part ran from the state the first part left. -/
theorem Eff.bind_ok_inv {α β : Type} (x : Eff α) (f : α → Eff β) (w w' : World) (b : β)
    (h : (x >>= f) w = (.ok b, w')) :
    ∃ a w1, x w = (.ok a, w1) ∧ f a w1 = (.ok b, w') := by
  rw [Eff.bind_run] at h
  cases hx : x w with
  | mk r w1 =>
    rw [hx] at h
    cases r with
    | ok a => exact ⟨a, w1, rfl, h⟩
    | error e => cases h


theorem Eff.both_ok_inv {β : Type} (x : Eff Unit) (y : Eff β) (w w' : World) (b : β)
    (h : Eff.both x y w = (.ok b, w')) :
    ∃ w1, x w = (.ok (), w1) ∧ y w1 = (.ok b, w') := by
  unfold Eff.both at h
  cases hx : x w with
  | mk r w1 =>
    rw [hx] at h
    cases r with
    | ok a => exact ⟨w1, rfl, h⟩
    | error e => cases h

theorem JSObject.hasOwn_set (o : JSObject) (k k' : String) (v : JSVal) :
    (o.set k v).hasOwn k' = (o.hasOwn k' || k == k') := by
  induction o with
  | nil => simp [JSObject.set, JSObject.hasOwn]
  | cons p rest ih =>
    obtain ⟨k0, v0⟩ := p
    by_cases h0 : k0 = k
    · subst h0
      simp only [JSObject.set, if_true, JSObject.hasOwn, List.any_cons]
      cases (k0 == k') <;> simp
    · simp only [JSObject.hasOwn] at ih
      simp only [JSObject.set, h0, if_false, JSObject.hasOwn, List.any_cons, ih,
        Bool.or_assoc]

theorem JSObject.read_set_eq (o : JSObject) (k : String) (v : JSVal) :
    (o.set k v).read k = v := by
  simp [JSObject.read, JSObject.hasOwn_set, JSObject.get_set_eq]

theorem JSObject.read_set_ne (o : JSObject) (k k' : String) (v : JSVal) (h : k ≠ k') :
    (o.set k v).read k' = o.read k' := by
  have hb : (k == k') = false := by simpa using h
  simp [JSObject.read, JSObject.hasOwn_set, hb, JSObject.get_set_ne _ _ _ _ h]


/-- The object `updateData` a settled loop of `updateProfile` has collected:
its keys are distinct, and it holds the trimmed string of every field of the
list other than `email`, `username` and `fullname` whose value is a string,
and of what it held before the other keys only. -/
theorem updateFieldsLoop_updateData (env : Env) (uid updateUid : JSVal) :
    ∀ (fields : List String) (data upd : JSObject) (w w' : World) (d' upd' : JSObject),
      updateFieldsLoop env uid updateUid fields data upd w = (.ok (d', upd'), w') →
      (upd.map Prod.fst).Nodup →
      (upd'.map Prod.fst).Nodup ∧
      ∀ k v, (k, v) ∈ upd' ↔
        ((k ∈ fields ∧ k ≠ "email" ∧ k ≠ "username" ∧ k ≠ "fullname" ∧
            ∃ s, data.read k = .str s ∧ v = .str (jsTrim s)) ∨
          ((k, v) ∈ upd ∧
            ¬ (k ∈ fields ∧ k ≠ "email" ∧ k ≠ "username" ∧ k ≠ "fullname" ∧
              ∃ s, data.read k = .str s))) := by
  intro fields
  induction fields with
  | nil =>
    intro data upd w w' d' upd' h hn
    simp only [updateFieldsLoop] at h
    cases h
    exact ⟨hn, fun k v => by simp⟩
  | cons f rest ih =>
    intro data upd w w' d' upd' h hn
    cases hf : data.read f with
    | str s =>
      simp only [updateFieldsLoop, hf] at h
      by_cases h1 : f = "email"
      · simp only [h1, if_true] at h
        obtain ⟨w1, _, h2⟩ := Eff.both_ok_inv _ _ _ _ _ h
        obtain ⟨hn', hiff⟩ := ih _ _ _ _ _ _ h2 hn
        refine ⟨hn', fun k v => ?_⟩
        rw [hiff k v]
        by_cases hk : k = f
        · subst hk
          simp [h1]
        · have hk' : ¬ f = k := fun h => hk h.symm
          rw [← h1]
          simp [hk, JSObject.read_set_ne _ _ _ _ hk']
      · simp only [h1, if_false] at h
        by_cases h2 : f = "username"
        · simp only [h2, if_true] at h
          obtain ⟨w1, _, h9⟩ := Eff.both_ok_inv _ _ _ _ _ h
          obtain ⟨hn', hiff⟩ := ih _ _ _ _ _ _ h9 hn
          refine ⟨hn', fun k v => ?_⟩
          rw [hiff k v]
          by_cases hk : k = f
          · subst hk
            simp [h2]
          · have hk' : ¬ f = k := fun h => hk h.symm
            rw [← h2]
            simp [hk, JSObject.read_set_ne _ _ _ _ hk']
        · simp only [h2, if_false] at h
          by_cases h3 : f = "fullname"
          · simp only [h3, if_true] at h
            obtain ⟨w1, _, h9⟩ := Eff.both_ok_inv _ _ _ _ _ h
            obtain ⟨hn', hiff⟩ := ih _ _ _ _ _ _ h9 hn
            refine ⟨hn', fun k v => ?_⟩
            rw [hiff k v]
            by_cases hk : k = f
            · subst hk
              simp [h3]
            · have hk' : ¬ f = k := fun h => hk h.symm
              rw [← h3]
              simp [hk, JSObject.read_set_ne _ _ _ _ hk']
          · simp only [h3, if_false] at h
            obtain ⟨hn', hiff⟩ := ih _ _ _ _ _ _ h (JSObject.nodup_set _ _ _ hn)
            refine ⟨hn', fun k v => ?_⟩
            rw [hiff k v]
            by_cases hk : k = f
            · subst hk
              by_cases hr : k ∈ rest
              · simp [hr, h1, h2, h3, hf, JSObject.read_set_eq, jsTrim_idem]
              · simp [hr, h1, h2, h3, hf, JSObject.mem_set _ _ _ hn]
            · have hk' : ¬ f = k := fun h => hk h.symm
              simp [hk, JSObject.read_set_ne _ _ _ _ hk', JSObject.mem_set _ _ _ hn]
    | _ =>
      simp only [updateFieldsLoop, hf] at h
      obtain ⟨hn', hiff⟩ := ih _ _ _ _ _ _ h hn
      refine ⟨hn', fun k v => ?_⟩
      rw [hiff k v]
      by_cases hk : k = f
      · subst hk
        simp [hf]
      · simp [hk]


theorem Eff.noBatch_pure {α : Type} (a : α) : Eff.NoBatchedWrite (Pure.pure a : Eff α) :=
  fun _ => rfl

theorem Eff.noBatch_throw {α : Type} (e : JSError) :
    Eff.NoBatchedWrite (Eff.throw e : Eff α) :=
  fun _ => rfl

theorem Eff.noBatch_ofExcept {α : Type} (x : Except JSError α) :
    Eff.NoBatchedWrite (Eff.ofExcept x) := by
  cases x <;> exact fun _ => rfl

theorem Eff.noBatch_getDB : Eff.NoBatchedWrite Eff.getDB :=
  fun _ => rfl

theorem Eff.noBatch_emit (ev : Event) (h : ev.isSetUserFields = false) :
    Eff.NoBatchedWrite (Eff.emit ev) := by
  intro w
  simp [Eff.emit, List.filter_append, h]

theorem Eff.noBatch_write (ev : Event) (f : DB → DB) (h : ev.isSetUserFields = false) :
    Eff.NoBatchedWrite (Eff.write ev f) := by
  intro w
  simp [Eff.write, List.filter_append, h]

theorem Eff.noBatch_bind {α β : Type} (x : Eff α) (f : α → Eff β)
    (hx : Eff.NoBatchedWrite x) (hf : ∀ a, Eff.NoBatchedWrite (f a)) :
    Eff.NoBatchedWrite (x >>= f) := by
  intro w
  rw [Eff.bind_run]
  have h1 := hx w
  cases hxw : x w with
  | mk r w1 =>
    rw [hxw] at h1
    cases r with
    | ok a =>
      simp only []
      rw [hf a w1]
      exact h1
    | error e => exact h1

theorem Eff.noBatch_both {β : Type} (x : Eff Unit) (y : Eff β)
    (hx : Eff.NoBatchedWrite x) (hy : Eff.NoBatchedWrite y) :
    Eff.NoBatchedWrite (Eff.both x y) := by
  intro w
  unfold Eff.both
  have h1 := hx w
  cases hxw : x w with
  | mk r w1 =>
    rw [hxw] at h1
    cases r with
    | ok a =>
      simp only []
      rw [hy w1]
      exact h1
    | error e =>
      simp only []
      rw [hy w1]
      exact h1

/-- A function that only reads performs no batched write. -/
theorem Eff.ReadOnly.noBatch {α : Type} {x : Eff α} (h : Eff.ReadOnly x) :
    Eff.NoBatchedWrite x := by
  obtain ⟨r, ev, hev, hrun⟩ := h
  intro w
  rw [hrun w]
  simp only [List.filter_append]
  have : (ev w.db).filter Event.isSetUserFields = [] := by
    rw [List.filter_eq_nil_iff]
    intro e he
    have := hev _ e he
    cases e <;> simp_all [Event.isWrite, Event.isSetUserFields]
  rw [this, List.append_nil]

theorem db.sortedSetRemove_noBatch (key : String) (value : JSVal) :
    Eff.NoBatchedWrite (db.sortedSetRemove key value) := by
  unfold db.sortedSetRemove
  split
  · exact Eff.noBatch_pure _
  · exact Eff.noBatch_write _ _ rfl

theorem db.sortedSetAdd_noBatch (env : Env) (key : String) (score : JSVal) (value : String) :
    Eff.NoBatchedWrite (db.sortedSetAdd env key score value) := by
  unfold db.sortedSetAdd
  split
  · exact Eff.noBatch_throw _
  · exact Eff.noBatch_write _ _ rfl

theorem updateUidMapping_noBatch (env : Env) (field : String) (uid : JSVal) (value : String)
    (oldValue : JSVal) : Eff.NoBatchedWrite (updateUidMapping env field uid value oldValue) := by
  unfold updateUidMapping
  repeat' first
    | exact Eff.noBatch_pure _
    | exact db.sortedSetRemove_noBatch _ _
    | exact db.sortedSetAdd_noBatch _ _ _ _
    | exact Eff.noBatch_write _ _ rfl
    | refine Eff.noBatch_bind _ _ ?_ (fun _ => ?_)
    | split

theorem updateUsername_noBatch (env : Env) (uid : JSVal) (newUsername : String)
    (callerUid : JSVal) : Eff.NoBatchedWrite (updateUsername env uid newUsername callerUid) := by
  unfold updateUsername
  try dsimp only
  repeat' first
    | exact Eff.noBatch_pure _
    | exact Eff.noBatch_ofExcept _
    | exact (db.getObjectFields_readOnly _ _).noBatch
    | exact updateUidMapping_noBatch _ _ _ _ _
    | exact db.sortedSetRemove_noBatch _ _
    | exact db.sortedSetAdd_noBatch _ _ _ _
    | refine Eff.noBatch_bind _ _ ?_ (fun _ => ?_)
    | split

theorem updateFullname_noBatch (env : Env) (uid : JSVal) (newFullname : String) :
    Eff.NoBatchedWrite (updateFullname env uid newFullname) := by
  unfold updateFullname
  try dsimp only
  repeat' first
    | exact Eff.noBatch_pure _
    | exact Eff.noBatch_ofExcept _
    | exact (db.getObjectField_readOnly _ _).noBatch
    | exact updateUidMapping_noBatch _ _ _ _ _
    | exact db.sortedSetRemove_noBatch _ _
    | exact db.sortedSetAdd_noBatch _ _ _ _
    | refine Eff.noBatch_bind _ _ ?_ (fun _ => ?_)
    | split

theorem updateEmail_noBatch (env : Env) (uid : JSVal) (newEmail : String) :
    Eff.NoBatchedWrite (updateEmail env uid newEmail) := by
  intro w
  obtain ⟨actions, h, hall, _⟩ := updateEmail_actions env uid newEmail w
  rw [h]
  simp only [List.filter_append]
  have : actions.filter Event.isSetUserFields = [] := by
    rw [List.filter_eq_nil_iff]
    intro e he
    have := List.all_eq_true.mp hall e he
    cases e <;> simp_all [Event.isWrite, Event.isSetUserFields]
  rw [this, List.append_nil]

/-- The loop of `updateProfile` performs no batched write. -/
theorem updateFieldsLoop_noBatch (env : Env) (uid updateUid : JSVal) :
    ∀ (fields : List String) (data upd : JSObject),
      Eff.NoBatchedWrite (updateFieldsLoop env uid updateUid fields data upd) := by
  intro fields
  induction fields with
  | nil =>
    intro data upd
    exact Eff.noBatch_pure _
  | cons f rest ih =>
    intro data upd
    unfold updateFieldsLoop
    split
    · try dsimp only
      repeat' first
        | exact ih _ _
        | exact updateEmail_noBatch _ _ _
        | exact updateUsername_noBatch _ _ _ _
        | exact updateFullname_noBatch _ _ _
        | refine Eff.noBatch_both _ _ ?_ ?_
        | split
    · exact ih _ _


theorem mem_eraseDups_loop (l acc : List String) (k : String) :
    k ∈ List.eraseDups.loop l acc ↔ k ∈ l ∨ k ∈ acc := by
  induction l generalizing acc with
  | nil => simp [List.eraseDups.loop]
  | cons a rest ih =>
    unfold List.eraseDups.loop
    cases h : acc.elem a with
    | true =>
      simp only []
      rw [ih]
      have ha : a ∈ acc := by simpa using h
      constructor
      · rintro (h1 | h1)
        · exact Or.inl (List.mem_cons_of_mem _ h1)
        · exact Or.inr h1
      · rintro (h1 | h1)
        · rcases List.mem_cons.mp h1 with h2 | h2
          · exact Or.inr (h2 ▸ ha)
          · exact Or.inl h2
        · exact Or.inr h1
    | false =>
      simp only []
      rw [ih]
      simp only [List.mem_cons]
      tauto

/-- The field list given to the hook of `updateProfile`: its members are the
seven built-in fields, the custom field keys and, when `extraFields` is an
array, its elements. -/
theorem mem_profileFields (custom : List String) (extraFields : Option (List String))
    (k : String) :
    k ∈ profileFields custom extraFields ↔
      (k ∈ ["username", "email", "fullname", "groupTitle", "birthday", "signature", "aboutme"] ∨
        k ∈ custom ∨ ∃ extra, extraFields = some extra ∧ k ∈ extra) := by
  cases extraFields with
  | none =>
    simp only [profileFields, builtinFields, List.mem_append]
    constructor
    · rintro (h | h)
      · exact Or.inl h
      · exact Or.inr (Or.inl h)
    · rintro (h | h | ⟨_, h, _⟩)
      · exact Or.inl h
      · exact Or.inr h
      · cases h
  | some extra =>
    simp only [profileFields, builtinFields, List.eraseDups, mem_eraseDups_loop,
      List.mem_append, Option.some.injEq, exists_eq_left', List.not_mem_nil, or_false,
      or_assoc]


theorem isEmailValid_shape (env : Env) (data data1 : JSObject)
    (h : isEmailValid env data = .ok data1) :
    data1 = data ∨ ∃ v, data1 = data.set "email" v := by
  unfold isEmailValid at h
  split at h
  · cases h
    exact Or.inl rfl
  · cases hv : data.get "email" with
    | str s =>
      simp only [hv] at h
      split at h
      · cases h
      · cases h
        exact Or.inr ⟨_, rfl⟩
    | _ => simp [hv] at h

theorem isUsernameAvailable_shape (env : Env) (data data2 : JSObject) (uid : JSVal)
    (w w' : World) (h : isUsernameAvailable env data uid w = (.ok data2, w')) :
    data2 = data ∨ ∃ v, data2 = data.set "username" v := by
  unfold isUsernameAvailable at h
  by_cases hc : (!(data.get "username").truthy) = true
  · simp only [hc, if_true] at h
    cases h
    exact Or.inl rfl
  · simp only [hc] at h
    cases hv : data.get "username" with
    | str s =>
      simp only [hv, Bool.false_eq_true, if_false] at h
      obtain ⟨_, w1, _, h2⟩ := Eff.bind_ok_inv _ _ _ _ _ h
      cases h2
      exact Or.inr ⟨_, rfl⟩
    | _ =>
      simp only [hv, Bool.false_eq_true, if_false] at h
      cases h

/-- What `isGroupTitleValid` returns when it succeeds: the data with
`groupTitle` replaced by the text of the first title when the value is the JSON
text of an array of several titles and multiple badges are not allowed, and the
data as they were otherwise. -/
theorem isGroupTitleValid_shape (env : Env) (data data3 : JSObject)
    (h : isGroupTitleValid env data = .ok data3) :
    (data3 = data ∧
      ¬ ∃ s titles, data.get "groupTitle" = .str s ∧ s ≠ "" ∧ env.isJSON s = true ∧
        env.jsonParse s = some (.arr titles) ∧ env.config.allowMultipleBadges = false ∧
        1 < titles.length) ∨
    (∃ s titles, data.get "groupTitle" = .str s ∧ s ≠ "" ∧ env.isJSON s = true ∧
        env.jsonParse s = some (.arr titles) ∧ env.config.allowMultipleBadges = false ∧
        1 < titles.length ∧
        data3 = data.set "groupTitle" (.str (env.jsonStringify (titles.headD .undefined)))) := by
  unfold isGroupTitleValid at h
  by_cases hc : (!(data.get "groupTitle").truthy) = true
  · simp only [hc, if_true] at h
    cases h
    refine Or.inl ⟨rfl, ?_⟩
    rintro ⟨s, titles, hs, hne, _⟩
    rw [hs] at hc
    simp [JSVal.truthy, hne] at hc
  · simp only [hc, Bool.false_eq_true, if_false] at h
    cases hv : data.get "groupTitle" with
    | str s =>
      have hne : s ≠ "" := by
        rw [hv] at hc
        simpa [JSVal.truthy] using hc
      simp only [hv] at h
      by_cases hj : env.isJSON s = true
      · simp only [hj, if_true] at h
        cases hp : env.jsonParse s with
        | none => simp [hp] at h
        | some parsed =>
          cases parsed with
          | arr titles =>
            simp only [hp] at h
            cases hct : checkTitles env titles with
            | error e => simp [hct] at h
            | ok u =>
              simp only [hct] at h
              by_cases hm : (!env.config.allowMultipleBadges && decide (titles.length > 1)) = true
              · simp only [hm, if_true] at h
                cases h
                simp only [Bool.and_eq_true, Bool.not_eq_true', decide_eq_true_eq] at hm
                exact Or.inr ⟨s, titles, rfl, hne, hj, hp, hm.1, hm.2, rfl⟩
              · simp only [hm, Bool.false_eq_true, if_false] at h
                cases h
                refine Or.inl ⟨rfl, ?_⟩
                rintro ⟨s', titles', hs', _, _, hp', ha, hl⟩
                cases hs'
                rw [hp] at hp'
                cases hp'
                apply hm
                simp [ha, hl]
          | _ =>
            simp [hp] at h
      · simp only [hj, Bool.false_eq_true, if_false] at h
        cases hct : checkTitle env (.str s) with
        | error e => simp [hct] at h
        | ok u =>
          simp only [hct] at h
          cases h
          refine Or.inl ⟨rfl, ?_⟩
          rintro ⟨s', titles', hs', _, hj', _⟩
          cases hs'
          exact hj hj'
    | _ => simp [hv] at h


theorem Eff.ofExcept_ok_inv {α : Type} (x : Except JSError α) (w w' : World) (a : α)
    (h : Eff.ofExcept x w = (.ok a, w')) : x = .ok a := by
  cases x with
  | ok b =>
    cases h
    rfl
  | error e => cases h

/-- The data a settled `validateData` returns, read key by key: the value
submitted for every key other than `email`, `username` and `groupTitle`; for
`groupTitle` the text of the first title when the value is the JSON text of an
array of several titles and multiple badges are not allowed, and the value
submitted otherwise. -/
theorem validateData_settled (env : Env) (callerUid : JSVal) (data validated : JSObject)
    (w w2 : World) (h : validateData env callerUid data w = (.ok validated, w2)) :
    (∀ k, k ≠ "email" → k ≠ "username" → k ≠ "groupTitle" →
      validated.read k = data.read k) ∧
    (∀ s titles, data.read "groupTitle" = .str s → s ≠ "" → env.isJSON s = true →
      env.jsonParse s = some (.arr titles) → env.config.allowMultipleBadges = false →
      1 < titles.length →
      validated.read "groupTitle" = .str (env.jsonStringify (titles.headD .undefined))) ∧
    ((¬ ∃ s titles, data.read "groupTitle" = .str s ∧ s ≠ "" ∧ env.isJSON s = true ∧
        env.jsonParse s = some (.arr titles) ∧ env.config.allowMultipleBadges = false ∧
        1 < titles.length) →
      validated.read "groupTitle" = data.read "groupTitle") := by
  unfold validateData at h
  obtain ⟨d1, wa, h1, h⟩ := Eff.bind_ok_inv _ _ _ _ _ h
  obtain ⟨d2, wb, h2, h⟩ := Eff.bind_ok_inv _ _ _ _ _ h
  obtain ⟨_, wc, _, h⟩ := Eff.bind_ok_inv _ _ _ _ _ h
  obtain ⟨_, wd, _, h⟩ := Eff.bind_ok_inv _ _ _ _ _ h
  obtain ⟨_, we, _, h⟩ := Eff.bind_ok_inv _ _ _ _ _ h
  obtain ⟨_, wf, _, h⟩ := Eff.bind_ok_inv _ _ _ _ _ h
  obtain ⟨d3, wg, h3, h⟩ := Eff.bind_ok_inv _ _ _ _ _ h
  obtain ⟨_, wh, _, h⟩ := Eff.bind_ok_inv _ _ _ _ _ h
  cases h
  have s1 := isEmailValid_shape env data d1 (Eff.ofExcept_ok_inv _ _ _ _ h1)
  have s2 := isUsernameAvailable_shape env d1 d2 _ _ _ h2
  have s3 := isGroupTitleValid_shape env d2 validated (Eff.ofExcept_ok_inv _ _ _ _ h3)
  have r1 : ∀ k, k ≠ "email" → d1.read k = data.read k := by
    intro k hk
    rcases s1 with rfl | ⟨v, rfl⟩
    · rfl
    · exact JSObject.read_set_ne _ _ _ _ (Ne.symm hk)
  have r2 : ∀ k, k ≠ "username" → d2.read k = d1.read k := by
    intro k hk
    rcases s2 with rfl | ⟨v, rfl⟩
    · rfl
    · exact JSObject.read_set_ne _ _ _ _ (Ne.symm hk)
  have hg : d2.get "groupTitle" = data.read "groupTitle" := by
    rw [← JSObject.read_eq_get d2 "groupTitle" rfl, r2 _ (by decide), r1 _ (by decide)]
  rw [hg] at s3
  refine ⟨?_, ?_, ?_⟩
  · intro k ke ku kg
    rw [← r1 k ke, ← r2 k ku]
    rcases s3 with ⟨rfl, _⟩ | ⟨_, _, _, _, _, _, _, _, rfl⟩
    · rfl
    · exact JSObject.read_set_ne _ _ _ _ (Ne.symm kg)
  · intro s titles hs hne hj hp ha hl
    rcases s3 with ⟨_, hno⟩ | ⟨s', titles', hs', _, _, hp', _, _, rfl⟩
    · exact absurd ⟨s, titles, hs, hne, hj, hp, ha, hl⟩ hno
    · rw [hs] at hs'
      cases hs'
      rw [hp] at hp'
      cases hp'
      exact JSObject.read_set_eq _ _ _
  · intro hno
    rcases s3 with ⟨rfl, _⟩ | ⟨s', titles', hs', hne', hj', hp', ha', hl', _⟩
    · rw [JSObject.read_eq_get _ "groupTitle" rfl]
      exact hg
    · exact absurd ⟨s', titles', hs', hne', hj', hp', ha', hl'⟩ hno


/-- The end of `updateProfile` after the loop: the batched write when
`updateData` is not empty, the two notifications and the read of the result. -/
theorem updateProfile_run (env : Env) (uid : JSVal) (data : JSObject)
    (extraFields : Option (List String)) (w w2 w3 : World)
    (hooked validated final updateData : JSObject) (fields : List String)
    (huid : (data.get "uid").truthy = true)
    (hhook : env.filterUpdateProfile uid data
      (profileFields (w.db.getSortedSetRange "user-custom-fields") extraFields) =
        .ok (hooked, fields))
    (hvalid : validateData env uid hooked
      { db := w.db, trace := w.trace ++ [.hook "filter:user.updateProfile"] } =
        (.ok validated, w2))
    (hloop : updateFieldsLoop env uid (data.get "uid") fields validated [] w2 =
      (.ok (final, updateData), w3)) :
    ∃ result, User.updateProfile env uid data extraFields w =
      (.ok result,
        { db := if updateData.isEmpty then w3.db
            else w3.db.setObject ("user:" ++ (data.get "uid").toStr) updateData,
          trace := w3.trace ++
            ((if updateData.isEmpty then []
              else [Event.setUserFields (data.get "uid") updateData]) ++
            [.hook "action:user.updateProfile",
             .activitypubProfile uid (data.get "uid")]) }) := by
  unfold User.updateProfile
  rw [Eff.bind_of_ok (db.getSortedSetRange "user-custom-fields") _ w w _ rfl]
  simp only [huid, Bool.not_true, Bool.false_eq_true, if_false]
  rw [Eff.bind_of_ok (Eff.emit (.hook "filter:user.updateProfile")) _ w _ () rfl]
  rw [hhook]
  rw [Eff.bind_of_ok (Eff.ofExcept (.ok (hooked, fields))) _ _ _ _ rfl]
  simp only []
  rw [Eff.bind_of_ok (validateData env uid hooked) _ _ _ _ hvalid]
  rw [Eff.bind_of_ok (User.getUserFields (data.get "uid") fields) _ w2 w2 _ rfl]
  rw [Eff.bind_of_ok (updateFieldsLoop env uid (data.get "uid") fields validated []) _ _ _ _
    hloop]
  simp only []
  cases updateData with
  | nil =>
    simp only [List.length_nil, gt_iff_lt, lt_self_iff_false, if_false, List.isEmpty_nil,
      if_true, List.nil_append]
    simp only [bind, Eff.bind, pure, Eff.pure, Eff.emit, User.getUserFields,
      db.getObjectFields, Eff.getDB, List.append_assoc, List.cons_append, List.nil_append]
    exact ⟨_, rfl⟩
  | cons p rest =>
    simp only [List.length_cons, gt_iff_lt, Nat.zero_lt_succ, if_true, List.isEmpty_cons,
      Bool.false_eq_true, if_false]
    simp only [bind, Eff.bind, pure, Eff.pure, Eff.emit, User.getUserFields,
      db.getObjectFields, Eff.getDB, User.setUserFields, Eff.write, List.append_assoc,
      List.cons_append, List.nil_append]
    exact ⟨_, rfl⟩

/-- A run of `updateProfile` whose hook, validation and loop settle: what the
loop has collected, and the state the run leaves. -/
theorem updateProfile_settled_loop (env : Env) (uid : JSVal) (data : JSObject)
    (extraFields : Option (List String)) (w w2 w3 : World)
    (hooked validated final updateData : JSObject) (fields : List String)
    (huid : (data.get "uid").truthy = true)
    (hhook : env.filterUpdateProfile uid data
      (profileFields (w.db.getSortedSetRange "user-custom-fields") extraFields) =
        .ok (hooked, fields))
    (hvalid : validateData env uid hooked
      { db := w.db, trace := w.trace ++ [.hook "filter:user.updateProfile"] } =
        (.ok validated, w2))
    (hloop : updateFieldsLoop env uid (data.get "uid") fields validated [] w2 =
      (.ok (final, updateData), w3)) :
    (∀ k v, (k, v) ∈ updateData ↔
      (k ∈ fields ∧ k ≠ "email" ∧ k ≠ "username" ∧ k ≠ "fullname" ∧
        ∃ s, validated.read k = .str s ∧ v = .str (jsTrim s))) ∧
    (updateData.map Prod.fst).Nodup ∧
    (updateData = [] ↔
      ¬ ∃ k, k ∈ fields ∧ k ≠ "email" ∧ k ≠ "username" ∧ k ≠ "fullname" ∧
        ∃ s, validated.read k = .str s) ∧
    (∃ result, User.updateProfile env uid data extraFields w =
      (.ok result,
        { db := if updateData.isEmpty then w3.db
            else w3.db.setObject ("user:" ++ (data.get "uid").toStr) updateData,
          trace := w3.trace ++
            ((if updateData.isEmpty then []
              else [Event.setUserFields (data.get "uid") updateData]) ++
            [.hook "action:user.updateProfile",
             .activitypubProfile uid (data.get "uid")]) })) ∧
    w3.trace.filter Event.isSetUserFields = w.trace.filter Event.isSetUserFields ∧
    (∀ k v, k ∉ fields → (k, v) ∉ updateData) ∧
    (∀ k v, (∀ s, validated.read k ≠ .str s) → (k, v) ∉ updateData) := by
  obtain ⟨hn, hiff⟩ := updateFieldsLoop_updateData env uid (data.get "uid") fields validated []
    w2 w3 final updateData hloop (by simp)
  have hmem : ∀ k v, (k, v) ∈ updateData ↔
      (k ∈ fields ∧ k ≠ "email" ∧ k ≠ "username" ∧ k ≠ "fullname" ∧
        ∃ s, validated.read k = .str s ∧ v = .str (jsTrim s)) := by
    intro k v
    rw [hiff k v]
    simp
  refine ⟨hmem, hn, ?_, updateProfile_run env uid data extraFields w w2 w3 hooked validated
    final updateData fields huid hhook hvalid hloop, ?_, ?_, ?_⟩
  · constructor
    · intro he
      rintro ⟨k, h1, h2, h3, h4, s, h5⟩
      have := (hmem k (.str (jsTrim s))).mpr ⟨h1, h2, h3, h4, s, h5, rfl⟩
      rw [he] at this
      simp at this
    · intro hno
      cases hu : updateData with
      | nil => rfl
      | cons p rest =>
        exfalso
        apply hno
        obtain ⟨k, v⟩ := p
        have hm : (k, v) ∈ updateData := by rw [hu]; simp
        obtain ⟨h1, h2, h3, h4, s, h5, _⟩ := (hmem k v).mp hm
        exact ⟨k, h1, h2, h3, h4, s, h5⟩
  · have h1 := updateFieldsLoop_noBatch env uid (data.get "uid") fields validated [] w2
    rw [hloop] at h1
    have h2 := (validateData_readOnly env uid hooked).noBatch
      { db := w.db, trace := w.trace ++ [.hook "filter:user.updateProfile"] }
    rw [hvalid] at h2
    simp only [] at h1 h2
    rw [h1, h2]
    simp [List.filter_append, Event.isSetUserFields]
  · intro k v hk hm
    exact hk ((hmem k v).mp hm).1
  · intro k v hs hm
    obtain ⟨_, _, _, _, s, h5, _⟩ := (hmem k v).mp hm
    exact hs s h5


/-- C22, amended: every run of `updateProfile`. The field list given to the
hook holds the seven built-in fields, the configured custom field keys and the
elements of an array `extraFields`. A run that fails performs no batched write.
A run that settles went through the hook, which returned the data `hooked` and
the field list `fields`, through the validation, which returned `validated`,
and through the callbacks of the fields, which collected `updateData`. For a
key other than `groupTitle`, `updateData` holds the pair of the key and a
value exactly when the key is in `fields`, is not `email`, `username` or
`fullname`, and `hooked[key]` is a string whose trim is the value. For
`groupTitle` the string trimmed is the validated one: the text of the first
title when `hooked.groupTitle` is the JSON text of an array of several titles
and multiple badges are not allowed, and `hooked.groupTitle` otherwise. The
keys of `updateData` are distinct; it is empty exactly when no field of
`fields` other than the three has a string in `hooked`; the batched writes of
the run are the single write of `updateData` on the target user when it is not
empty, and none when it is empty. Hence a key outside `fields` and a key whose
value in `hooked` is not a string are never in the batched write. -/
theorem updateProfile_batched_write (env : Env) (uid : JSVal) (data : JSObject)
    (extraFields : Option (List String)) (w w' : World) (r : Except JSError JSObject)
    (hrun : User.updateProfile env uid data extraFields w = (r, w')) :
    (∀ k, k ∈ profileFields (w.db.getSortedSetRange "user-custom-fields") extraFields ↔
      (k ∈ ["username", "email", "fullname", "groupTitle", "birthday", "signature", "aboutme"] ∨
        k ∈ w.db.getSortedSetRange "user-custom-fields" ∨
        ∃ extra, extraFields = some extra ∧ k ∈ extra)) ∧
    (∀ e, r = .error e →
      w'.trace.filter Event.isSetUserFields = w.trace.filter Event.isSetUserFields) ∧
    (∀ result, r = .ok result →
      ∃ (hooked validated final updateData : JSObject) (fields : List String) (w2 w3 : World),
        env.filterUpdateProfile uid data
          (profileFields (w.db.getSortedSetRange "user-custom-fields") extraFields) =
            .ok (hooked, fields) ∧
        validateData env uid hooked
          { db := w.db, trace := w.trace ++ [.hook "filter:user.updateProfile"] } =
            (.ok validated, w2) ∧
        updateFieldsLoop env uid (data.get "uid") fields validated [] w2 =
          (.ok (final, updateData), w3) ∧
        (∀ k v, k ≠ "groupTitle" →
          ((k, v) ∈ updateData ↔
            (k ∈ fields ∧ k ≠ "email" ∧ k ≠ "username" ∧ k ≠ "fullname" ∧
              ∃ s, hooked.read k = .str s ∧ v = .str (jsTrim s)))) ∧
        (∀ v, ("groupTitle", v) ∈ updateData ↔
          ("groupTitle" ∈ fields ∧
            ∃ s, validated.read "groupTitle" = .str s ∧ v = .str (jsTrim s))) ∧
        (∀ s titles, hooked.read "groupTitle" = .str s → s ≠ "" → env.isJSON s = true →
          env.jsonParse s = some (.arr titles) → env.config.allowMultipleBadges = false →
          1 < titles.length →
          validated.read "groupTitle" =
            .str (env.jsonStringify (titles.headD .undefined))) ∧
        ((¬ ∃ s titles, hooked.read "groupTitle" = .str s ∧ s ≠ "" ∧ env.isJSON s = true ∧
            env.jsonParse s = some (.arr titles) ∧ env.config.allowMultipleBadges = false ∧
            1 < titles.length) →
          validated.read "groupTitle" = hooked.read "groupTitle") ∧
        (updateData.map Prod.fst).Nodup ∧
        (updateData = [] ↔
          ¬ ∃ k, k ∈ fields ∧ k ≠ "email" ∧ k ≠ "username" ∧ k ≠ "fullname" ∧
            ∃ s, hooked.read k = .str s) ∧
        w'.db = (if updateData.isEmpty then w3.db
          else w3.db.setObject ("user:" ++ (data.get "uid").toStr) updateData) ∧
        w'.trace.filter Event.isSetUserFields =
          w.trace.filter Event.isSetUserFields ++
            (if updateData.isEmpty then []
              else [Event.setUserFields (data.get "uid") updateData]) ∧
        (∀ k v, k ∉ fields → (k, v) ∉ updateData) ∧
        (∀ k v, (∀ s, hooked.read k ≠ .str s) → (k, v) ∉ updateData)) := by
  refine ⟨fun k => mem_profileFields _ _ k, ?_⟩
  have hrun0 := hrun
  unfold User.updateProfile at hrun
  rw [Eff.bind_of_ok (db.getSortedSetRange "user-custom-fields") _ w w _ rfl] at hrun
  by_cases huid : (data.get "uid").truthy = true
  · simp only [huid, Bool.not_true, Bool.false_eq_true, if_false] at hrun
    rw [Eff.bind_of_ok (Eff.emit (.hook "filter:user.updateProfile")) _ w _ () rfl] at hrun
    have hw1 : (w.trace ++ [Event.hook "filter:user.updateProfile"]).filter
        Event.isSetUserFields = w.trace.filter Event.isSetUserFields := by
      simp [List.filter_append, Event.isSetUserFields]
    cases hh : env.filterUpdateProfile uid data
        (profileFields (w.db.getSortedSetRange "user-custom-fields") extraFields) with
    | error e0 =>
      rw [hh] at hrun
      cases hrun
      exact ⟨fun _ _ => hw1, fun _ h => by cases h⟩
    | ok p =>
      obtain ⟨hooked, fields⟩ := p
      rw [hh, Eff.bind_of_ok (Eff.ofExcept (.ok (hooked, fields))) _ _ _ _ rfl] at hrun
      simp only [] at hrun
      have hv2 := (validateData_readOnly env uid hooked).noBatch
        { db := w.db, trace := w.trace ++ [.hook "filter:user.updateProfile"] }
      cases hv : validateData env uid hooked
          { db := w.db, trace := w.trace ++ [.hook "filter:user.updateProfile"] } with
      | mk rv w2 =>
        rw [hv] at hv2
        simp only [] at hv2
        cases rv with
        | error e0 =>
          rw [Eff.bind_of_error (validateData env uid hooked) _ _ _ _ hv] at hrun
          cases hrun
          exact ⟨fun _ _ => by rw [hv2, hw1], fun _ h => by cases h⟩
        | ok validated =>
          rw [Eff.bind_of_ok (validateData env uid hooked) _ _ _ _ hv] at hrun
          rw [Eff.bind_of_ok (User.getUserFields (data.get "uid") fields) _ w2 w2 _ rfl]
            at hrun
          have hl2 := updateFieldsLoop_noBatch env uid (data.get "uid") fields validated [] w2
          cases hl : updateFieldsLoop env uid (data.get "uid") fields validated [] w2 with
          | mk rl w3 =>
            rw [hl] at hl2
            simp only [] at hl2
            cases rl with
            | error e0 =>
              rw [Eff.bind_of_error (updateFieldsLoop env uid (data.get "uid") fields
                validated []) _ _ _ _ hl] at hrun
              cases hrun
              exact ⟨fun _ _ => by rw [hl2, hv2, hw1], fun _ h => by cases h⟩
            | ok pr =>
              obtain ⟨final, updateData⟩ := pr
              obtain ⟨h1, h2, h3, ⟨result0, h4⟩, h5, h6, h7⟩ :=
                updateProfile_settled_loop env uid data extraFields w w2 w3 hooked validated
                  final updateData fields huid hh hv hl
              obtain ⟨v1, v2, v3⟩ := validateData_settled env uid hooked validated _ _ hv
              rw [h4] at hrun0
              cases hrun0
              have hstr : ∀ k, k ≠ "email" → k ≠ "username" →
                  ((∃ s, validated.read k = .str s) ↔ ∃ s, hooked.read k = .str s) := by
                intro k ke ku
                by_cases kg : k = "groupTitle"
                · subst kg
                  by_cases hc : ∃ s titles, hooked.read "groupTitle" = .str s ∧ s ≠ "" ∧
                      env.isJSON s = true ∧ env.jsonParse s = some (.arr titles) ∧
                      env.config.allowMultipleBadges = false ∧ 1 < titles.length
                  · obtain ⟨s, titles, c1, c2, c3, c4, c5, c6⟩ := hc
                    exact ⟨fun _ => ⟨s, c1⟩, fun _ => ⟨_, v2 s titles c1 c2 c3 c4 c5 c6⟩⟩
                  · rw [v3 hc]
                · rw [v1 k ke ku kg]
              refine ⟨fun _ h => (by cases h), fun _ _ => ?_⟩
              refine ⟨hooked, validated, final, updateData, fields, w2, w3, rfl, hv, hl, ?_, ?_,
                v2, v3, h2, ?_, rfl, ?_, h6, ?_⟩
              · intro k v kg
                rw [h1 k v]
                constructor
                · rintro ⟨a, b, c, d, s, e, f⟩
                  exact ⟨a, b, c, d, s, by rw [← v1 k b c kg]; exact e, f⟩
                · rintro ⟨a, b, c, d, s, e, f⟩
                  exact ⟨a, b, c, d, s, by rw [v1 k b c kg]; exact e, f⟩
              · intro v
                rw [h1 "groupTitle" v]
                constructor
                · rintro ⟨a, _, _, _, s, e, f⟩
                  exact ⟨a, s, e, f⟩
                · rintro ⟨a, s, e, f⟩
                  exact ⟨a, by decide, by decide, by decide, s, e, f⟩
              · rw [h3]
                constructor
                · intro hno
                  rintro ⟨k, a, b, c, d, hs⟩
                  exact hno ⟨k, a, b, c, d, (hstr k b c).mpr hs⟩
                · intro hno
                  rintro ⟨k, a, b, c, d, hs⟩
                  exact hno ⟨k, a, b, c, d, (hstr k b c).mp hs⟩
              · simp only [List.filter_append, h5]
                cases updateData <;> simp [Event.isSetUserFields]
              · intro k v hs hm
                obtain ⟨_, b, c, _, s, e, _⟩ := (h1 k v).mp hm
                obtain ⟨s', hs'⟩ := (hstr k b c).mp ⟨s, e⟩
                exact hs s' hs'
  · have hf : (data.get "uid").truthy = false := by simpa using huid
    simp only [hf, Bool.not_false, if_true] at hrun
    cases hrun
    exact ⟨fun _ _ => rfl, fun _ h => by cases h⟩


/-- C22, as stated, fails: with multiple badges not allowed, the body
`{uid: 2, groupTitle: '["C", "Ruby"]'}` settles with the batched write of
`groupTitle` as the text of the first title, `"C"` in quotes, and not as the
trim of the submitted text. -/
theorem updateProfile_groupTitle_first_title :
    User.updateProfile quotingEnv (.num (.int 2))
        [("uid", .num (.int 2)), ("groupTitle", .str "[\"C\", \"Ruby\"]")] none demoWorld =
      (.ok [("email", .null), ("username", .str "highRepUser"),
          ("userslug", .str "highrepuser"), ("picture", .null), ("icon:text", .null),
          ("icon:bgColor", .null)],
        { db := demoDB.setObject "user:2" [("groupTitle", .str "\"C\"")],
          trace := [.hook "filter:user.updateProfile",
            .setUserFields (.num (.int 2)) [("groupTitle", .str "\"C\"")],
            .hook "action:user.updateProfile",
            .activitypubProfile (.num (.int 2)) (.num (.int 2))] }) ∧
    jsTrim "[\"C\", \"Ruby\"]" = "[\"C\", \"Ruby\"]" ∧
    "\"C\"" ≠ jsTrim "[\"C\", \"Ruby\"]" :=
  ⟨rfl, by decide, by decide⟩

/-- C22, amended, on user 2 of the sample store, for the body with a signature
in blanks, the custom field `soccerTeam`, the number 13 as `luckyNumber` and a
`reputation` key: the custom field keys are in the field list, the run
settles, its only batched write holds the trimmed signature and the team, and
the stored reputation and lucky number are what they were. -/
theorem updateProfile_batched_write_witness :
    User.updateProfile passwordEnv (.num (.int 2))
        [("uid", .num (.int 2)), ("signature", .str "  Hello  "),
          ("soccerTeam", .str "Liverpool"), ("luckyNumber", .num (.int 13)),
          ("reputation", .str "9000")] none demoWorld =
      (.ok [("email", .null), ("username", .str "highRepUser"),
          ("userslug", .str "highrepuser"), ("picture", .null), ("icon:text", .null),
          ("icon:bgColor", .null)],
        { db := demoDB.setObject "user:2"
            [("signature", .str "Hello"), ("soccerTeam", .str "Liverpool")],
          trace := [.hook "filter:user.updateProfile",
            .setUserFields (.num (.int 2))
              [("signature", .str "Hello"), ("soccerTeam", .str "Liverpool")],
            .hook "action:user.updateProfile",
            .activitypubProfile (.num (.int 2)) (.num (.int 2))] }) ∧
    "soccerTeam" ∈ profileFields (demoDB.getSortedSetRange "user-custom-fields") none ∧
    ((demoDB.setObject "user:2"
        [("signature", .str "Hello"), ("soccerTeam", .str "Liverpool")]).getObject "user:2").get
      "reputation" = .num (.int 10) ∧
    ((demoDB.setObject "user:2"
        [("signature", .str "Hello"), ("soccerTeam", .str "Liverpool")]).getObject "user:2").get
      "luckyNumber" = .undefined ∧
    ∃ (updateData hooked : JSObject) (fields : List String),
      (∀ k v, k ≠ "groupTitle" →
        ((k, v) ∈ updateData ↔
          (k ∈ fields ∧ k ≠ "email" ∧ k ≠ "username" ∧ k ≠ "fullname" ∧
            ∃ s, hooked.read k = .str s ∧ v = .str (jsTrim s)))) ∧
      [Event.setUserFields (.num (.int 2))
          [("signature", .str "Hello"), ("soccerTeam", .str "Liverpool")]] =
        [] ++ (if updateData.isEmpty then []
          else [Event.setUserFields (.num (.int 2)) updateData]) := by
  have h := updateProfile_batched_write passwordEnv (.num (.int 2))
    [("uid", .num (.int 2)), ("signature", .str "  Hello  "),
      ("soccerTeam", .str "Liverpool"), ("luckyNumber", .num (.int 13)),
      ("reputation", .str "9000")] none demoWorld _ _ rfl
  refine ⟨rfl, (h.1 "soccerTeam").mpr (Or.inr (Or.inl (by decide))), rfl, rfl, ?_⟩
  obtain ⟨hooked, validated, final, updateData, fields, w2, w3, -, -, -, h1, -, -, -, -, -, -,
    h5, -, -⟩ := h.2.2 _ rfl
  exact ⟨updateData, hooked, fields, h1, h5⟩

end NodeBB
